import Mathlib

/-!
The rubix-nexus command line tool: contract and identity pipelines.

A shallow embedding of the Go packages `config`, `contract` and `did`.

* Go `error` values are represented by their message (`err.Error()`), so
  `fmt.Errorf("ctx: %w", err)` is string concatenation.
* The machine outside the program (filesystem, processes, remote node, the Go
  standard library's codecs and path functions) is an explicit `Env` record of
  oracles; every oracle may depend on the whole `World` reached so far, so the
  environment is arbitrary (possibly failing) but deterministic per run.
* Effects are recorded, in order, in `World.trace`.
-/

namespace Nexus

/-! ## Data model -/

/-- DeploymentStage of `contract/types.go`. -/
inductive DeploymentStage
  | StageBuild
  | StageGenerate
  | StageDeploy
  deriving DecidableEq, Repr

/-- DeploymentResult of `contract/types.go`. -/
structure DeploymentResult where
  ContractHash : String
  Success : Bool
  Message : String
  deriving DecidableEq, Repr

/-- ExecutionResult of `contract/types.go`. -/
structure ExecutionResult where
  Success : Bool
  Message : String
  ContractResult : String
  deriving DecidableEq, Repr

/-- SmartContractResult of `contract/types.go`. -/
structure SmartContractResult where
  Id : String
  Mode : Int
  Hash : String
  OnlyPrivKey : Bool
  deriving DecidableEq, Repr

/-- SmartContractAPIResponseV1 of `contract/types.go`. -/
structure SmartContractAPIResponseV1 where
  Status : Bool
  Message : String
  Result : String
  deriving DecidableEq, Repr

/-- SmartContractAPIResponseV2 of `contract/types.go`. -/
structure SmartContractAPIResponseV2 where
  Status : Bool
  Message : String
  Result : SmartContractResult
  deriving DecidableEq, Repr

/-- The field `Result` of `createDidResponse`. -/
structure createDidResult where
  DID : String
  PeerID : String
  deriving DecidableEq, Repr

/-- The type `createDidResponse` of `did/types.go`. -/
structure createDidResponse where
  Status : Bool
  Message : String
  Result : createDidResult
  deriving DecidableEq, Repr

/-- The field `Result` of `registerDidResponse`. -/
structure registerDidResult where
  Id : String
  Mode : Int
  OnlyPrivKey : Bool
  deriving DecidableEq, Repr

/-- The type `registerDidResponse` of `did/types.go`. -/
structure registerDidResponse where
  Status : Bool
  Message : String
  Result : registerDidResult
  deriving DecidableEq, Repr

/-- NetworkConfig of `config/types.go`. -/
structure NetworkConfig where
  DeployerNodeURL : String
  deriving DecidableEq, Repr

/-- Config of `config/types.go`. -/
structure Config where
  Network : NetworkConfig
  deriving DecidableEq, Repr

/-- A decimal constant `mantissa * 10 ^ exp10`, used for the `float64` literal
`0.001` carried by the deploy request. -/
structure Decimal where
  mantissa : Int
  exp10 : Int
  deriving DecidableEq, Repr

/-- One part of a multipart form: the file name and the bytes copied into it. -/
structure FormFile where
  filename : String
  content : String
  deriving DecidableEq, Repr

/-- The request bodies the program sends, before `json.Marshal` or the
multipart writer serialises them; field names are the wire names. -/
inductive Request
  | generateSmartContract (did : String) (binaryCodePath rawCodePath schemaFilePath : FormFile)
  | deploySmartContract (comment deployerAddr : String) (quorumType : Int)
      (rbtAmount : Decimal) (smartContractToken : String)
  | executeSmartContract (comment executorAddr : String) (quorumType : Int)
      (smartContractData smartContractToken : String)
  | signatureResponse (id : String) (mode : Int) (password : String)
  | generateTestToken (number_of_tokens : Int) (did : String)
  | registerDid (did : String)
  | createDid (did_config : String)
  deriving DecidableEq, Repr

/-- What `client.Do` followed by `io.ReadAll(resp.Body)` yields. -/
inductive HttpReply
  | sendFailed (e : String)
  | readFailed (e : String)
  | body (statusCode : Nat) (text : String)
  deriving DecidableEq, Repr

/-- An observable effect of the program. -/
inductive Event
  | stage (s : DeploymentStage)
  | mkdirAll (path : String)
  | writeFile (path content : String)
  | exec (name : String) (args : List String) (dir : String)
  | post (url : String) (req : Request) (reply : HttpReply)
  | wasmCall (modulePath payload : String)
  | println (text : String)
  deriving DecidableEq, Repr

/-- The filesystem: regular files (path and content, first entry wins) and
directories. -/
structure FS where
  files : List (String × String)
  dirs : List String
  deriving DecidableEq, Repr

/-- The state threaded through the program: filesystem and effect trace
(oldest event first). -/
structure World where
  fs : FS
  trace : List Event
  deriving DecidableEq, Repr

/-- Filesystem operations that may fail for reasons outside the model. -/
inductive IOOp
  | mkdirAll (path : String)
  | writeFile (path : String)
  | readFile (path : String)
  | openFile (path : String)
  | copyFile (path : String)
  | readDir (path : String)
  deriving DecidableEq, Repr

/-- Result of running an external process to completion. -/
structure CmdResult where
  failed : Option String
  output : String
  fsAfter : FS

/-- Outcome of a Go call that may also abort with a runtime panic. -/
inductive Res (α : Type)
  | ok (a : α)
  | err (msg : String)
  | panic (msg : String)
  deriving DecidableEq, Repr

/-- A JSON number as written: `(-1) ^ neg * digits * 10 ^ exp10`. -/
structure NumLit where
  neg : Bool
  digits : Nat
  exp10 : Int
  deriving DecidableEq, Repr

/-- A finite `float64`: `(-1) ^ neg * mant * 2 ^ exp2` with `mant < 2 ^ 53`
and `-1074 ≤ exp2 ≤ 971`. -/
structure Float64 where
  neg : Bool
  mant : Nat
  exp2 : Int
  deriving DecidableEq, Repr

/-- A JSON text as the scanner of `encoding/json` reads it: object members in
the order written, duplicate names kept, numbers as written. -/
inductive JSON
  | null
  | bool (b : Bool)
  | number (n : NumLit)
  | string (s : String)
  | array (xs : List JSON)
  | object (ms : List (String × JSON))
  deriving Repr

/-- A dynamically typed Go value, as `encoding/json` stores it in an
`interface{}`: numbers are `float64`, objects are `map[string]interface{}`
(kept as a list with pairwise distinct keys). -/
inductive Dyn
  | null
  | bool (b : Bool)
  | number (f : Float64)
  | string (s : String)
  | array (xs : List Dyn)
  | object (m : List (String × Dyn))
  deriving Repr

/-- The environment: standard-library functions that are not part of the
repository, and the outside world's answers. -/
structure Env where
  /-- The function `filepath.Join`. -/
  join : List String → String
  /-- The function `filepath.Dir`. -/
  dir : String → String
  /-- The function `filepath.Base`. -/
  base : String → String
  /-- The function `url.JoinPath` with one path element. -/
  joinPath : String → String → Except String String
  /-- The function `os.IsPathSeparator`. -/
  isPathSeparator : Char → Bool
  /-- The constant `os.PathSeparator`. -/
  pathSeparator : Char
  /-- The constant `runtime.GOOS`. -/
  goos : String
  /-- The function `unicode.ToLower` on runes outside ASCII (a table of the
  standard library). -/
  lowerTable : Char → Char
  /-- The function `fmt.Sprintf(format)` without operands, applied to the part
  of a format string that starts at its first `%`. -/
  fmtVerbs : List Char → List Char
  /-- The function `http.NewRequest("POST", url, body)`: does it reject the
  URL. -/
  newRequestFails : String → Option String
  /-- Whether a filesystem operation fails in the current world, with the
  error text. -/
  ioFails : World → IOOp → Option String
  /-- The function `os.Getwd`. -/
  getwd : World → Except String String
  /-- The function `exec.LookPath`: is the executable on the search path. -/
  lookPath : World → String → Bool
  /-- Run a process (name, arguments, working directory) to completion. -/
  run : World → String → List String → String → CmdResult
  /-- The remote node: reply to a POST to `url`. -/
  http : World → String → Request → HttpReply
  /-- Decoding by `json.Unmarshal` into `SmartContractAPIResponseV1`. -/
  unmarshalV1 : String → Except String SmartContractAPIResponseV1
  /-- Decoding by `json.Unmarshal` into `SmartContractAPIResponseV2`. -/
  unmarshalV2 : String → Except String SmartContractAPIResponseV2
  /-- Decoding by `json.Unmarshal` into `createDidResponse`. -/
  unmarshalCreateDid : String → Except String createDidResponse
  /-- Decoding by `json.Unmarshal` into `registerDidResponse`. -/
  unmarshalRegisterDid : String → Except String registerDidResponse
  /-- The scanner of `json.Unmarshal`: the whole text must be one JSON value. -/
  jsonScan : String → Except String JSON
  /-- The scanner of `json.Decoder.Decode`: the first JSON value of the text. -/
  jsonScanFirst : String → Except String JSON
  /-- The text `json.Marshal` writes for a tree (compact, HTML-escaped). -/
  jsonPrint : JSON → String
  /-- Decoding by `toml.Unmarshal` into `Config`. -/
  tomlUnmarshal : String → Except String Config
  /-- The function `wasmbridge.NewWasmModule`: does loading the module at the
  path fail. -/
  newWasmModule : World → String → Option String
  /-- The method `WasmModule.CallFunction` of the module at the path. -/
  callFunction : World → String → String → Except String String

/-! ## Filesystem primitives -/

/-- The order in which `json.Marshal` sorts map keys (byte-wise, which for
UTF-8 is the order of code points): is `a ≤ b`. -/
def keyLe : List Char → List Char → Bool
  | [], _ => true
  | _ :: _, [] => false
  | a :: as, b :: bs => if a.toNat < b.toNat then true else if b.toNat < a.toNat then false else keyLe as bs


/-- Content of the regular file at `path`, if any. -/
def FS.read (fs : FS) (path : String) : Option String :=
  fs.files.lookup path

/-- Modelled from the spec: `utils.FileExists` (package `utils` is not among
the sources); "absent"/"present" of the state file and the artifact is taken
as: a regular file is stored at the path. -/
def FileExists (w : World) (path : String) : Bool :=
  (w.fs.read path).isSome

/-- The call `os.MkdirAll(path, 0755)`. -/
def MkdirAll (env : Env) (path : String) (w : World) : Except String Unit × World :=
  match env.ioFails w (.mkdirAll path) with
  | some e => (.error e, w)
  | none =>
    (.ok (), { fs := { w.fs with dirs := path :: w.fs.dirs },
               trace := w.trace ++ [.mkdirAll path] })

/-- The call `os.WriteFile(path, content, 0644)`. -/
def WriteFile (env : Env) (path content : String) (w : World) : Except String Unit × World :=
  match env.ioFails w (.writeFile path) with
  | some e => (.error e, w)
  | none =>
    (.ok (), { fs := { w.fs with files := (path, content) :: w.fs.files.filter (fun f => f.1 != path) },
               trace := w.trace ++ [.writeFile path content] })

/-- The call `os.ReadFile(path)`. -/
def ReadFile (env : Env) (path : String) (w : World) : Except String String :=
  match env.ioFails w (.readFile path) with
  | some e => .error e
  | none =>
    match w.fs.read path with
    | some c => .ok c
    | none => .error ("open " ++ path ++ ": no such file or directory")

/-- The call `os.Open(path)`; the handle is the file's content. -/
def OpenFile (env : Env) (path : String) (w : World) : Except String String :=
  match env.ioFails w (.openFile path) with
  | some e => .error e
  | none =>
    match w.fs.read path with
    | some c => .ok c
    | none => .error ("open " ++ path ++ ": no such file or directory")

/-- The call `io.Copy(part, file)` from an opened file into a form part held
in memory: only reading can fail. -/
def CopyFile (env : Env) (path : String) (w : World) : Except String Unit :=
  match env.ioFails w (.copyFile path) with
  | some e => .error e
  | none => .ok ()

/-- The call `os.ReadDir(path)`: the names of the entries of the directory,
sorted by name. -/
def ReadDir (env : Env) (path : String) (w : World) : Except String (List String) :=
  match env.ioFails w (.readDir path) with
  | some e => .error e
  | none =>
    let inside := fun (p : String) => env.dir p == path
    let names := ((w.fs.files.map Prod.fst).filter inside ++ w.fs.dirs.filter inside).map env.base
    if names.isEmpty ∧ path ∉ w.fs.dirs then
      .error ("open " ++ path ++ ": no such file or directory")
    else .ok (names.insertionSort (fun a b => keyLe a.data b.data = true))

/-- Run an external process to completion and record it. -/
def runCmd (env : Env) (name : String) (args : List String) (dir : String) (w : World) :
    CmdResult × World :=
  let r := env.run w name args dir
  (r, { fs := r.fsAfter, trace := w.trace ++ [.exec name args dir] })

/-- Send a POST request with `client.Do`, read the body, and record it. -/
def doPost (env : Env) (url : String) (req : Request) (w : World) : HttpReply × World :=
  let r := env.http w url req
  (r, { w with trace := w.trace ++ [.post url req r] })

/-- The stage callback: the stage is reported to the caller. -/
def onStage (s : DeploymentStage) (w : World) : World :=
  { w with trace := w.trace ++ [.stage s] }

/-- The function `strings.Contains` on character lists. -/
def containsSub : List Char → List Char → Bool
  | [], sub => sub.isEmpty
  | c :: cs, sub => sub.isPrefixOf (c :: cs) || containsSub cs sub

/-- The function `strings.Contains`. -/
def Contains (s sub : String) : Bool := containsSub s.data sub.data

/-- The call `strings.ReplaceAll(s, "-", "_")`. -/
def hyphensToUnderscores (s : String) : String :=
  String.mk (s.data.map (fun c => if c = '-' then '_' else c))

/-- The message of `fmt.Errorf(format)` called with a format string and no
operands: text before the first `%` is copied, the rest is verb processing of
the standard library. -/
def Errorf0 (env : Env) (format : String) : String :=
  let lit := format.data.takeWhile (fun c => c != '%')
  let rest := format.data.dropWhile (fun c => c != '%')
  String.mk (lit ++ (if rest.isEmpty then [] else env.fmtVerbs rest))

/-! ## contract/bootstrap.go -/

/-- The function `unicode.ToLower` on one rune: ASCII is computed, the rest is
the library's case table. -/
def toLowerRune (env : Env) (c : Char) : Char :=
  if c.val < 128 then
    (if 'A' ≤ c ∧ c ≤ 'Z' then Char.ofNat (c.toNat + 32) else c)
  else env.lowerTable c

/-- The function `strings.ToLower`. -/
def ToLower (env : Env) (s : String) : String :=
  String.mk (s.data.map (toLowerRune env))

/-- The condition of the loop body of `isValidRustName`:
`(r >= 'a' && r <= 'z') || (r >= '0' && r <= '9') || r == '-'`. -/
def nameRune (r : Char) : Bool :=
  (decide ('a' ≤ r) && decide (r ≤ 'z')) || (decide ('0' ≤ r) && decide (r ≤ '9')) || r == '-'

/-- The function `isValidRustName`. `name[0]` and `name[len(name)-1]` are
bytes; a byte of a UTF-8 string equals `'-'` exactly when the character
at that end is `'-'`, so they are read as the first and last character. -/
def isValidRustName (env : Env) (name : String) : Bool :=
  if name = "" then false
  else if name ≠ ToLower env name then false
  else if !(name.data.all nameRune) then false
  else if name.data.head? = some '-' ∨ name.data.getLast? = some '-' then false
  else true

/-- The constant `cargoTemplate`, split at its `%s`. -/
def cargoTemplate : String × String :=
  ("[package]\nname = \"",
   "\"\nversion = \"0.1.0\"\nedition = \"2021\"\n\n[build]\ntarget = \"wasm32-unknown-unknown\"\n\n[lib]\ncrate-type = [\"cdylib\", \"rlib\"]\n\n[dependencies]\nserde = \x7b version = \"1.0\", features = [\"derive\"] \x7d\nserde_json = \"1.0\"\nrubixwasm-std = \x7b git = \"https://github.com/rubixchain/rubix-wasm.git\", subdir = \"packages/std\" \x7d\n")

/-- The constant `libTemplate`. -/
def libTemplate : String :=
  "use rubixwasm_std::\x7berrors::WasmError, contract_fn\x7d;\nuse serde::\x7bDeserialize, Serialize\x7d;\n\n#[derive(Serialize, Deserialize)]\npub struct AddThreeNumsReq \x7b\n    pub a: u32,\n    pub b: u32,\n    pub c: u32,\n\x7d\n\n// A sample smart contract function that adds three numbers.\n// Every Rubix Smart Contract function expects a single struct input,\n// and the output must be of type Result<String, WasmError>\n#[contract_fn]\npub fn add_three_nums(input: AddThreeNumsReq) -> Result<String, WasmError> \x7b\n    if input.b == 0 \x7b\n        return Err(WasmError::from(\"Parameter \x27b\x27 cannot be zero\"))\n    \x7d\n\n    let sum = input.a + input.b + input.c;\n    Ok(sum.to_string())\n\x7d\n"

/-- The function `Bootstrap`: `none` is a nil error. -/
def Bootstrap (env : Env) (name : String) (w : World) : Option String × World :=
  if name = "" then (some "contract name cannot be empty", w)
  else if !(isValidRustName env name) then
    (some "invalid contract name: must be a valid Rust package name (lowercase alphanumeric with hyphens)", w)
  else
    match MkdirAll env name w with
    | (.error e, w1) => (some ("failed to create project directory: " ++ e), w1)
    | (.ok _, w1) =>
      let srcDir := env.join [name, "src"]
      match MkdirAll env srcDir w1 with
      | (.error e, w2) => (some ("failed to create src directory: " ++ e), w2)
      | (.ok _, w2) =>
        let cargoContent := cargoTemplate.1 ++ name ++ cargoTemplate.2
        match WriteFile env (env.join [name, "Cargo.toml"]) cargoContent w2 with
        | (.error e, w3) => (some ("failed to create Cargo.toml: " ++ e), w3)
        | (.ok _, w3) =>
          match WriteFile env (env.join [srcDir, "lib.rs"]) libTemplate w3 with
          | (.error e, w4) => (some ("failed to create lib.rs: " ++ e), w4)
          | (.ok _, w4) => (none, w4)

/-! ## config/config.go -/

/-- The function `LoadConfig`. -/
def LoadConfig (env : Env) (homeDir : String) (w : World) : Except String Config :=
  let configPath := env.join [homeDir, ".rubix-nexus", "config.toml"]
  if (w.fs.read configPath).isNone ∧ configPath ∉ w.fs.dirs then
    .error ("config file not found at " ++ configPath)
  else
    match ReadFile env configPath w with
    | .error e => .error ("failed to read config file: " ++ e)
    | .ok content =>
      match env.tomlUnmarshal content with
      | .error e => .error ("failed to parse config file: " ++ e)
      | .ok config => .ok config

/-! ## contract/deploy.go -/

/-- The function `isValidContractDir`. -/
def isValidContractDir (env : Env) (dir : String) (w : World) : Bool :=
  FileExists w (env.join [dir, "src", "lib.rs"])

/-- The function `verifyBuildPrerequisites`. -/
def verifyBuildPrerequisites (env : Env) (w : World) : Except String Unit × World :=
  if !(env.lookPath w "cargo") then
    (.error "Rust toolchain not found. Please install Rust from https://rustup.rs/", w)
  else
    match runCmd env "rustup" ["target", "list", "--installed"] "" w with
    | (r, w1) =>
      if r.failed.isSome || !(Contains r.output "wasm32-unknown-unknown") then
        match runCmd env "rustup" ["target", "add", "wasm32-unknown-unknown"] "" w1 with
        | (r2, w2) =>
          match r2.failed with
          | some e => (.error ("failed to add wasm32-unknown-unknown target: " ++ e), w2)
          | none => (.ok (), w2)
      else (.ok (), w1)

/-- The function `buildWasm`. -/
def buildWasm (env : Env) (projectDir : String) (w : World) : Except String String × World :=
  let targetDir := env.join [projectDir, "target"]
  match MkdirAll env targetDir w with
  | (.error e, w1) => (.error ("failed to create target directory: " ++ e), w1)
  | (.ok _, w1) =>
    match runCmd env "cargo" ["build", "--target", "wasm32-unknown-unknown"] projectDir w1 with
    | (r, w2) =>
      match r.failed with
      | some e =>
        let errMsg := r.output
        if env.goos = "windows" ∧ Contains errMsg "linker `link.exe` not found" then
          (.error "MSVC build tools not found. Please install Visual Studio Build Tools with C++ support", w2)
        else (.error ("build failed: " ++ errMsg ++ ": " ++ e), w2)
      | none =>
        let projectName := hyphensToUnderscores (env.base projectDir)
        let wasmFile := env.join [projectDir, "target", "wasm32-unknown-unknown", "debug",
          projectName ++ ".wasm"]
        if !(FileExists w2 wasmFile) then
          (.error ("WASM file not found after build at " ++ wasmFile), w2)
        else
          let artifactsDir := env.join [env.dir projectDir, "artifacts"]
          match MkdirAll env artifactsDir w2 with
          | (.error e, w3) => (.error ("failed to create artifacts directory: " ++ e), w3)
          | (.ok _, w3) =>
            let targetFile := env.join [artifactsDir, projectName ++ ".wasm"]
            match ReadFile env wasmFile w3 with
            | .error e => (.error ("failed to read WASM file: " ++ e), w3)
            | .ok input =>
              match WriteFile env targetFile input w3 with
              | (.error e, w4) => (.error ("failed to copy WASM file to artifacts: " ++ e), w4)
              | (.ok _, w4) => (.ok targetFile, w4)

/-- Open a file and copy it into a form part, as `generateSmartContract` does
for each of its three files; `what` is the name used in the error text. -/
def formPart (env : Env) (what path : String) (w : World) : Except String FormFile :=
  match OpenFile env path w with
  | .error e => .error ("failed to open " ++ what ++ " file: " ++ e)
  | .ok content =>
    match CopyFile env path w with
    | .error e => .error ("failed to copy " ++ what ++ " file: " ++ e)
    | .ok _ => .ok { filename := env.base path, content := content }

/-- What the submission functions that decode a `SmartContractAPIResponseV1`
make of the node's reply: transport errors, parse error, then the check of the
status flag. `pre` is the prefix of the transport and parse error texts. -/
def replyV1 (env : Env) (pre : String) : HttpReply → Except String SmartContractAPIResponseV1
  | .sendFailed e => .error (pre ++ "failed to send request: " ++ e)
  | .readFailed e => .error (pre ++ "failed to read response: " ++ e)
  | .body _ text =>
    match env.unmarshalV1 text with
    | .error e => .error (pre ++ "failed to parse response: " ++ e)
    | .ok apiResp =>
      if !apiResp.Status then .error (Errorf0 env apiResp.Message)
      else .ok apiResp

/-- The same for a `SmartContractAPIResponseV2`. -/
def replyV2 (env : Env) : HttpReply → Except String SmartContractAPIResponseV2
  | .sendFailed e => .error ("failed to send request: " ++ e)
  | .readFailed e => .error ("failed to read response: " ++ e)
  | .body _ text =>
    match env.unmarshalV2 text with
    | .error e => .error ("failed to parse response: " ++ e)
    | .ok apiResp =>
      if !apiResp.Status then .error (Errorf0 env apiResp.Message)
      else .ok apiResp

/-- The shared tail of the submission functions that decode a
`SmartContractAPIResponseV1`: create the request, send it, read and check the
reply. -/
def postV1 (env : Env) (pre url : String) (req : Request) (w : World) :
    Except String SmartContractAPIResponseV1 × World :=
  match env.newRequestFails url with
  | some e => (.error ("failed to create request: " ++ e), w)
  | none =>
    match doPost env url req w with
    | (reply, w1) => (replyV1 env pre reply, w1)

/-- The same tail for a `SmartContractAPIResponseV2`. -/
def postV2 (env : Env) (url : String) (req : Request) (w : World) :
    Except String SmartContractAPIResponseV2 × World :=
  match env.newRequestFails url with
  | some e => (.error ("failed to create request: " ++ e), w)
  | none =>
    match doPost env url req w with
    | (reply, w1) => (replyV2 env reply, w1)

/-- The function `generateSmartContract`. -/
def generateSmartContract (env : Env) (baseURL deployerDid wasmPath libPath statePath : String)
    (w : World) : Except String String × World :=
  match formPart env "WASM" wasmPath w with
  | .error e => (.error e, w)
  | .ok wasmPart =>
    match formPart env "lib.rs" libPath w with
    | .error e => (.error e, w)
    | .ok libPart =>
      match formPart env "state.json" statePath w with
      | .error e => (.error e, w)
      | .ok statePart =>
        let url := baseURL ++ "/api/generate-smart-contract"
        match postV1 env "" url (.generateSmartContract deployerDid wasmPart libPart statePart) w with
        | (.error e, w1) => (.error e, w1)
        | (.ok apiResp, w1) => (.ok apiResp.Result, w1)

/-- The function `deploySmartContract`. -/
def deploySmartContract (env : Env) (baseURL contractHash deployerDid : String) (w : World) :
    Except String String × World :=
  let requestBody := Request.deploySmartContract "Contract deployment" deployerDid 2
    { mantissa := 1, exp10 := -3 } contractHash
  match env.joinPath baseURL "/api/deploy-smart-contract" with
  | .error _ => (.error "deploy: unable to form request URL", w)
  | .ok requestURL =>
    match postV2 env requestURL requestBody w with
    | (.error e, w1) => (.error e, w1)
    | (.ok apiResp, w1) => (.ok apiResp.Result.Id, w1)

/-- The function `signatureResponse` of package `contract`: `none` is a nil
error. -/
def signatureResponse (env : Env) (baseURL requestID : String) (w : World) :
    Option String × World :=
  let requestBody := Request.signatureResponse requestID 0 "mypassword"
  match env.joinPath baseURL "/api/signature-response" with
  | .error _ => (some "signature response: unable to form request URL", w)
  | .ok requestURL =>
    match postV1 env "signature request: " requestURL requestBody w with
    | (.error e, w1) => (some e, w1)
    | (.ok _, w1) => (none, w1)

/-- The state-file step of `Deploy` (the block guarded by
`!utils.FileExists(statePath)`): `none` is "no error". -/
def ensureState (env : Env) (statePath : String) (w : World) : Option String × World :=
  if !(FileExists w statePath) then
    match MkdirAll env (env.dir statePath) w with
    | (.error e, w1) => (some ("failed to create artifacts directory: " ++ e), w1)
    | (.ok _, w1) =>
      match WriteFile env statePath "\x7b\x7d" w1 with
      | (.error e, w2) => (some ("failed to create state.json: " ++ e), w2)
      | (.ok _, w2) => (none, w2)
  else (none, w)

/-- The path of the state file of a project: `artifacts/state.json` next to
the project directory. -/
def statePathOf (env : Env) (contractDir : String) : String :=
  env.join [env.dir contractDir, "artifacts", "state.json"]

/-- The function `Deploy`. -/
def Deploy (env : Env) (contractDir homeDir deployerDid : String) (w : World) :
    Except String DeploymentResult × World :=
  match LoadConfig env homeDir w with
  | .error e => (.error ("failed to load config: " ++ e), w)
  | .ok cfg =>
    if !(isValidContractDir env contractDir w) then
      (.error "invalid contract directory: must contain lib.rs", w)
    else
      match verifyBuildPrerequisites env w with
      | (.error e, w1) => (.error e, w1)
      | (.ok _, w1) =>
        match buildWasm env contractDir (onStage .StageBuild w1) with
        | (.error e, w2) => (.error ("failed to build WASM: " ++ e), w2)
        | (.ok wasmPath, w2) =>
          let libPath := env.join [contractDir, "src", "lib.rs"]
          let statePath := statePathOf env contractDir
          match ensureState env statePath w2 with
          | (some e, w3) => (.error e, w3)
          | (none, w3) =>
            match generateSmartContract env cfg.Network.DeployerNodeURL deployerDid wasmPath
                libPath statePath (onStage .StageGenerate w3) with
            | (.error e, w4) => (.error ("failed to generate smart contract: " ++ e), w4)
            | (.ok contractHash, w4) =>
              match deploySmartContract env cfg.Network.DeployerNodeURL contractHash deployerDid
                  (onStage .StageDeploy w4) with
              | (.error e, w5) => (.error ("failed to deploy smart contract: " ++ e), w5)
              | (.ok requestID, w5) =>
                match signatureResponse env cfg.Network.DeployerNodeURL requestID w5 with
                | (some e, w6) => (.error ("failed to process signature response: " ++ e), w6)
                | (none, w6) =>
                  (.ok { ContractHash := contractHash, Success := true,
                         Message := "Contract deployed successfully" }, w6)

/-! ## encoding/json on dynamically typed values

`json.Unmarshal` and `Decoder.Decode` into `map[string]interface{}` followed by
`json.Marshal` are modelled on syntax trees: the scanner (text to tree) and
the printer (tree to text) are oracles of `Env`; the conversion of the tree
to Go values (numbers become `float64`, objects become maps) and back
(map keys sorted, numbers printed with the shortest digits that identify the
`float64`) is computed here. -/

/-- Round the fraction `num / den` to the nearest natural number, ties to
even. -/
def roundHalfEven (num den : Nat) : Nat :=
  let q := num / den
  let r := num % den
  if 2 * r < den then q else if den < 2 * r then q + 1 else q + q % 2

/-- Number of binary digits of `n`, computed with `fuel` steps. -/
def bitLenAux : Nat → Nat → Nat
  | 0, _ => 0
  | fuel + 1, n => if n = 0 then 0 else 1 + bitLenAux fuel (n / 2)

/-- Number of binary digits of `n`. -/
def bitLen (n : Nat) : Nat := bitLenAux n n

/-- Number of decimal digits of `n`, computed with `fuel` steps. -/
def decLenAux : Nat → Nat → Nat
  | 0, _ => 0
  | fuel + 1, n => if n = 0 then 0 else 1 + decLenAux fuel (n / 10)

/-- Number of decimal digits of `n`. -/
def decLen (n : Nat) : Nat := decLenAux n n

/-- The positive fraction `p / q` scaled by `2 ^ (-e)`, as numerator and
denominator. -/
def scale2 (p q : Nat) (e : Int) : Nat × Nat :=
  if 0 ≤ e then (p, q * 2 ^ e.toNat) else (p * 2 ^ (-e).toNat, q)

/-- The positive fraction `p / q` scaled by `10 ^ (-k)`. -/
def scale10 (p q : Nat) (k : Int) : Nat × Nat :=
  if 0 ≤ k then (p, q * 10 ^ k.toNat) else (p * 10 ^ (-k).toNat, q)

/-- The integer `⌊log₂ (p / q)⌋` for positive `p`, `q`. -/
def floorLog2 (p q : Nat) : Int :=
  let l : Int := (bitLen p : Int) - (bitLen q : Int)
  let s := scale2 p q l
  if s.2 ≤ s.1 then l else l - 1

/-- The integer `⌊log₁₀ (p / q)⌋` for positive `p`, `q`. -/
def floorLog10 (p q : Nat) : Int :=
  let l : Int := (decLen p : Int) - (decLen q : Int)
  let s := scale10 p q l
  if s.2 ≤ s.1 then l else l - 1

/-- The nearest `float64` to the positive fraction `p / q` (ties to even), as
mantissa and binary exponent; `none` when it is beyond the largest finite
value. -/
def nearestFloat64 (p q : Nat) : Option (Nat × Int) :=
  let e : Int := max (floorLog2 p q - 52) (-1074)
  let s := scale2 p q e
  let m := roundHalfEven s.1 s.2
  let me : Nat × Int := if m = 2 ^ 53 then (2 ^ 52, e + 1) else (m, e)
  if 971 < me.2 then none else some me

/-- The function `strconv.ParseFloat(s, 64)` on a JSON number literal. -/
def parseFloat64 (n : NumLit) : Option Float64 :=
  if n.digits = 0 then some { neg := n.neg, mant := 0, exp2 := 0 }
  else
    let pq : Nat × Nat :=
      if 0 ≤ n.exp10 then (n.digits * 10 ^ n.exp10.toNat, 1)
      else (n.digits, 10 ^ (-n.exp10).toNat)
    match nearestFloat64 pq.1 pq.2 with
    | none => none
    | some me => some { neg := n.neg, mant := me.1, exp2 := me.2 }

/-- Is `a1 / b1 ≤ a2 / b2` (all denominators positive). -/
def fracLe (a : Nat × Nat) (b : Nat × Nat) : Bool := decide (a.1 * b.2 ≤ b.1 * a.2)

/-- Is `a1 / b1 < a2 / b2`. -/
def fracLt (a : Nat × Nat) (b : Nat × Nat) : Bool := decide (a.1 * b.2 < b.1 * a.2)

/-- The decimal `c * 10 ^ j` as a fraction. -/
def decFrac (c : Nat) (j : Int) : Nat × Nat :=
  if 0 ≤ j then (c * 10 ^ j.toNat, 1) else (c, 10 ^ (-j).toNat)

/-- Search for the shortest decimal inside the rounding interval `lo .. hi`
of the value `v` (bounds included when `incl`): with `n` significant digits
the candidates are `v` truncated and `v` rounded up at the digit position
`j = k - n + 1`; the nearer admissible one wins, ties to the even digit. -/
def shortestAux (v lo hi : Nat × Nat) (incl : Bool) (k : Int) : Nat → Nat → Nat × Int
  | 0, n =>
    let j : Int := k - (n : Int) + 1
    let s := scale10 v.1 v.2 j
    (s.1 / s.2, j)
  | fuel + 1, n =>
    let j : Int := k - (n : Int) + 1
    let s := scale10 v.1 v.2 j
    let down := s.1 / s.2
    let up := down + 1
    let exact := decide (s.1 % s.2 = 0)
    let okdown := exact || (if incl then fracLe lo (decFrac down j) else fracLt lo (decFrac down j))
    let okup := !exact && (if incl then fracLe (decFrac up j) hi else fracLt (decFrac up j) hi)
    if okdown && okup then (roundHalfEven s.1 s.2, j)
    else if okdown then (down, j)
    else if okup then (up, j)
    else shortestAux v lo hi incl k fuel (n + 1)

/-- Strip trailing zeros of a decimal `c * 10 ^ j`. -/
def stripZeros : Nat → Nat → Int → Nat × Int
  | 0, c, j => (c, j)
  | fuel + 1, c, j => if c ≠ 0 ∧ c % 10 = 0 then stripZeros fuel (c / 10) (j + 1) else (c, j)

/-- The digits chosen by `strconv.FormatFloat(f, fmt, -1, 64)`: the shortest
decimal that `ParseFloat` maps back to `f`. -/
def shortestDecimal (mant : Nat) (exp2 : Int) : Nat × Int :=
  let v := scale2 (4 * mant) 1 (-(exp2 - 2))
  let hi := scale2 (4 * mant + 2) 1 (-(exp2 - 2))
  let lo :=
    if mant = 2 ^ 52 ∧ -1074 < exp2 then scale2 (4 * mant - 1) 1 (-(exp2 - 2))
    else scale2 (4 * mant - 2) 1 (-(exp2 - 2))
  let r := shortestAux v lo hi (mant % 2 == 0) (floorLog10 v.1 v.2) 800 1
  stripZeros 800 r.1 r.2

/-- The number that `json.Marshal` writes for a `float64`. -/
def formatFloat64 (f : Float64) : NumLit :=
  if f.mant = 0 then { neg := f.neg, digits := 0, exp10 := 0 }
  else
    let r := shortestDecimal f.mant f.exp2
    { neg := f.neg, digits := r.1, exp10 := r.2 }

/-- Do two number literals denote the same number. -/
def NumLit.sameValue (a b : NumLit) : Bool :=
  if a.digits = 0 then b.digits == 0
  else a.neg == b.neg &&
    (let x := decFrac a.digits a.exp10
     let y := decFrac b.digits b.exp10
     decide (x.1 * y.2 = y.1 * x.2))
/-- Order of two members by their names. -/
def memberLe (a b : String × JSON) : Prop := keyLe a.1.data b.1.data = true

instance : DecidableRel memberLe := fun a b => by unfold memberLe; infer_instance

mutual
/-- Storing a scanned value in an `interface{}`: the Go value, and the first
error saved while decoding (decoding goes on after it). -/
def decodeValue : JSON → Dyn × Option String
  | .null => (.null, none)
  | .bool b => (.bool b, none)
  | .number n =>
    match parseFloat64 n with
    | some f => (.number f, none)
    | none => (.null, some "json: cannot unmarshal number into Go value of type float64")
  | .string s => (.string s, none)
  | .array xs => let r := decodeArray xs; (.array r.1, r.2)
  | .object ms => let r := decodeMembers ms; (.object r.1, r.2)
/-- Decoding the elements of an array. -/
def decodeArray : List JSON → List Dyn × Option String
  | [] => ([], none)
  | x :: xs =>
    let a := decodeValue x
    let b := decodeArray xs
    (a.1 :: b.1, a.2 <|> b.2)
/-- Decoding the members of an object into a map: a member whose name occurs
again later is overwritten by the later one. -/
def decodeMembers : List (String × JSON) → List (String × Dyn) × Option String
  | [] => ([], none)
  | (k, v) :: ms =>
    let a := decodeValue v
    let b := decodeMembers ms
    (if (b.1.lookup k).isSome then b.1 else (k, a.1) :: b.1, a.2 <|> b.2)
end

/-- Decoding a scanned value into a nil `map[string]interface{}` variable: the map
left in the variable (`none` is nil) and the error. -/
def decodeMap : JSON → Option (List (String × Dyn)) × Option String
  | .null => (none, none)
  | .object ms => let r := decodeMembers ms; (some r.1, r.2)
  | _ => (none, some "json: cannot unmarshal value into Go value of type map[string]interface \x7b\x7d")

mutual
/-- The tree `json.Marshal` writes for a Go value. -/
def marshalValue : Dyn → JSON
  | .null => .null
  | .bool b => .bool b
  | .number f => .number (formatFloat64 f)
  | .string s => .string s
  | .array xs => .array (marshalArray xs)
  | .object m => .object ((marshalMembers m).insertionSort memberLe)
/-- Marshalling the elements of a slice. -/
def marshalArray : List Dyn → List JSON
  | [] => []
  | x :: xs => marshalValue x :: marshalArray xs
/-- Marshalling the entries of a map (before sorting). -/
def marshalMembers : List (String × Dyn) → List (String × JSON)
  | [] => []
  | (k, v) :: m => (k, marshalValue v) :: marshalMembers m
end

/-- The tree `json.Marshal` writes for a `map[string]interface{}` variable. -/
def marshalMap : Option (List (String × Dyn)) → JSON
  | none => .null
  | some m => marshalValue (.object m)

/-! ## contract/utils.go -/

/-- The first block of `parseContractMsgFromJSON`: the path that is opened.
`contractMsgFile[0]` is a byte: on the empty string the index is out of
range; for a first character outside ASCII it is a UTF-8 lead byte, neither a
path separator nor `'.'`. -/
def msgFilePath (env : Env) (contractMsgFile : String) (w : World) : Res String :=
  match contractMsgFile.data with
  | [] => .panic "runtime error: index out of range [0] with length 0"
  | c0 :: _ =>
    let rooted := decide (c0.toNat < 128) && (env.isPathSeparator c0 || c0 == '.')
    if !rooted then
      match env.getwd w with
      | .error e => .err ("failed to get current working directory: " ++ e)
      | .ok absPath => .ok (absPath ++ String.singleton env.pathSeparator ++ contractMsgFile)
    else .ok contractMsgFile

/-- The function `parseContractMsgFromJSON`. -/
def parseContractMsgFromJSON (env : Env) (contractMsgFile : String) (w : World) : Res String :=
  match msgFilePath env contractMsgFile w with
  | .panic p => .panic p
  | .err e => .err e
  | .ok path =>
    match OpenFile env path w with
    | .error e => .err ("failed to open contract message file: " ++ e)
    | .ok content =>
      match env.ioFails w (.readFile path) with
      | some e => .err ("failed to decode contract message: " ++ e)
      | none =>
        match env.jsonScanFirst content with
        | .error e => .err ("failed to decode contract message: " ++ e)
        | .ok t =>
          match decodeMap t with
          | (_, some e) => .err ("failed to decode contract message: " ++ e)
          | (contractMsgIntf, none) => .ok (env.jsonPrint (marshalMap contractMsgIntf))

/-! ## contract/execute.go -/

/-- The function `executeSmartContract`. -/
def executeSmartContract (env : Env) (baseURL contractHash executorDid contractMsg : String)
    (w : World) : Except String String × World :=
  let requestBody := Request.executeSmartContract "Contract execution" executorDid 2
    contractMsg contractHash
  match env.joinPath baseURL "/api/execute-smart-contract" with
  | .error _ => (.error "execute: unable to form request URL", w)
  | .ok requestURL =>
    match postV2 env requestURL requestBody w with
    | (.error e, w1) => (.error e, w1)
    | (.ok apiResp, w1) => (.ok apiResp.Result.Id, w1)

/-- The function `getWasmContractPath`. -/
def getWasmContractPath (env : Env) (contractDir : String) (w : World) : Except String String :=
  match env.getwd w with
  | .error e => .error ("failed to get current working directory: " ++ e)
  | .ok currentWorkingDir =>
    let artifactsDir := env.join [currentWorkingDir, "artifacts"]
    match ReadDir env artifactsDir w with
    | .error e => .error ("failed to read directory: " ++ e)
    | .ok entries =>
      match entries.find? (fun name => ".wasm".data.isSuffixOf name.data) with
      | some name => .ok (env.join [artifactsDir, name])
      | none => .error ("no wasm contract found in directory: " ++ contractDir)

/-- The function `callWasm`. -/
def callWasm (env : Env) (contractDir contractMsg : String) (w : World) :
    Except String String × World :=
  match getWasmContractPath env contractDir w with
  | .error e => (.error ("failed to get wasm contract path: " ++ e), w)
  | .ok wasmModulePath =>
    match env.newWasmModule w wasmModulePath with
    | some e => (.error ("failed to create wasm module: " ++ e), w)
    | none =>
      let w1 : World := { w with trace := w.trace ++ [.wasmCall wasmModulePath contractMsg] }
      match env.callFunction w wasmModulePath contractMsg with
      | .error e => (.error ("failed to call Contract function: " ++ e), w1)
      | .ok contractResult => (.ok contractResult, w1)

/-- The function `Execute`. -/
def Execute (env : Env) (contractHash executorDid homeDir contractDir contractMsgFile : String)
    (w : World) : Res ExecutionResult × World :=
  match LoadConfig env homeDir w with
  | .error e => (.err ("failed to load config: " ++ e), w)
  | .ok cfg =>
    match parseContractMsgFromJSON env contractMsgFile w with
    | .panic p => (.panic p, w)
    | .err e => (.err ("failed to read contract message file: " ++ e), w)
    | .ok contractMsg =>
      match executeSmartContract env cfg.Network.DeployerNodeURL contractHash executorDid
          contractMsg w with
      | (.error e, w1) => (.err ("failed to execute smart contract: " ++ e), w1)
      | (.ok requestID, w1) =>
        match signatureResponse env cfg.Network.DeployerNodeURL requestID w1 with
        | (some e, w2) => (.err ("failed to process signature response: " ++ e), w2)
        | (none, w2) =>
          match callWasm env contractDir contractMsg w2 with
          | (.error e, w3) => (.err ("failed to call wasm contract: " ++ e), w3)
          | (.ok contractResult, w3) =>
            (.ok { ContractResult := contractResult, Success := true,
                   Message := "Contract executed successfully" }, w3)

/-! ## did/did.go and did/rbt.go -/

/-- The function `signatureResponse` of package `did`: `none` is a nil error. -/
def didSignatureResponse (env : Env) (baseURL requestId : String) (w : World) :
    Option String × World :=
  let data := Request.signatureResponse requestId 0 "mypassword"
  match env.joinPath baseURL "/api/signature-response" with
  | .error e => (some ("failed to join URL: " ++ e), w)
  | .ok requestURL =>
    match env.newRequestFails requestURL with
    | some e => (some ("error creating HTTP request, err: " ++ e), w)
    | none =>
      match doPost env requestURL data w with
      | (.sendFailed e, w1) => (some ("error sending HTTP request, err: " ++ e), w1)
      | (.readFailed e, w1) => (some ("error reading response body: " ++ e ++ "\n"), w1)
      | (.body _ _, w1) => (none, w1)

/-- The function `GenerateOneTestRBT`: `ok ()` is a nil error. -/
def GenerateOneTestRBT (env : Env) (baseURL did : String) (w : World) : Res Unit × World :=
  match env.joinPath baseURL "/api/generate-test-token" with
  | .error _ => (.err "generate test token: unable to form request URL", w)
  | .ok requestURL =>
    let tokenRequest := Request.generateTestToken 1 did
    match env.newRequestFails requestURL with
    | some e => (.err ("failed to create request: " ++ e), w)
    | none =>
      match doPost env requestURL tokenRequest w with
      | (.sendFailed e, w1) => (.err ("failed to perform request: " ++ e), w1)
      | (.readFailed e, w1) => (.err ("failed to read response body: " ++ e), w1)
      | (.body statusCode body, w1) =>
        if statusCode ≠ 200 then
          (.err ("unexpected status code: " ++ toString statusCode ++ ", response: " ++ body), w1)
        else
          let decoded : Option (List (String × Dyn)) × Option String :=
            match env.jsonScan body with
            | .error e => (none, some e)
            | .ok t => decodeMap t
          let w2 : World :=
            match decoded.2 with
            | some err3 =>
              { w1 with trace := w1.trace ++ [.println ("Error unmarshaling response: " ++ err3)] }
            | none => w1
          match (decoded.1.getD []).lookup "result" with
          | some (.object result) =>
            match result.lookup "id" with
            | some (.string id) =>
              match didSignatureResponse env baseURL id w2 with
              | (some signRespErr, w3) => (.err ("failed to sign response: " ++ signRespErr), w3)
              | (none, w3) => (.ok (), w3)
            | _ => (.panic "interface conversion: interface \x7b\x7d is not string", w2)
          | _ =>
            (.panic "interface conversion: interface \x7b\x7d is not map[string]interface \x7b\x7d", w2)

/-- The function `registerDID`: `none` is a nil error. -/
def registerDID (env : Env) (baseURL did : String) (w : World) : Option String × World :=
  match env.joinPath baseURL "/api/register-did" with
  | .error e => (some ("failed to join URL: " ++ e), w)
  | .ok requestURL =>
    match env.newRequestFails requestURL with
    | some e => (some ("failed to create request: " ++ e), w)
    | none =>
      match doPost env requestURL (.registerDid did) w with
      | (.sendFailed e, w1) => (some ("failed to perform request: " ++ e), w1)
      | (.readFailed e, w1) => (some ("failed to read response body: " ++ e), w1)
      | (.body statusCode body, w1) =>
        if statusCode ≠ 200 then
          (some ("unexpected status code: " ++ toString statusCode ++ ", response: " ++ body), w1)
        else
          match env.unmarshalRegisterDid body with
          | .error e => (some ("registerDID: failed to unmarshal JSON: " ++ e), w1)
          | .ok registerDidResp =>
            if !registerDidResp.Status then
              (some ("failed to Register DID, error: " ++ registerDidResp.Message), w1)
            else
              let requestId := registerDidResp.Result.Id
              match didSignatureResponse env baseURL requestId w1 with
              | (some e, w2) => (some ("failed to send signature response: " ++ e), w2)
              | (none, w2) => (none, w2)

/-- The text `json.Marshal` writes for the `didConfig` map of `CreateDID`
(keys sorted). -/
def didConfigText : String :=
  "\x7b\"Type\":4,\"childPath\":0,\"mnemonic_file\":\"\",\"priv_pwd\":\"mypassword\"\x7d"

/-- The function `CreateDID`. -/
def CreateDID (env : Env) (homeDir : String) (isLocalnet : Bool) (w : World) :
    Res String × World :=
  match LoadConfig env homeDir w with
  | .error e => (.err ("failed to load config: " ++ e), w)
  | .ok cfg =>
    match env.joinPath cfg.Network.DeployerNodeURL "/api/createdid" with
    | .error e => (.err ("failed to join URL: " ++ e), w)
    | .ok requestURL =>
      match env.newRequestFails requestURL with
      | some e => (.err ("failed to create request: " ++ e), w)
      | none =>
        match doPost env requestURL (.createDid didConfigText) w with
        | (.sendFailed e, w1) => (.err ("failed to perform request: " ++ e), w1)
        | (.readFailed e, w1) => (.err ("failed to read response body: " ++ e), w1)
        | (.body statusCode responseBody, w1) =>
          if statusCode ≠ 200 then
            (.err ("unexpected status code: " ++ toString statusCode ++ ", response: " ++
              responseBody), w1)
          else
            match env.unmarshalCreateDid responseBody with
            | .error e => (.err ("createDID: failed to parse response: " ++ e), w1)
            | .ok response =>
              if !response.Status then (.err ("API error: " ++ response.Message), w1)
              else
                match registerDID env cfg.Network.DeployerNodeURL response.Result.DID w1 with
                | (some registerDidErr, w2) =>
                  (.err ("failed to register DID: " ++ registerDidErr), w2)
                | (none, w2) =>
                  if isLocalnet then
                    match GenerateOneTestRBT env cfg.Network.DeployerNodeURL
                        response.Result.DID w2 with
                    | (.err e, w3) => (.err ("failed to generate test RBT: " ++ e), w3)
                    | (.panic p, w3) => (.panic p, w3)
                    | (.ok _, w3) => (.ok response.Result.DID, w3)
                  else (.ok response.Result.DID, w2)

/-! ## Trace vocabulary -/

/-- Is the event a request sent to the remote node. -/
def Event.isPost : Event → Bool
  | .post _ _ _ => true
  | _ => false

/-- Is the event a local one: a filesystem change or a process. -/
def Event.isLocal : Event → Bool
  | .mkdirAll _ => true
  | .writeFile _ _ => true
  | .exec _ _ _ => true
  | _ => false

/-- Is the event a generate-smart-contract request. -/
def Event.isGenerateCall : Event → Bool
  | .post _ (.generateSmartContract _ _ _ _) _ => true
  | _ => false

/-- Is the event a deploy-smart-contract request. -/
def Event.isDeployCall : Event → Bool
  | .post _ (.deploySmartContract _ _ _ _ _) _ => true
  | _ => false

/-- Is the event an execute-smart-contract request. -/
def Event.isExecuteCall : Event → Bool
  | .post _ (.executeSmartContract _ _ _ _ _) _ => true
  | _ => false

/-- Is the event a signature-response request. -/
def Event.isSignatureCall : Event → Bool
  | .post _ (.signatureResponse _ _ _) _ => true
  | _ => false

/-- The world `w2` continues `w1` with events that all satisfy `P`: its trace
is the trace of `w1` followed by such events. -/
def Only (P : Event → Prop) (w1 w2 : World) : Prop :=
  ∃ evs, w2.trace = w1.trace ++ evs ∧ ∀ ev ∈ evs, P ev

/-- The world `w2` continues `w1` with local events only. -/
def Local (w1 w2 : World) : Prop := Only (fun ev => Event.isLocal ev = true) w1 w2

/-- The world after one request and its reply were recorded. -/
def World.posted (w : World) (url : String) (req : Request) (reply : HttpReply) : World :=
  { w with trace := w.trace ++ [.post url req reply] }

/-- The confirmation step reports failure on this reply: the transport failed,
the body could not be read or parsed, or the response has `status=false`. -/
def confirmationFailed (env : Env) : HttpReply → Prop
  | .sendFailed _ => True
  | .readFailed _ => True
  | .body _ text =>
    match env.unmarshalV1 text with
    | .error _ => True
    | .ok resp => resp.Status = false

/-! ## Comparing JSON texts by value -/

mutual
/-- Do two JSON texts denote the same value: numbers by their numeric value,
arrays element by element, objects as sets of members (the same names and,
for each name, the same value), whatever the order of the members. -/
def JSON.sameAs : JSON → JSON → Bool
  | .null, .null => true
  | .bool a, .bool b => a == b
  | .number a, .number b => a.sameValue b
  | .string a, .string b => a == b
  | .array xs, .array ys => sameElems xs ys
  | .object ms, .object ns =>
    ns.all (fun n => ms.any (fun m => m.1 == n.1)) && sameMembers ms ns
  | _, _ => false
/-- Element-wise comparison of arrays. -/
def sameElems : List JSON → List JSON → Bool
  | [], [] => true
  | x :: xs, y :: ys => x.sameAs y && sameElems xs ys
  | _, _ => false
/-- Every member of the first list has, under its name, the same value in the
second. -/
def sameMembers : List (String × JSON) → List (String × JSON) → Bool
  | [], _ => true
  | (k, v) :: ms, ns =>
    (match ns.lookup k with
     | some v2 => v.sameAs v2
     | none => false) && sameMembers ms ns
end

mutual
/-- No object of the text has two members with the same name. -/
def JSON.distinctKeys : JSON → Bool
  | .array xs => distinctKeysElems xs
  | .object ms => decide (ms.map Prod.fst).Nodup && distinctKeysMembers ms
  | _ => true
/-- The same for the elements of an array. -/
def distinctKeysElems : List JSON → Bool
  | [] => true
  | x :: xs => x.distinctKeys && distinctKeysElems xs
/-- The same for the values of the members of an object. -/
def distinctKeysMembers : List (String × JSON) → Bool
  | [] => true
  | (_, v) :: ms => v.distinctKeys && distinctKeysMembers ms
end

/-- The number is reproduced by `float64`: converting it and printing the
result with the shortest digits gives a number of the same value. -/
def NumLit.exact (n : NumLit) : Bool :=
  match parseFloat64 n with
  | some f => n.sameValue (formatFloat64 f)
  | none => false

mutual
/-- Every number of the text is reproduced by `float64`. -/
def JSON.exactNumbers : JSON → Bool
  | .number n => n.exact
  | .array xs => exactNumbersElems xs
  | .object ms => exactNumbersMembers ms
  | _ => true
/-- The same for the elements of an array. -/
def exactNumbersElems : List JSON → Bool
  | [] => true
  | x :: xs => x.exactNumbers && exactNumbersElems xs
/-- The same for the values of the members of an object. -/
def exactNumbersMembers : List (String × JSON) → Bool
  | [] => true
  | (_, v) :: ms => v.exactNumbers && exactNumbersMembers ms
end

mutual
/-- Structural equality of JSON texts. -/
def JSON.beq : JSON → JSON → Bool
  | .null, .null => true
  | .bool a, .bool b => a == b
  | .number a, .number b => a == b
  | .string a, .string b => a == b
  | .array xs, .array ys => beqElems xs ys
  | .object ms, .object ns => beqMembers ms ns
  | _, _ => false
/-- Structural equality of arrays. -/
def beqElems : List JSON → List JSON → Bool
  | [], [] => true
  | x :: xs, y :: ys => x.beq y && beqElems xs ys
  | _, _ => false
/-- Structural equality of member lists. -/
def beqMembers : List (String × JSON) → List (String × JSON) → Bool
  | [], [] => true
  | (k, v) :: ms, (l, u) :: ns => k == l && v.beq u && beqMembers ms ns
  | _, _ => false
end

/-- The value of the member named `k` of an object: when the name is repeated
the last occurrence counts, as in every Go map. -/
def lastMember (k : String) : List (String × JSON) → Option JSON
  | [] => none
  | (k1, v1) :: ms =>
    match lastMember k ms with
    | some v => some v
    | none => if k1 = k then some v1 else none

/-- The pending identifier carried by a response text: the string `id` inside
its object-valued `result`, if the text has one. -/
def pendingIdOf : JSON → Option String
  | .object ms =>
    match lastMember "result" ms with
    | some (.object rs) =>
      match lastMember "id" rs with
      | some (.string s) => some s
      | _ => none
    | _ => none
  | _ => none

/-! ## Stage events of a run -/

/-- The stages reported to the callback, in the order of the events. -/
def stagesOf : List Event → List DeploymentStage
  | [] => []
  | .stage s :: evs => s :: stagesOf evs
  | _ :: evs => stagesOf evs

/-- Is the event a run of `rustup`, the toolchain check. -/
def Event.isRustup : Event → Bool
  | .exec name _ _ => name == "rustup"
  | _ => false

/-- Is the event a step of the build or of the state-file preparation: a
filesystem change, or a process other than `rustup`. -/
def Event.isBuildWork : Event → Bool
  | .mkdirAll _ => true
  | .writeFile _ _ => true
  | .exec name _ _ => name != "rustup"
  | _ => false

/-! ## commands/contract.go -/

/-- Write one line to the output of the command (`cmd.Println`, `cmd.Printf`
and `fmt.Fprintf(cmd.ErrOrStderr(), ...)` with a format that ends in a
newline): the line is recorded without its newline. -/
def printLine (text : String) (w : World) : World :=
  { w with trace := w.trace ++ [.println text] }

/-- The function `RunE` of `cmdExecute`; the flag values and the package
variable `flagHomeDir` are its inputs, `ok ()` is the nil error it returns. -/
def cmdExecute (env : Env)
    (flagHomeDir contractHash executorDid contractDir contractMsgFile : String) (w : World) :
    Res Unit × World :=
  if contractHash = "" then
    (.ok (), printLine "Error: --contract-hash is required" w)
  else if contractMsgFile = "" then
    (.ok (), printLine "Error: --contract-msg-file is required" w)
  else
    let w1 := if contractDir = "" then printLine "Error: --contract-dir is required" w else w
    let w2 := printLine "Executing smart contract..." w1
    match Execute env contractHash executorDid flagHomeDir contractDir contractMsgFile w2 with
    | (.panic p, w3) => (.panic p, w3)
    | (.err e, w3) => (.ok (), printLine ("Error: execution failed: " ++ e) w3)
    | (.ok result, w3) =>
      if result.Success then
        (.ok (), printLine ("Contract Result: " ++ result.ContractResult) w3)
      else
        (.ok (), printLine ("Error: execution failed: " ++ result.Message) w3)

/-! ## A concrete environment for evaluation -/

/-- Path joining with `/` (the elements used here need no cleaning). -/
def simpleJoin : List String → String
  | [] => ""
  | [x] => x
  | x :: xs => x ++ "/" ++ simpleJoin xs

/-- A plain environment: nothing fails, no process does anything, the node does
not answer. Concrete scenarios override single fields. -/
def plainEnv : Env where
  join := simpleJoin
  dir := fun p => String.mk ((p.data.reverse.dropWhile (fun c => c != '/')).drop 1).reverse
  base := fun p => String.mk (p.data.reverse.takeWhile (fun c => c != '/')).reverse
  joinPath := fun b p => .ok (b ++ p)
  isPathSeparator := fun c => c == '/'
  pathSeparator := '/'
  goos := "linux"
  lowerTable := fun c => c
  fmtVerbs := fun cs => cs
  newRequestFails := fun _ => none
  ioFails := fun _ _ => none
  getwd := fun _ => .ok "/work"
  lookPath := fun _ _ => true
  run := fun w _ _ _ => { failed := none, output := "", fsAfter := w.fs }
  http := fun _ _ _ => .sendFailed "connection refused"
  unmarshalV1 := fun _ => .error "unexpected end of JSON input"
  unmarshalV2 := fun _ => .error "unexpected end of JSON input"
  unmarshalCreateDid := fun _ => .error "unexpected end of JSON input"
  unmarshalRegisterDid := fun _ => .error "unexpected end of JSON input"
  jsonScan := fun _ => .error "unexpected end of JSON input"
  jsonScanFirst := fun _ => .error "EOF"
  jsonPrint := fun _ => ""
  tomlUnmarshal := fun _ => .error "toml: invalid"
  newWasmModule := fun _ _ => none
  callFunction := fun _ _ _ => .error "no module"

/-- The empty world. -/
def World.empty : World := { fs := { files := [], dirs := [] }, trace := [] }

/-! ### A deployment scenario -/

/-- Body of a successful generate-smart-contract reply. -/
def genOkBody : String :=
  "\x7b\"status\":true,\"message\":\"generated\",\"result\":\"QmContractHash\"\x7d"

/-- Body of a generate-smart-contract reply that reports a failure. -/
def genQuotaBody : String :=
  "\x7b\"status\":false,\"message\":\"quota exceeded\",\"result\":\"\"\x7d"

/-- Body of a successful deploy- or execute-smart-contract reply. -/
def pendingOkBody : String :=
  "\x7b\"status\":true,\"message\":\"pending\",\"result\":\x7b\"id\":\"req-7\",\"mode\":0\x7d\x7d"

/-- Body of a successful signature-response reply. -/
def sigOkBody : String :=
  "\x7b\"status\":true,\"message\":\"signed\",\"result\":\"\"\x7d"

/-- Body of a signature-response reply that reports a failure. -/
def sigFailBody : String :=
  "\x7b\"status\":false,\"message\":\"signature rejected\",\"result\":\"\"\x7d"

/-- A world with a configuration file under `home` and a contract project
`proj/counter` that has its source file. -/
def demoWorld : World :=
  { fs := { files := [("home/.rubix-nexus/config.toml",
                        "[network]\ndeployer_node_url = \"http://localhost:20011\"\n"),
                      ("proj/counter/src/lib.rs", "// contract source")],
            dirs := ["home", "home/.rubix-nexus", "proj", "proj/counter", "proj/counter/src"] },
    trace := [] }

/-- An environment in which everything works: the toolchain is installed,
`cargo build` leaves the artifact of `proj/counter`, and the node accepts
every request. -/
def demoEnv : Env :=
  { plainEnv with
    tomlUnmarshal := fun _ => .ok { Network := { DeployerNodeURL := "http://localhost:20011" } }
    run := fun w name _ _ =>
      if name = "cargo" then
        { failed := none, output := "",
          fsAfter := { w.fs with
            files := ("proj/counter/target/wasm32-unknown-unknown/debug/counter.wasm", "\x00asm")
              :: w.fs.files } }
      else { failed := none, output := "wasm32-unknown-unknown\n", fsAfter := w.fs }
    http := fun _ _ req =>
      match req with
      | .generateSmartContract _ _ _ _ => .body 200 genOkBody
      | .deploySmartContract _ _ _ _ _ => .body 200 pendingOkBody
      | .executeSmartContract _ _ _ _ _ => .body 200 pendingOkBody
      | .signatureResponse _ _ _ => .body 200 sigOkBody
      | _ => .body 404 ""
    unmarshalV1 := fun s =>
      if s = genOkBody then .ok { Status := true, Message := "generated", Result := "QmContractHash" }
      else if s = genQuotaBody then .ok { Status := false, Message := "quota exceeded", Result := "" }
      else if s = sigOkBody then .ok { Status := true, Message := "signed", Result := "" }
      else if s = sigFailBody then
        .ok { Status := false, Message := "signature rejected", Result := "" }
      else .error "invalid character"
    unmarshalV2 := fun s =>
      if s = pendingOkBody then
        .ok { Status := true, Message := "pending",
              Result := { Id := "req-7", Mode := 0, Hash := "", OnlyPrivKey := false } }
      else .error "invalid character" }

/-- The same environment without a Rust toolchain on the search path. -/
def noCargoEnv : Env := { demoEnv with lookPath := fun _ _ => false }

/-- The environment in which the node accepts the submissions but rejects the
confirmation. -/
def sigFailEnv : Env :=
  { demoEnv with
    http := fun _ _ req =>
      match req with
      | .generateSmartContract _ _ _ _ => .body 200 genOkBody
      | .deploySmartContract _ _ _ _ _ => .body 200 pendingOkBody
      | .executeSmartContract _ _ _ _ _ => .body 200 pendingOkBody
      | .signatureResponse _ _ _ => .body 200 sigFailBody
      | _ => .body 404 "" }

/-- The environment in which the node rejects the generate request with the
message `quota exceeded`. -/
def quotaEnv : Env :=
  { demoEnv with
    http := fun _ _ req =>
      match req with
      | .generateSmartContract _ _ _ _ => .body 200 genQuotaBody
      | .deploySmartContract _ _ _ _ _ => .body 200 pendingOkBody
      | .executeSmartContract _ _ _ _ _ => .body 200 pendingOkBody
      | .signatureResponse _ _ _ => .body 200 sigOkBody
      | _ => .body 404 "" }

/-- The generate exchange of the scenario `quotaEnv`. -/
def quotaExchange : Event :=
  .post "http://localhost:20011/api/generate-smart-contract"
    (.generateSmartContract "did:deployer"
      { filename := "counter.wasm", content := "\x00asm" }
      { filename := "lib.rs", content := "// contract source" }
      { filename := "state.json", content := "\x7b\x7d" })
    (.body 200 genQuotaBody)

/-! ### Contract message scenarios -/

/-- A scanner given by a table of texts and the trees they denote. -/
def scanTable (table : List (String × JSON)) (s : String) : Except String JSON :=
  match table.lookup s with
  | some t => .ok t
  | none => .error "invalid character"

/-- A printer given by the same kind of table. -/
def printTable (table : List (String × JSON)) (t : JSON) : String :=
  match table.find? (fun e => e.2.beq t) with
  | some e => e.1
  | none => ""

/-- The JSON texts of the scenarios with the trees they denote. -/
def msgTable : List (String × JSON) :=
  [("\x7b\"a\":9007199254740993\x7d",
      .object [("a", .number { neg := false, digits := 9007199254740993, exp10 := 0 })]),
   ("\x7b\"a\":9007199254740992\x7d",
      .object [("a", .number { neg := false, digits := 9007199254740992, exp10 := 0 })]),
   ("\x7b\"b\":2,\"a\":1\x7d",
      .object [("b", .number { neg := false, digits := 2, exp10 := 0 }),
               ("a", .number { neg := false, digits := 1, exp10 := 0 })]),
   ("\x7b\"a\":1,\"b\":2\x7d",
      .object [("a", .number { neg := false, digits := 1, exp10 := 0 }),
               ("b", .number { neg := false, digits := 2, exp10 := 0 })]),
   ("\x7b\"a\":1,\"a\":2\x7d",
      .object [("a", .number { neg := false, digits := 1, exp10 := 0 }),
               ("a", .number { neg := false, digits := 2, exp10 := 0 })]),
   ("\x7b\"a\":2\x7d",
      .object [("a", .number { neg := false, digits := 2, exp10 := 0 })]),
   ("\x7b\"status\":false,\"message\":\"token limit reached\",\"result\":\x7b\"id\":\"req-9\"\x7d\x7d",
      .object [("status", .bool false), ("message", .string "token limit reached"),
               ("result", .object [("id", .string "req-9")])])]

/-- The environment of the message scenarios: the scanner and the printer know
the texts of `msgTable`. -/
def msgEnv : Env :=
  { demoEnv with
    jsonScan := scanTable msgTable
    jsonScanFirst := scanTable msgTable
    jsonPrint := printTable msgTable }

/-- A world with three contract message files in the working directory. -/
def msgWorld : World :=
  { fs := { files := [("/work/big.json", "\x7b\"a\":9007199254740993\x7d"),
                      ("/work/ba.json", "\x7b\"b\":2,\"a\":1\x7d"),
                      ("/work/dup.json", "\x7b\"a\":1,\"a\":2\x7d")],
            dirs := ["/work"] },
    trace := [] }

/-- Body of a generate-test-token reply that reports a failure. -/
def rbtRejectBody : String :=
  "\x7b\"status\":false,\"message\":\"token limit reached\",\"result\":\x7b\"id\":\"req-9\"\x7d\x7d"

/-- The environment in which the node answers generate-test-token with HTTP
200 and `status=false`. -/
def rbtEnv : Env :=
  { msgEnv with
    http := fun _ _ req =>
      match req with
      | .generateTestToken _ _ => .body 200 rbtRejectBody
      | .signatureResponse _ _ _ => .body 200 sigOkBody
      | _ => .body 404 "" }

/-- A world with a configuration file but without any contract project. -/
def configOnlyWorld : World :=
  { fs := { files := [("home/.rubix-nexus/config.toml",
                        "[network]\ndeployer_node_url = \"http://localhost:20011\"\n")],
            dirs := ["home", "home/.rubix-nexus", "proj", "proj/counter"] },
    trace := [] }

/-- An environment whose `cargo build` leaves the artifact of the project
`proj/my-counter`. -/
def hyphenEnv : Env :=
  { demoEnv with
    run := fun w name _ _ =>
      if name = "cargo" then
        { failed := none, output := "",
          fsAfter := { w.fs with
            files := ("proj/my-counter/target/wasm32-unknown-unknown/debug/my_counter.wasm",
              "\x00asm") :: w.fs.files } }
      else { failed := none, output := "wasm32-unknown-unknown\n", fsAfter := w.fs } }

/-- The environment in which the node answers generate-test-token with HTTP
200 and a body that is not JSON. -/
def garbledEnv : Env :=
  { msgEnv with
    http := fun _ _ req =>
      match req with
      | .generateTestToken _ _ => .body 200 "<html>busy</html>"
      | .signatureResponse _ _ _ => .body 200 sigOkBody
      | _ => .body 404 "" }

/-! ### An identity-creation scenario -/

/-- Body of a successful createdid reply. -/
def createDidOkBody : String :=
  "\x7b\"status\":true,\"message\":\"DID created\",\"result\":\x7b\"did\":\"did:new\",\"peer_id\":\"peer-1\"\x7d\x7d"

/-- Body of a successful register-did reply. -/
def registerDidOkBody : String :=
  "\x7b\"status\":true,\"message\":\"pending\",\"result\":\x7b\"id\":\"req-3\",\"mode\":0\x7d\x7d"

/-- The environment in which the node accepts createdid and register-did and
answers the confirmation with `status=false`. -/
def didRejectEnv : Env :=
  { demoEnv with
    http := fun _ _ req =>
      match req with
      | .createDid _ => .body 200 createDidOkBody
      | .registerDid _ => .body 200 registerDidOkBody
      | .signatureResponse _ _ _ => .body 200 sigFailBody
      | _ => .body 404 ""
    unmarshalCreateDid := fun s =>
      if s = createDidOkBody then
        .ok { Status := true, Message := "DID created",
              Result := { DID := "did:new", PeerID := "peer-1" } }
      else .error "invalid character"
    unmarshalRegisterDid := fun s =>
      if s = registerDidOkBody then
        .ok { Status := true, Message := "pending",
              Result := { Id := "req-3", Mode := 0, OnlyPrivKey := false } }
      else .error "invalid character" }

/-! ### A scenario with another artifact in the working directory -/

/-- The world of the deployment scenario with, in addition, a directory
`artifacts` in the working directory `/work` that holds another module, and
a message file. -/
def strayWorld : World :=
  { fs := { files := demoWorld.fs.files ++
              [("/work/artifacts/other.wasm", "\x00asm other"),
               ("/work/ba.json", "\x7b\"b\":2,\"a\":1\x7d")],
            dirs := demoWorld.fs.dirs ++ ["/work", "/work/artifacts"] },
    trace := [] }

/-- The environment of the execution scenarios: the runtime answers with a
text that names the module it ran and the payload it was given. -/
def execEnv : Env :=
  { msgEnv with
    callFunction := fun _ modulePath payload =>
      .ok ("ran " ++ modulePath ++ " on " ++ payload) }

/-- A world in which the project was built in the working directory `/work`:
configuration, message file and the artifact `/work/artifacts/counter.wasm`. -/
def execWorld : World :=
  { fs := { files := [("home/.rubix-nexus/config.toml",
                        "[network]\ndeployer_node_url = \"http://localhost:20011\"\n"),
                      ("/work/ba.json", "\x7b\"b\":2,\"a\":1\x7d"),
                      ("/work/artifacts/counter.wasm", "\x00asm")],
            dirs := ["home", "home/.rubix-nexus", "/work", "/work/artifacts", "/work/counter"] },
    trace := [] }

/-! ### A remote message with a percent sign -/

/-- Verb processing of `fmt.Sprintf` called without operands, for formats in
which every `%` is followed by flag characters only and then by the verb:
`%%` is a percent sign, a verb `c` without operand is written `%!c(MISSING)`,
and a format that ends before the verb is written `%!(NOVERB)`. The first
argument tells whether the text read so far ends inside a verb. -/
def goVerbs : Bool → List Char → List Char
  | false, [] => []
  | false, c :: cs => if c = '%' then goVerbs true cs else c :: goVerbs false cs
  | true, [] => "%!(NOVERB)".data
  | true, c :: cs =>
    if c = '#' ∨ c = '0' ∨ c = '+' ∨ c = '-' ∨ c = ' ' then goVerbs true cs
    else if c = '%' then '%' :: goVerbs false cs
    else "%!".data ++ c :: ("(MISSING)".data ++ goVerbs false cs)

/-- Body of a reply that reports a failure with a message containing `%`. -/
def percentBody : String :=
  "\x7b\"status\":false,\"message\":\"disk 100% full\"\x7d"

/-- The environment in which the node answers every request with HTTP 200,
`status=false` and the message `disk 100% full`, and `fmt` processes verbs as
`goVerbs` describes. -/
def percentEnv : Env :=
  { demoEnv with
    fmtVerbs := goVerbs false
    http := fun _ _ _ => .body 200 percentBody
    unmarshalV1 := fun s =>
      if s = percentBody then .ok { Status := false, Message := "disk 100% full", Result := "" }
      else .error "invalid character"
    unmarshalV2 := fun s =>
      if s = percentBody then
        .ok { Status := false, Message := "disk 100% full",
              Result := { Id := "", Mode := 0, Hash := "", OnlyPrivKey := false } }
      else .error "invalid character" }

/-- A world in which the project `proj/counter` is built and has its state
file. -/
def builtWorld : World :=
  { fs := { files := [("proj/artifacts/counter.wasm", "\x00asm"),
                      ("proj/counter/src/lib.rs", "// contract source"),
                      ("proj/artifacts/state.json", "\x7b\x7d")],
            dirs := ["proj", "proj/counter", "proj/counter/src", "proj/artifacts"] },
    trace := [] }

/-! ## Theorems -/

/-- A name with a rune outside the loop's character set is not valid. -/
theorem isValidRustName_false_of_rune (env : Env) (name : String) (c : Char)
    (hc : c ∈ name.data) (hbad : nameRune c = false) : isValidRustName env name = false := by
  unfold isValidRustName
  split_ifs with h1 h2 h3 h4 <;> try rfl
  exfalso
  apply h3
  simp only [Bool.not_eq_true', List.all_eq_false]
  exact ⟨c, hc, by simp [hbad]⟩

/-- An uppercase ASCII letter is outside the loop's character set. -/
theorem nameRune_upper (c : Char) (h : 'A' ≤ c ∧ c ≤ 'Z') : nameRune c = false := by
  obtain ⟨h1, h2⟩ := h
  have h1' : (65 : Nat) ≤ c.toNat := h1
  have h2' : c.toNat ≤ 90 := h2
  unfold nameRune
  have e1 : decide ('a' ≤ c) = false := by
    apply decide_eq_false; intro h; have : (97 : Nat) ≤ c.toNat := h; omega
  have e2 : decide (c ≤ '9') = false := by
    apply decide_eq_false; intro h; have : c.toNat ≤ 57 := h; omega
  have e3 : (c == '-') = false := by
    apply beq_false_of_ne; intro h; subst h; revert h1'; decide
  simp [e1, e2, e3]

/-- C1: a project name that contains an uppercase letter, a character outside
the set a-z, 0-9, hyphen, or that starts or ends with a hyphen makes
`Bootstrap` return an error and leave the world (filesystem and effect trace)
exactly as it was: no directory is created and no file is written. -/
theorem bootstrap_rejects_invalid_name (env : Env) (name : String) (w : World)
    (h : (∃ c ∈ name.data, 'A' ≤ c ∧ c ≤ 'Z') ∨
         (∃ c ∈ name.data, ¬ (('a' ≤ c ∧ c ≤ 'z') ∨ ('0' ≤ c ∧ c ≤ '9') ∨ c = '-')) ∨
         name.data.head? = some '-' ∨ name.data.getLast? = some '-') :
    (∃ e, (Bootstrap env name w).1 = some e) ∧ (Bootstrap env name w).2 = w := by
  have hv : name ≠ "" → isValidRustName env name = false := by
    intro _
    rcases h with ⟨c, hc, hu⟩ | ⟨c, hc, hn⟩ | hh
    · exact isValidRustName_false_of_rune env name c hc (nameRune_upper c hu)
    · apply isValidRustName_false_of_rune env name c hc
      unfold nameRune
      by_contra hne
      apply hn
      simp only [Bool.not_eq_false, Bool.or_eq_true, Bool.and_eq_true, decide_eq_true_eq,
        beq_iff_eq] at hne
      tauto
    · unfold isValidRustName
      split_ifs <;> rfl
  unfold Bootstrap
  by_cases hn : name = ""
  · simp [hn]
  · simp [hn, hv hn]

/-- C1 witness: the name `My-App` (an uppercase letter) is rejected on the
empty world without touching it. -/
theorem bootstrap_rejects_invalid_name_witness :
    (∃ e, (Bootstrap plainEnv "My-App" World.empty).1 = some e) ∧
      (Bootstrap plainEnv "My-App" World.empty).2 = World.empty :=
  bootstrap_rejects_invalid_name plainEnv "My-App" World.empty
    (Or.inl ⟨'M', by decide, by decide⟩)

/-- Reading a path right after `WriteFile` succeeded on it gives what was
written. -/
theorem read_after_WriteFile (env : Env) (path content : String) (w w1 : World)
    (h : WriteFile env path content w = (.ok (), w1)) : w1.fs.read path = some content := by
  unfold WriteFile at h
  split at h
  · simp at h
  · simp only [Prod.mk.injEq, true_and] at h
    subst h
    simp [FS.read, List.lookup]

/-- The call `MkdirAll` leaves the regular files as they were. -/
theorem MkdirAll_files (env : Env) (path : String) (w : World) :
    (MkdirAll env path w).2.fs.files = w.fs.files := by
  unfold MkdirAll
  split <;> rfl

/-- The state-file step does nothing at all when the state file is present. -/
theorem ensureState_present (env : Env) (p : String) (w : World)
    (h : FileExists w p = true) : ensureState env p w = (none, w) := by
  simp [ensureState, h]

/-- When the state-file step reports no error on an absent state file, the
file holds an empty JSON object afterwards. -/
theorem ensureState_absent_ok (env : Env) (p : String) (w : World)
    (hp : FileExists w p = false) (h : (ensureState env p w).1 = none) :
    (ensureState env p w).2.fs.read p = some "\x7b\x7d" := by
  unfold ensureState at h ⊢
  simp only [hp, Bool.not_false, if_true] at h ⊢
  split at h
  · simp at h
  · rename_i hm
    split at h
    · simp at h
    · rename_i hw
      simp only [hm, hw]
      exact read_after_WriteFile env p _ _ _ hw

/-- When the state-file step reports no error, the state file is present
afterwards. -/
theorem ensureState_exists_after (env : Env) (p : String) (w : World)
    (h : (ensureState env p w).1 = none) : FileExists (ensureState env p w).2 p = true := by
  by_cases hp : FileExists w p = true
  · rw [ensureState_present env p w hp]; exact hp
  · have := ensureState_absent_ok env p w (by simpa using hp) h
    simp [FileExists, this]

/-- C2: the state-file step of `Deploy`, at the path `artifacts/state.json`
next to the project directory. If the file is present the step changes
nothing (the whole world, hence the file's contents, is as before). If it is
absent and the two filesystem calls do not fail, the step reports no error and
the file then holds the two characters of an empty JSON object; whenever the
step reports no error on an absent file, that is what the file holds. Running
the step a second time never alters a state file that was present: the
contents are the same after one run and after two. -/
theorem ensureState_idempotent (env : Env) (contractDir : String) (w : World) :
    (FileExists w (statePathOf env contractDir) = true →
      ensureState env (statePathOf env contractDir) w = (none, w)) ∧
    (FileExists w (statePathOf env contractDir) = false →
      (ensureState env (statePathOf env contractDir) w).1 = none →
      (ensureState env (statePathOf env contractDir) w).2.fs.read (statePathOf env contractDir)
        = some "\x7b\x7d") ∧
    (FileExists w (statePathOf env contractDir) = false →
      env.ioFails w (.mkdirAll (env.dir (statePathOf env contractDir))) = none →
      env.ioFails (MkdirAll env (env.dir (statePathOf env contractDir)) w).2
        (.writeFile (statePathOf env contractDir)) = none →
      (ensureState env (statePathOf env contractDir) w).1 = none) ∧
    (∀ c, w.fs.read (statePathOf env contractDir) = some c →
      (ensureState env (statePathOf env contractDir)
        (ensureState env (statePathOf env contractDir) w).2).2.fs.read
          (statePathOf env contractDir) = some c) ∧
    ((ensureState env (statePathOf env contractDir) w).1 = none →
      ensureState env (statePathOf env contractDir)
        (ensureState env (statePathOf env contractDir) w).2
        = (none, (ensureState env (statePathOf env contractDir) w).2)) := by
  generalize statePathOf env contractDir = p
  refine ⟨ensureState_present env p w, ?_, ?_, ?_, ?_⟩
  · exact ensureState_absent_ok env p w
  · intro hp h1 h2
    simp only [ensureState, hp]
    have hm : MkdirAll env (env.dir p) w =
        (.ok (), (MkdirAll env (env.dir p) w).2) := by
      simp [MkdirAll, h1]
    rw [hm]
    simp [WriteFile, h2]
  · intro c hc
    have hp : FileExists w p = true := by simp [FileExists, hc]
    rw [ensureState_present env p w hp, ensureState_present env p w hp]
    exact hc
  · intro h
    exact ensureState_present env p _ (ensureState_exists_after env p w h)

/-- C2 witness: on a world whose state file already holds accumulated state,
two runs of the step leave the contents as they were; on the empty world the
file is created holding an empty object. -/
theorem ensureState_idempotent_witness :
    (ensureState plainEnv (statePathOf plainEnv "proj/counter")
      (ensureState plainEnv (statePathOf plainEnv "proj/counter")
        { fs := { files := [("proj/artifacts/state.json", "old")], dirs := [] },
          trace := [] }).2).2.fs.read (statePathOf plainEnv "proj/counter") = some "old" ∧
    (ensureState plainEnv (statePathOf plainEnv "proj/counter") World.empty).2.fs.read
      (statePathOf plainEnv "proj/counter") = some "\x7b\x7d" :=
  ⟨(ensureState_idempotent plainEnv "proj/counter"
      { fs := { files := [("proj/artifacts/state.json", "old")], dirs := [] },
        trace := [] }).2.2.2.1 "old" (by decide),
   (ensureState_idempotent plainEnv "proj/counter" World.empty).2.1 (by decide) (by decide)⟩

/-- Every run of `Deploy` stops at one of its nine exits; each exit is listed
with the results of the steps that led to it. -/
theorem Deploy_cases (env : Env) (contractDir homeDir deployerDid : String) (w : World) :
    (∃ e, LoadConfig env homeDir w = .error e ∧
      Deploy env contractDir homeDir deployerDid w = (.error ("failed to load config: " ++ e), w)) ∨
    ∃ cfg, LoadConfig env homeDir w = .ok cfg ∧
    ((isValidContractDir env contractDir w = false ∧
      Deploy env contractDir homeDir deployerDid w =
        (.error "invalid contract directory: must contain lib.rs", w)) ∨
     (isValidContractDir env contractDir w = true ∧
    ((∃ e w1, verifyBuildPrerequisites env w = (.error e, w1) ∧
      Deploy env contractDir homeDir deployerDid w = (.error e, w1)) ∨
    ∃ w1, verifyBuildPrerequisites env w = (.ok (), w1) ∧
    ((∃ e w2, buildWasm env contractDir (onStage .StageBuild w1) = (.error e, w2) ∧
      Deploy env contractDir homeDir deployerDid w = (.error ("failed to build WASM: " ++ e), w2)) ∨
    ∃ wasmPath w2, buildWasm env contractDir (onStage .StageBuild w1) = (.ok wasmPath, w2) ∧
    ((∃ e w3, ensureState env (statePathOf env contractDir) w2 = (some e, w3) ∧
      Deploy env contractDir homeDir deployerDid w = (.error e, w3)) ∨
    ∃ w3, ensureState env (statePathOf env contractDir) w2 = (none, w3) ∧
    ((∃ e w4, generateSmartContract env cfg.Network.DeployerNodeURL deployerDid wasmPath
        (env.join [contractDir, "src", "lib.rs"]) (statePathOf env contractDir)
        (onStage .StageGenerate w3) = (.error e, w4) ∧
      Deploy env contractDir homeDir deployerDid w =
        (.error ("failed to generate smart contract: " ++ e), w4)) ∨
    ∃ contractHash w4, generateSmartContract env cfg.Network.DeployerNodeURL deployerDid wasmPath
        (env.join [contractDir, "src", "lib.rs"]) (statePathOf env contractDir)
        (onStage .StageGenerate w3) = (.ok contractHash, w4) ∧
    ((∃ e w5, deploySmartContract env cfg.Network.DeployerNodeURL contractHash deployerDid
        (onStage .StageDeploy w4) = (.error e, w5) ∧
      Deploy env contractDir homeDir deployerDid w =
        (.error ("failed to deploy smart contract: " ++ e), w5)) ∨
    ∃ requestID w5, deploySmartContract env cfg.Network.DeployerNodeURL contractHash deployerDid
        (onStage .StageDeploy w4) = (.ok requestID, w5) ∧
    ((∃ e w6, signatureResponse env cfg.Network.DeployerNodeURL requestID w5 = (some e, w6) ∧
      Deploy env contractDir homeDir deployerDid w =
        (.error ("failed to process signature response: " ++ e), w6)) ∨
    ∃ w6, signatureResponse env cfg.Network.DeployerNodeURL requestID w5 = (none, w6) ∧
      Deploy env contractDir homeDir deployerDid w =
        (.ok { ContractHash := contractHash, Success := true,
               Message := "Contract deployed successfully" }, w6))))))))) := by
  unfold Deploy
  split
  · rename_i e he
    exact Or.inl ⟨e, he, rfl⟩
  · rename_i cfg hcfg
    refine Or.inr ⟨cfg, hcfg, ?_⟩
    by_cases hv : isValidContractDir env contractDir w = true
    swap
    · left
      simp only [Bool.not_eq_true] at hv
      simp [hv]
    · right
      refine ⟨hv, ?_⟩
      simp only [hv, Bool.not_true, Bool.false_eq_true, if_false]
      split
      · rename_i e w1 h1
        exact Or.inl ⟨e, w1, h1, rfl⟩
      · rename_i u w1 h1
        refine Or.inr ⟨w1, h1, ?_⟩
        split
        · rename_i e w2 h2
          exact Or.inl ⟨e, w2, h2, rfl⟩
        · rename_i wasmPath w2 h2
          refine Or.inr ⟨wasmPath, w2, h2, ?_⟩
          split
          · rename_i e w3 h3
            exact Or.inl ⟨e, w3, h3, rfl⟩
          · rename_i w3 h3
            refine Or.inr ⟨w3, h3, ?_⟩
            split
            · rename_i e w4 h4
              exact Or.inl ⟨e, w4, h4, rfl⟩
            · rename_i contractHash w4 h4
              refine Or.inr ⟨contractHash, w4, h4, ?_⟩
              split
              · rename_i e w5 h5
                exact Or.inl ⟨e, w5, h5, rfl⟩
              · rename_i requestID w5 h5
                refine Or.inr ⟨requestID, w5, h5, ?_⟩
                split
                · rename_i e w6 h6
                  exact Or.inl ⟨e, w6, h6, rfl⟩
                · rename_i w6 h6
                  exact Or.inr ⟨w6, h6, rfl⟩

/-! ### Traces of the local steps -/

theorem Only.refl (P : Event → Prop) (w : World) : Only P w w := ⟨[], by simp, by simp⟩

theorem Only.trans {P : Event → Prop} {a b c : World} (h1 : Only P a b) (h2 : Only P b c) :
    Only P a c := by
  obtain ⟨e1, t1, q1⟩ := h1
  obtain ⟨e2, t2, q2⟩ := h2
  refine ⟨e1 ++ e2, by rw [t2, t1, List.append_assoc], ?_⟩
  intro ev hev
  rcases List.mem_append.1 hev with h | h
  · exact q1 ev h
  · exact q2 ev h

theorem Only.mono {P Q : Event → Prop} {a b : World} (h : Only P a b)
    (hPQ : ∀ ev, P ev → Q ev) : Only Q a b := by
  obtain ⟨e, t, q⟩ := h
  exact ⟨e, t, fun ev hev => hPQ ev (q ev hev)⟩

theorem Only.of_eq {P : Event → Prop} {a b : World} (h : b.trace = a.trace) : Only P a b :=
  ⟨[], by simp [h], by simp⟩

theorem Only.single {P : Event → Prop} {a b : World} (ev : Event) (h : b.trace = a.trace ++ [ev])
    (hP : P ev) : Only P a b :=
  ⟨[ev], h, by simpa using hP⟩

theorem onStage_only (s : DeploymentStage) (w : World) :
    Only (fun ev => ev = .stage s) w (onStage s w) :=
  ⟨[.stage s], rfl, by simp⟩

theorem MkdirAll_local {env : Env} {path : String} {w w1 : World} {r : Except String Unit}
    (h : MkdirAll env path w = (r, w1)) : Local w w1 := by
  unfold MkdirAll at h
  split at h
  · simp only [Prod.mk.injEq] at h; rw [← h.2]; exact Only.refl _ w
  · simp only [Prod.mk.injEq] at h; rw [← h.2]
    exact ⟨[.mkdirAll path], rfl, by simp [Event.isLocal]⟩

theorem WriteFile_local {env : Env} {path content : String} {w w1 : World}
    {r : Except String Unit} (h : WriteFile env path content w = (r, w1)) : Local w w1 := by
  unfold WriteFile at h
  split at h
  · simp only [Prod.mk.injEq] at h; rw [← h.2]; exact Only.refl _ w
  · simp only [Prod.mk.injEq] at h; rw [← h.2]
    exact ⟨[.writeFile path content], rfl, by simp [Event.isLocal]⟩

theorem runCmd_local {env : Env} {name dir : String} {args : List String} {w w1 : World}
    {r : CmdResult} (h : runCmd env name args dir w = (r, w1)) : Local w w1 := by
  unfold runCmd at h
  simp only [Prod.mk.injEq] at h; rw [← h.2]
  exact ⟨[.exec name args dir], rfl, by simp [Event.isLocal]⟩

theorem verifyBuildPrerequisites_local {env : Env} {w w1 : World} {r : Except String Unit}
    (h : verifyBuildPrerequisites env w = (r, w1)) : Local w w1 := by
  unfold verifyBuildPrerequisites at h
  split at h
  · simp only [Prod.mk.injEq] at h; rw [← h.2]; exact Only.refl _ w
  · split at h
    rename_i r1 wa h1
    have q1 := runCmd_local h1
    split at h
    · split at h
      rename_i r2 wb h2
      have q2 := runCmd_local h2
      split at h <;>
        (simp only [Prod.mk.injEq] at h; rw [← h.2]; exact q1.trans q2)
    · simp only [Prod.mk.injEq] at h; rw [← h.2]; exact q1

theorem buildWasm_local {env : Env} {projectDir : String} {w w1 : World}
    {r : Except String String} (h : buildWasm env projectDir w = (r, w1)) : Local w w1 := by
  unfold buildWasm at h
  dsimp only at h
  split at h
  · rename_i h1
    simp only [Prod.mk.injEq] at h; rw [← h.2]; exact MkdirAll_local h1
  · rename_i h1
    rename_i wa
    have q1 := MkdirAll_local h1
    have q2 : Local w (runCmd env "cargo" ["build", "--target", "wasm32-unknown-unknown"]
        projectDir wa).2 := q1.trans (runCmd_local rfl)
    split at h
    · split at h <;> (simp only [Prod.mk.injEq] at h; rw [← h.2]; exact q2)
    · split at h
      · simp only [Prod.mk.injEq] at h; rw [← h.2]; exact q2
      · split at h
        · rename_i h3
          simp only [Prod.mk.injEq] at h; rw [← h.2]; exact q2.trans (MkdirAll_local h3)
        · rename_i h3
          have q3 := q2.trans (MkdirAll_local h3)
          split at h
          · simp only [Prod.mk.injEq] at h; rw [← h.2]; exact q3
          · split at h <;>
              (rename_i h4; simp only [Prod.mk.injEq] at h; rw [← h.2]
               exact q3.trans (WriteFile_local h4))

theorem ensureState_local {env : Env} {p : String} {w w1 : World} {r : Option String}
    (h : ensureState env p w = (r, w1)) : Local w w1 := by
  unfold ensureState at h
  split at h
  · split at h
    · rename_i h1
      simp only [Prod.mk.injEq] at h; rw [← h.2]; exact MkdirAll_local h1
    · rename_i h1
      split at h <;>
        (rename_i h2; simp only [Prod.mk.injEq] at h; rw [← h.2]
         exact (MkdirAll_local h1).trans (WriteFile_local h2))
  · simp only [Prod.mk.injEq] at h; rw [← h.2]; exact Only.refl _ w

/-! ### The remote steps -/

/-- A reply is accepted exactly when it is a body that decodes to a response
whose status flag is set. -/
theorem replyV1_ok_iff {env : Env} {pre : String} {reply : HttpReply}
    {resp : SmartContractAPIResponseV1} :
    replyV1 env pre reply = .ok resp ↔
      ∃ code text, reply = .body code text ∧ env.unmarshalV1 text = .ok resp ∧
        resp.Status = true := by
  cases reply with
  | sendFailed e => simp [replyV1]
  | readFailed e => simp [replyV1]
  | body code text =>
    constructor
    · intro h
      refine ⟨code, text, rfl, ?_⟩
      simp only [replyV1] at h
      split at h
      · simp at h
      · rename_i a hu
        split at h
        · simp at h
        · rename_i hs
          simp only [Except.ok.injEq] at h
          subst h
          exact ⟨hu, by simpa using hs⟩
    · rintro ⟨c, t, hb, hu, hs⟩
      simp only [HttpReply.body.injEq] at hb
      obtain ⟨rfl, rfl⟩ := hb
      simp [replyV1, hu, hs]

/-- A reply is accepted exactly when it is a body that decodes to a response
whose status flag is set. -/
theorem replyV2_ok_iff {env : Env} {reply : HttpReply} {resp : SmartContractAPIResponseV2} :
    replyV2 env reply = .ok resp ↔
      ∃ code text, reply = .body code text ∧ env.unmarshalV2 text = .ok resp ∧
        resp.Status = true := by
  cases reply with
  | sendFailed e => simp [replyV2]
  | readFailed e => simp [replyV2]
  | body code text =>
    constructor
    · intro h
      refine ⟨code, text, rfl, ?_⟩
      simp only [replyV2] at h
      split at h
      · simp at h
      · rename_i a hu
        split at h
        · simp at h
        · rename_i hs
          simp only [Except.ok.injEq] at h
          subst h
          exact ⟨hu, by simpa using hs⟩
    · rintro ⟨c, t, hb, hu, hs⟩
      simp only [HttpReply.body.injEq] at hb
      obtain ⟨rfl, rfl⟩ := hb
      simp [replyV2, hu, hs]

/-- A body whose response has the status flag cleared is an error carrying the
response's message, formatted by `fmt.Errorf`. -/
theorem replyV1_status_false {env : Env} {pre : String} {code : Nat} {text : String}
    {resp : SmartContractAPIResponseV1} (hu : env.unmarshalV1 text = .ok resp)
    (hs : resp.Status = false) :
    replyV1 env pre (.body code text) = .error (Errorf0 env resp.Message) := by
  simp [replyV1, hu, hs]

/-- A body whose response has the status flag cleared is an error carrying the
response's message, formatted by `fmt.Errorf`. -/
theorem replyV2_status_false {env : Env} {code : Nat} {text : String}
    {resp : SmartContractAPIResponseV2} (hu : env.unmarshalV2 text = .ok resp)
    (hs : resp.Status = false) :
    replyV2 env (.body code text) = .error (Errorf0 env resp.Message) := by
  simp [replyV2, hu, hs]

/-- The two ways `postV1` can go: no request could be built, or one exchange
took place and its reply decides the result. -/
theorem postV1_spec {env : Env} {pre url : String} {req : Request} {w w1 : World}
    {r : Except String SmartContractAPIResponseV1} (h : postV1 env pre url req w = (r, w1)) :
    (w1 = w ∧ ∃ e, r = .error e) ∨
    (w1 = w.posted url req (env.http w url req) ∧ r = replyV1 env pre (env.http w url req)) := by
  unfold postV1 doPost at h
  split at h
  · simp only [Prod.mk.injEq] at h
    exact Or.inl ⟨h.2.symm, _, h.1.symm⟩
  · simp only [Prod.mk.injEq] at h
    exact Or.inr ⟨h.2.symm, h.1.symm⟩

/-- The two ways `postV2` can go. -/
theorem postV2_spec {env : Env} {url : String} {req : Request} {w w1 : World}
    {r : Except String SmartContractAPIResponseV2} (h : postV2 env url req w = (r, w1)) :
    (w1 = w ∧ ∃ e, r = .error e) ∨
    (w1 = w.posted url req (env.http w url req) ∧ r = replyV2 env (env.http w url req)) := by
  unfold postV2 doPost at h
  split at h
  · simp only [Prod.mk.injEq] at h
    exact Or.inl ⟨h.2.symm, _, h.1.symm⟩
  · simp only [Prod.mk.injEq] at h
    exact Or.inr ⟨h.2.symm, h.1.symm⟩

/-- The two ways `generateSmartContract` can go: a local failure before any
request, or one generate-smart-contract exchange whose reply decides the
result. -/
theorem generateSmartContract_spec {env : Env}
    {baseURL deployerDid wasmPath libPath statePath : String} {w w1 : World}
    {r : Except String String}
    (h : generateSmartContract env baseURL deployerDid wasmPath libPath statePath w = (r, w1)) :
    (w1 = w ∧ ∃ e, r = .error e) ∨
    ∃ a b c,
      w1 = w.posted (baseURL ++ "/api/generate-smart-contract")
        (.generateSmartContract deployerDid a b c)
        (env.http w (baseURL ++ "/api/generate-smart-contract")
          (.generateSmartContract deployerDid a b c)) ∧
      r = (replyV1 env "" (env.http w (baseURL ++ "/api/generate-smart-contract")
          (.generateSmartContract deployerDid a b c))).map (fun resp => resp.Result) := by
  unfold generateSmartContract at h
  split at h
  · simp only [Prod.mk.injEq] at h; exact Or.inl ⟨h.2.symm, _, h.1.symm⟩
  · split at h
    · simp only [Prod.mk.injEq] at h; exact Or.inl ⟨h.2.symm, _, h.1.symm⟩
    · split at h
      · simp only [Prod.mk.injEq] at h; exact Or.inl ⟨h.2.symm, _, h.1.symm⟩
      · dsimp only at h
        split at h
        · rename_i e wa hp
          simp only [Prod.mk.injEq] at h
          rcases postV1_spec hp with ⟨hw, _⟩ | ⟨hw, hr⟩
          · exact Or.inl ⟨by rw [← h.2, hw], _, h.1.symm⟩
          · refine Or.inr ⟨_, _, _, by rw [← h.2, hw], ?_⟩
            rw [← hr, ← h.1]; rfl
        · rename_i resp wa hp
          simp only [Prod.mk.injEq] at h
          rcases postV1_spec hp with ⟨_, e, he⟩ | ⟨hw, hr⟩
          · simp at he
          · refine Or.inr ⟨_, _, _, by rw [← h.2, hw], ?_⟩
            rw [← hr, ← h.1]; rfl

/-- The two ways `deploySmartContract` can go: a local failure before any
request, or one deploy-smart-contract exchange whose reply decides the
result. -/
theorem deploySmartContract_spec {env : Env} {baseURL contractHash deployerDid : String}
    {w w1 : World} {r : Except String String}
    (h : deploySmartContract env baseURL contractHash deployerDid w = (r, w1)) :
    (w1 = w ∧ ∃ e, r = .error e) ∨
    ∃ url,
      w1 = w.posted url (.deploySmartContract "Contract deployment" deployerDid 2
          { mantissa := 1, exp10 := -3 } contractHash)
        (env.http w url (.deploySmartContract "Contract deployment" deployerDid 2
          { mantissa := 1, exp10 := -3 } contractHash)) ∧
      r = (replyV2 env (env.http w url (.deploySmartContract "Contract deployment" deployerDid 2
          { mantissa := 1, exp10 := -3 } contractHash))).map (fun resp => resp.Result.Id) := by
  unfold deploySmartContract at h
  dsimp only at h
  split at h
  · simp only [Prod.mk.injEq] at h; exact Or.inl ⟨h.2.symm, _, h.1.symm⟩
  · rename_i url _
    split at h
    · rename_i e wa hp
      simp only [Prod.mk.injEq] at h
      rcases postV2_spec hp with ⟨hw, _⟩ | ⟨hw, hr⟩
      · exact Or.inl ⟨by rw [← h.2, hw], _, h.1.symm⟩
      · refine Or.inr ⟨url, by rw [← h.2, hw], ?_⟩
        rw [← hr, ← h.1]; rfl
    · rename_i resp wa hp
      simp only [Prod.mk.injEq] at h
      rcases postV2_spec hp with ⟨_, e, he⟩ | ⟨hw, hr⟩
      · simp at he
      · refine Or.inr ⟨url, by rw [← h.2, hw], ?_⟩
        rw [← hr, ← h.1]; rfl

/-- The two ways `executeSmartContract` can go. -/
theorem executeSmartContract_spec {env : Env}
    {baseURL contractHash executorDid contractMsg : String}
    {w w1 : World} {r : Except String String}
    (h : executeSmartContract env baseURL contractHash executorDid contractMsg w = (r, w1)) :
    (w1 = w ∧ ∃ e, r = .error e) ∨
    ∃ url,
      w1 = w.posted url (.executeSmartContract "Contract execution" executorDid 2
          contractMsg contractHash)
        (env.http w url (.executeSmartContract "Contract execution" executorDid 2
          contractMsg contractHash)) ∧
      r = (replyV2 env (env.http w url (.executeSmartContract "Contract execution" executorDid 2
          contractMsg contractHash))).map (fun resp => resp.Result.Id) := by
  unfold executeSmartContract at h
  dsimp only at h
  split at h
  · simp only [Prod.mk.injEq] at h; exact Or.inl ⟨h.2.symm, _, h.1.symm⟩
  · rename_i url _
    split at h
    · rename_i e wa hp
      simp only [Prod.mk.injEq] at h
      rcases postV2_spec hp with ⟨hw, _⟩ | ⟨hw, hr⟩
      · exact Or.inl ⟨by rw [← h.2, hw], _, h.1.symm⟩
      · refine Or.inr ⟨url, by rw [← h.2, hw], ?_⟩
        rw [← hr, ← h.1]; rfl
    · rename_i resp wa hp
      simp only [Prod.mk.injEq] at h
      rcases postV2_spec hp with ⟨_, e, he⟩ | ⟨hw, hr⟩
      · simp at he
      · refine Or.inr ⟨url, by rw [← h.2, hw], ?_⟩
        rw [← hr, ← h.1]; rfl

/-- The two ways `signatureResponse` can go: a local failure before any
request, or one signature-response exchange carrying the given id; the call
reports no error exactly when the reply is accepted. -/
theorem signatureResponse_spec {env : Env} {baseURL requestID : String} {w w1 : World}
    {r : Option String} (h : signatureResponse env baseURL requestID w = (r, w1)) :
    (w1 = w ∧ ∃ e, r = some e) ∨
    ∃ url,
      w1 = w.posted url (.signatureResponse requestID 0 "mypassword")
        (env.http w url (.signatureResponse requestID 0 "mypassword")) ∧
      ((r = none ∧ ∃ resp, replyV1 env "signature request: "
          (env.http w url (.signatureResponse requestID 0 "mypassword")) = .ok resp) ∨
       (∃ e, r = some e ∧ replyV1 env "signature request: "
          (env.http w url (.signatureResponse requestID 0 "mypassword")) = .error e)) := by
  unfold signatureResponse at h
  dsimp only at h
  split at h
  · simp only [Prod.mk.injEq] at h; exact Or.inl ⟨h.2.symm, _, h.1.symm⟩
  · rename_i url _
    split at h
    · rename_i e wa hp
      simp only [Prod.mk.injEq] at h
      rcases postV1_spec hp with ⟨hw, _⟩ | ⟨hw, hr⟩
      · exact Or.inl ⟨by rw [← h.2, hw], _, h.1.symm⟩
      · exact Or.inr ⟨url, by rw [← h.2, hw], Or.inr ⟨e, h.1.symm, hr.symm⟩⟩
    · rename_i resp wa hp
      simp only [Prod.mk.injEq] at h
      rcases postV1_spec hp with ⟨_, e, he⟩ | ⟨hw, hr⟩
      · simp at he
      · exact Or.inr ⟨url, by rw [← h.2, hw], Or.inl ⟨h.1.symm, resp, hr.symm⟩⟩

/-! ### Deploy: ordering of build and remote calls -/

theorem isPost_of_isLocal (ev : Event) (h : Event.isLocal ev = true) : Event.isPost ev = false := by
  cases ev <;> simp_all [Event.isLocal, Event.isPost]

theorem Local.noPost {a b : World} (h : Local a b) :
    Only (fun ev => Event.isPost ev = false) a b :=
  Only.mono h isPost_of_isLocal

theorem onStage_noPost (s : DeploymentStage) (w : World) :
    Only (fun ev => Event.isPost ev = false) w (onStage s w) :=
  Only.mono (onStage_only s w) (by rintro ev rfl; rfl)

theorem Only.any {P : Event → Prop} {a b : World} (h : Only P a b) :
    Only (fun _ => True) a b :=
  Only.mono h (fun _ _ => trivial)

theorem posted_any (w : World) (url : String) (req : Request) (reply : HttpReply) :
    Only (fun _ => True) w (w.posted url req reply) :=
  Only.single _ rfl trivial

theorem generateSmartContract_any {env : Env}
    {baseURL deployerDid wasmPath libPath statePath : String} {w w1 : World}
    {r : Except String String}
    (h : generateSmartContract env baseURL deployerDid wasmPath libPath statePath w = (r, w1)) :
    Only (fun _ => True) w w1 := by
  rcases generateSmartContract_spec h with ⟨rfl, _⟩ | ⟨_, _, _, rfl, _⟩
  · exact Only.refl _ _
  · exact posted_any _ _ _ _

theorem deploySmartContract_any {env : Env} {baseURL contractHash deployerDid : String}
    {w w1 : World} {r : Except String String}
    (h : deploySmartContract env baseURL contractHash deployerDid w = (r, w1)) :
    Only (fun _ => True) w w1 := by
  rcases deploySmartContract_spec h with ⟨rfl, _⟩ | ⟨_, rfl, _⟩
  · exact Only.refl _ _
  · exact posted_any _ _ _ _

theorem signatureResponse_any {env : Env} {baseURL requestID : String} {w w1 : World}
    {r : Option String} (h : signatureResponse env baseURL requestID w = (r, w1)) :
    Only (fun _ => True) w w1 := by
  rcases signatureResponse_spec h with ⟨rfl, _⟩ | ⟨_, rfl, _⟩
  · exact Only.refl _ _
  · exact posted_any _ _ _ _

/-- The conclusion of C3 for a run that stopped before the build had
succeeded. -/
theorem deploy_order_early {env : Env} {contractDir : String} {w wf : World}
    {res : Except String DeploymentResult}
    (hq : Only (fun ev => Event.isPost ev = false) w wf) (he : ∃ e, res = .error e) :
    ∃ evs, wf.trace = w.trace ++ evs ∧
      (((∃ e, (verifyBuildPrerequisites env w).1 = .error e) ∨
        (∃ e, (buildWasm env contractDir
            (onStage .StageBuild (verifyBuildPrerequisites env w).2)).1 = .error e)) →
        (∃ e, res = .error e) ∧ ∀ ev ∈ evs, Event.isPost ev = false) ∧
      ((∃ ev ∈ evs, Event.isPost ev = true) →
        ∃ w1 wasmPath w2 pre rest,
          verifyBuildPrerequisites env w = (.ok (), w1) ∧
          buildWasm env contractDir (onStage .StageBuild w1) = (.ok wasmPath, w2) ∧
          w2.trace = w.trace ++ pre ∧ (∀ ev ∈ pre, Event.isPost ev = false) ∧
          evs = pre ++ rest) := by
  obtain ⟨evs, ht, hnp⟩ := hq
  refine ⟨evs, ht, fun _ => ⟨he, hnp⟩, ?_⟩
  rintro ⟨ev, hev, hp⟩
  rw [hnp ev hev] at hp
  exact absurd hp (by decide)

/-- The conclusion of C3 for a run in which the build succeeded. -/
theorem deploy_order_late {env : Env} {contractDir wasmPath : String} {w w1 w2 wf : World}
    {res : Except String DeploymentResult}
    (hv : verifyBuildPrerequisites env w = (.ok (), w1))
    (hb : buildWasm env contractDir (onStage .StageBuild w1) = (.ok wasmPath, w2))
    (htail : Only (fun _ => True) w2 wf) :
    ∃ evs, wf.trace = w.trace ++ evs ∧
      (((∃ e, (verifyBuildPrerequisites env w).1 = .error e) ∨
        (∃ e, (buildWasm env contractDir
            (onStage .StageBuild (verifyBuildPrerequisites env w).2)).1 = .error e)) →
        (∃ e, res = .error e) ∧ ∀ ev ∈ evs, Event.isPost ev = false) ∧
      ((∃ ev ∈ evs, Event.isPost ev = true) →
        ∃ w1 wasmPath w2 pre rest,
          verifyBuildPrerequisites env w = (.ok (), w1) ∧
          buildWasm env contractDir (onStage .StageBuild w1) = (.ok wasmPath, w2) ∧
          w2.trace = w.trace ++ pre ∧ (∀ ev ∈ pre, Event.isPost ev = false) ∧
          evs = pre ++ rest) := by
  have hpre : Only (fun ev => Event.isPost ev = false) w w2 :=
    ((verifyBuildPrerequisites_local hv).noPost.trans (onStage_noPost _ _)).trans
      (buildWasm_local hb).noPost
  obtain ⟨pre, hpt, hpnp⟩ := hpre
  obtain ⟨rest, hrt, _⟩ := htail
  refine ⟨pre ++ rest, by rw [hrt, hpt, List.append_assoc], ?_, ?_⟩
  · rintro (⟨e, he⟩ | ⟨e, he⟩)
    · rw [hv] at he; simp at he
    · rw [hv] at he; simp only at he; rw [hb] at he; simp at he
  · intro _
    exact ⟨w1, wasmPath, w2, pre, rest, hv, hb, hpt, hpnp, rfl⟩

/-- C3: in every run of `Deploy` no request is sent to the remote node
(generate-smart-contract, deploy-smart-contract, signature-response) unless
`verifyBuildPrerequisites` and `buildWasm` have both returned successfully. If
either of them fails, `Deploy` returns an error and the events of the run
contain no request; if the events contain a request, both steps succeeded and
every request comes after the events of the build. -/
theorem deploy_no_remote_call_before_build (env : Env)
    (contractDir homeDir deployerDid : String) (w : World) :
    ∃ evs, (Deploy env contractDir homeDir deployerDid w).2.trace = w.trace ++ evs ∧
      (((∃ e, (verifyBuildPrerequisites env w).1 = .error e) ∨
        (∃ e, (buildWasm env contractDir
            (onStage .StageBuild (verifyBuildPrerequisites env w).2)).1 = .error e)) →
        (∃ e, (Deploy env contractDir homeDir deployerDid w).1 = .error e) ∧
        ∀ ev ∈ evs, Event.isPost ev = false) ∧
      ((∃ ev ∈ evs, Event.isPost ev = true) →
        ∃ w1 wasmPath w2 pre rest,
          verifyBuildPrerequisites env w = (.ok (), w1) ∧
          buildWasm env contractDir (onStage .StageBuild w1) = (.ok wasmPath, w2) ∧
          w2.trace = w.trace ++ pre ∧ (∀ ev ∈ pre, Event.isPost ev = false) ∧
          evs = pre ++ rest) := by
  rcases Deploy_cases env contractDir homeDir deployerDid w with
    ⟨e, _, hD⟩ | ⟨cfg, _, ⟨_, hD⟩ | ⟨_, ⟨e, w1, hv, hD⟩ | ⟨w1, hv, ⟨e, w2, hb, hD⟩ |
      ⟨wasmPath, w2, hb, ⟨e, w3, hs, hD⟩ | ⟨w3, hs, ⟨e, w4, hg, hD⟩ | ⟨hash, w4, hg,
        ⟨e, w5, hd, hD⟩ | ⟨rid, w5, hd, ⟨e, w6, hsig, hD⟩ | ⟨w6, hsig, hD⟩⟩⟩⟩⟩⟩⟩⟩
  · rw [hD]; exact deploy_order_early (Only.refl _ w) ⟨_, rfl⟩
  · rw [hD]; exact deploy_order_early (Only.refl _ w) ⟨_, rfl⟩
  · rw [hD]; exact deploy_order_early (verifyBuildPrerequisites_local hv).noPost ⟨_, rfl⟩
  · rw [hD]
    exact deploy_order_early
      (((verifyBuildPrerequisites_local hv).noPost.trans (onStage_noPost _ _)).trans
        (buildWasm_local hb).noPost) ⟨_, rfl⟩
  · rw [hD]; exact deploy_order_late hv hb (ensureState_local hs).any
  · rw [hD]
    exact deploy_order_late hv hb
      (((ensureState_local hs).any.trans (onStage_only _ _).any).trans
        (generateSmartContract_any hg))
  · rw [hD]
    exact deploy_order_late hv hb
      (((((ensureState_local hs).any.trans (onStage_only _ _).any).trans
        (generateSmartContract_any hg)).trans (onStage_only _ _).any).trans
        (deploySmartContract_any hd))
  · rw [hD]
    exact deploy_order_late hv hb
      ((((((ensureState_local hs).any.trans (onStage_only _ _).any).trans
        (generateSmartContract_any hg)).trans (onStage_only _ _).any).trans
        (deploySmartContract_any hd)).trans (signatureResponse_any hsig))
  · rw [hD]
    exact deploy_order_late hv hb
      ((((((ensureState_local hs).any.trans (onStage_only _ _).any).trans
        (generateSmartContract_any hg)).trans (onStage_only _ _).any).trans
        (deploySmartContract_any hd)).trans (signatureResponse_any hsig))

/-- C3 witness: without `cargo` on the search path, toolchain verification
fails, `Deploy` returns an error and its events contain no request. -/
theorem deploy_no_remote_call_before_build_witness :
    ∃ evs, (Deploy noCargoEnv "proj/counter" "home" "did:deployer" demoWorld).2.trace
        = demoWorld.trace ++ evs ∧
      (∃ e, (Deploy noCargoEnv "proj/counter" "home" "did:deployer" demoWorld).1 = .error e) ∧
      ∀ ev ∈ evs, Event.isPost ev = false :=
  match deploy_no_remote_call_before_build noCargoEnv "proj/counter" "home" "did:deployer"
      demoWorld with
  | ⟨evs, ht, h1, _⟩ => ⟨evs, ht, h1 (Or.inl ⟨_, rfl⟩)⟩

/-! ### Confirmation follows its submission -/

theorem posted_only {P : Event → Prop} (w : World) (url : String) (req : Request)
    (reply : HttpReply) (hP : P (.post url req reply)) : Only P w (w.posted url req reply) :=
  Only.single _ rfl hP

theorem generateSmartContract_only {P : Event → Prop} {env : Env}
    {baseURL deployerDid wasmPath libPath statePath : String} {w w1 : World}
    {r : Except String String}
    (hP : ∀ url a b c reply, P (.post url (.generateSmartContract deployerDid a b c) reply))
    (h : generateSmartContract env baseURL deployerDid wasmPath libPath statePath w = (r, w1)) :
    Only P w w1 := by
  rcases generateSmartContract_spec h with ⟨rfl, _⟩ | ⟨_, _, _, rfl, _⟩
  · exact Only.refl _ _
  · exact posted_only _ _ _ _ (hP _ _ _ _ _)

theorem deploySmartContract_only {P : Event → Prop} {env : Env}
    {baseURL contractHash deployerDid : String} {w w1 : World} {r : Except String String}
    (hP : ∀ url reply, P (.post url (.deploySmartContract "Contract deployment" deployerDid 2
      { mantissa := 1, exp10 := -3 } contractHash) reply))
    (h : deploySmartContract env baseURL contractHash deployerDid w = (r, w1)) :
    Only P w w1 := by
  rcases deploySmartContract_spec h with ⟨rfl, _⟩ | ⟨_, rfl, _⟩
  · exact Only.refl _ _
  · exact posted_only _ _ _ _ (hP _ _)

theorem executeSmartContract_only {P : Event → Prop} {env : Env}
    {baseURL contractHash executorDid contractMsg : String} {w w1 : World}
    {r : Except String String}
    (hP : ∀ url reply, P (.post url (.executeSmartContract "Contract execution" executorDid 2
      contractMsg contractHash) reply))
    (h : executeSmartContract env baseURL contractHash executorDid contractMsg w = (r, w1)) :
    Only P w w1 := by
  rcases executeSmartContract_spec h with ⟨rfl, _⟩ | ⟨_, rfl, _⟩
  · exact Only.refl _ _
  · exact posted_only _ _ _ _ (hP _ _)

/-- A successful `deploySmartContract` is one exchange whose reply decoded to
a response with the status flag set; the returned id is that response's
`result.id`. -/
theorem deploySmartContract_ok {env : Env} {baseURL contractHash deployerDid rid : String}
    {w w1 : World}
    (h : deploySmartContract env baseURL contractHash deployerDid w = (.ok rid, w1)) :
    ∃ url code text resp,
      w1 = w.posted url (.deploySmartContract "Contract deployment" deployerDid 2
          { mantissa := 1, exp10 := -3 } contractHash) (.body code text) ∧
      env.unmarshalV2 text = .ok resp ∧ resp.Status = true ∧ resp.Result.Id = rid := by
  rcases deploySmartContract_spec h with ⟨_, e, he⟩ | ⟨url, hw, hr⟩
  · simp at he
  · cases hrep : replyV2 env (env.http w url (.deploySmartContract "Contract deployment"
        deployerDid 2 { mantissa := 1, exp10 := -3 } contractHash)) with
    | error e => rw [hrep] at hr; simp [Except.map] at hr
    | ok resp =>
      rw [hrep] at hr
      simp only [Except.map, Except.ok.injEq] at hr
      obtain ⟨code, text, hb, hu, hs⟩ := replyV2_ok_iff.1 hrep
      rw [hb] at hw
      exact ⟨url, code, text, resp, hw, hu, hs, hr.symm⟩

/-- A successful `executeSmartContract` is one exchange whose reply decoded to
a response with the status flag set; the returned id is that response's
`result.id`. -/
theorem executeSmartContract_ok {env : Env}
    {baseURL contractHash executorDid contractMsg rid : String} {w w1 : World}
    (h : executeSmartContract env baseURL contractHash executorDid contractMsg w
      = (.ok rid, w1)) :
    ∃ url code text resp,
      w1 = w.posted url (.executeSmartContract "Contract execution" executorDid 2
          contractMsg contractHash) (.body code text) ∧
      env.unmarshalV2 text = .ok resp ∧ resp.Status = true ∧ resp.Result.Id = rid := by
  rcases executeSmartContract_spec h with ⟨_, e, he⟩ | ⟨url, hw, hr⟩
  · simp at he
  · cases hrep : replyV2 env (env.http w url (.executeSmartContract "Contract execution"
        executorDid 2 contractMsg contractHash)) with
    | error e => rw [hrep] at hr; simp [Except.map] at hr
    | ok resp =>
      rw [hrep] at hr
      simp only [Except.map, Except.ok.injEq] at hr
      obtain ⟨code, text, hb, hu, hs⟩ := replyV2_ok_iff.1 hrep
      rw [hb] at hw
      exact ⟨url, code, text, resp, hw, hu, hs, hr.symm⟩

/-- A successful `generateSmartContract` is one exchange whose reply decoded
to a response with the status flag set; the returned hash is that response's
`result`. -/
theorem generateSmartContract_ok {env : Env}
    {baseURL deployerDid wasmPath libPath statePath hash : String} {w w1 : World}
    (h : generateSmartContract env baseURL deployerDid wasmPath libPath statePath w
      = (.ok hash, w1)) :
    ∃ a b c code text resp,
      w1 = w.posted (baseURL ++ "/api/generate-smart-contract")
          (.generateSmartContract deployerDid a b c) (.body code text) ∧
      env.unmarshalV1 text = .ok resp ∧ resp.Status = true ∧ resp.Result = hash := by
  rcases generateSmartContract_spec h with ⟨_, e, he⟩ | ⟨a, b, c, hw, hr⟩
  · simp at he
  · cases hrep : replyV1 env "" (env.http w (baseURL ++ "/api/generate-smart-contract")
        (.generateSmartContract deployerDid a b c)) with
    | error e => rw [hrep] at hr; simp [Except.map] at hr
    | ok resp =>
      rw [hrep] at hr
      simp only [Except.map, Except.ok.injEq] at hr
      obtain ⟨code, text, hb, hu, hs⟩ := replyV1_ok_iff.1 hrep
      rw [hb] at hw
      exact ⟨a, b, c, code, text, resp, hw, hu, hs, hr.symm⟩

/-- In a list with exactly one element satisfying `p`, an element satisfying
`p` is that one, and the list splits around it in one way only. -/
theorem split_unique {α : Type} {p : α → Prop} {A B pre rest : List α} {s x : α}
    (hA : ∀ a ∈ A, ¬ p a) (hB : ∀ b ∈ B, ¬ p b) (hx : p x)
    (h : A ++ s :: B = pre ++ x :: rest) :
    pre = A ∧ x = s ∧ rest = B := by
  induction A generalizing pre with
  | nil =>
    cases pre with
    | nil => simp at h; exact ⟨rfl, h.1.symm, h.2.symm⟩
    | cons y pre' =>
      simp only [List.nil_append, List.cons_append, List.cons.injEq] at h
      exact absurd hx (hB x (by rw [h.2]; simp))
  | cons a A ih =>
    cases pre with
    | nil =>
      simp only [List.cons_append, List.nil_append, List.cons.injEq] at h
      exact absurd (h.1 ▸ hx) (hA a (List.mem_cons_self _ _))
    | cons y pre' =>
      simp only [List.cons_append, List.cons.injEq] at h
      obtain ⟨h1, h2, h3⟩ := ih (fun b hb => hA b (List.mem_cons_of_mem _ hb)) h.2
      exact ⟨by rw [h.1, h1], h2, h3⟩

/-- A list none of whose elements satisfies `p` has no element satisfying `p`
inside. -/
theorem not_split_of_none {α : Type} {p : α → Prop} {A pre rest : List α} {x : α}
    (hA : ∀ a ∈ A, ¬ p a) (hx : p x) (h : A = pre ++ x :: rest) : False :=
  hA x (by rw [h]; simp) hx

/-- Every run of `Execute` stops at one of its seven exits. -/
theorem Execute_cases (env : Env)
    (contractHash executorDid homeDir contractDir contractMsgFile : String) (w : World) :
    (∃ e, LoadConfig env homeDir w = .error e ∧
      Execute env contractHash executorDid homeDir contractDir contractMsgFile w
        = (.err ("failed to load config: " ++ e), w)) ∨
    ∃ cfg, LoadConfig env homeDir w = .ok cfg ∧
    ((∃ p, parseContractMsgFromJSON env contractMsgFile w = .panic p ∧
      Execute env contractHash executorDid homeDir contractDir contractMsgFile w
        = (.panic p, w)) ∨
     (∃ e, parseContractMsgFromJSON env contractMsgFile w = .err e ∧
      Execute env contractHash executorDid homeDir contractDir contractMsgFile w
        = (.err ("failed to read contract message file: " ++ e), w)) ∨
    ∃ contractMsg, parseContractMsgFromJSON env contractMsgFile w = .ok contractMsg ∧
    ((∃ e w1, executeSmartContract env cfg.Network.DeployerNodeURL contractHash executorDid
        contractMsg w = (.error e, w1) ∧
      Execute env contractHash executorDid homeDir contractDir contractMsgFile w
        = (.err ("failed to execute smart contract: " ++ e), w1)) ∨
    ∃ requestID w1, executeSmartContract env cfg.Network.DeployerNodeURL contractHash executorDid
        contractMsg w = (.ok requestID, w1) ∧
    ((∃ e w2, signatureResponse env cfg.Network.DeployerNodeURL requestID w1 = (some e, w2) ∧
      Execute env contractHash executorDid homeDir contractDir contractMsgFile w
        = (.err ("failed to process signature response: " ++ e), w2)) ∨
    ∃ w2, signatureResponse env cfg.Network.DeployerNodeURL requestID w1 = (none, w2) ∧
    ((∃ e w3, callWasm env contractDir contractMsg w2 = (.error e, w3) ∧
      Execute env contractHash executorDid homeDir contractDir contractMsgFile w
        = (.err ("failed to call wasm contract: " ++ e), w3)) ∨
    ∃ contractResult w3, callWasm env contractDir contractMsg w2 = (.ok contractResult, w3) ∧
      Execute env contractHash executorDid homeDir contractDir contractMsgFile w
        = (.ok { ContractResult := contractResult, Success := true,
                 Message := "Contract executed successfully" }, w3))))) := by
  unfold Execute
  split
  · rename_i e he
    exact Or.inl ⟨e, he, rfl⟩
  · rename_i cfg hcfg
    refine Or.inr ⟨cfg, hcfg, ?_⟩
    split
    · rename_i p hp
      exact Or.inl ⟨p, hp, rfl⟩
    · rename_i e hp
      exact Or.inr (Or.inl ⟨e, hp, rfl⟩)
    · rename_i msg hp
      refine Or.inr (Or.inr ⟨msg, hp, ?_⟩)
      split
      · rename_i e w1 h1
        exact Or.inl ⟨e, w1, h1, rfl⟩
      · rename_i rid w1 h1
        refine Or.inr ⟨rid, w1, h1, ?_⟩
        split
        · rename_i e w2 h2
          exact Or.inl ⟨e, w2, h2, rfl⟩
        · rename_i w2 h2
          refine Or.inr ⟨w2, h2, ?_⟩
          split
          · rename_i e w3 h3
            exact Or.inl ⟨e, w3, h3, rfl⟩
          · rename_i res w3 h3
            exact Or.inr ⟨res, w3, h3, rfl⟩

/-- All events of `Deploy` up to the return of `generateSmartContract` satisfy
any property that local events, the first two stage events and generate
requests have. -/
theorem Deploy_upto_generate {P : Event → Prop} {env : Env}
    {contractDir baseURL deployerDid wasmPath libPath : String} {w w1 w2 w3 w4 : World}
    {r : Except String String}
    (hL : ∀ ev, Event.isLocal ev = true → P ev)
    (hSB : P (.stage .StageBuild)) (hSG : P (.stage .StageGenerate))
    (hG : ∀ url a b c reply, P (.post url (.generateSmartContract deployerDid a b c) reply))
    (hv : verifyBuildPrerequisites env w = (.ok (), w1))
    (hb : buildWasm env contractDir (onStage .StageBuild w1) = (.ok wasmPath, w2))
    (hs : ensureState env (statePathOf env contractDir) w2 = (none, w3))
    (hg : generateSmartContract env baseURL deployerDid wasmPath libPath
      (statePathOf env contractDir) (onStage .StageGenerate w3) = (r, w4)) :
    Only P w w4 :=
  (((((verifyBuildPrerequisites_local hv).mono hL).trans
    ((onStage_only _ _).mono (by rintro ev rfl; exact hSB))).trans
    ((buildWasm_local hb).mono hL)).trans ((ensureState_local hs).mono hL)).trans
    (((onStage_only _ _).mono (by rintro ev rfl; exact hSG)).trans
      (generateSmartContract_only hG hg))

/-- All events of `Deploy` before the state-file step returned satisfy any
property that local events and the first stage event have. -/
theorem Deploy_upto_state {P : Event → Prop} {env : Env}
    {contractDir wasmPath : String} {w w1 w2 w3 : World} {rs : Option String}
    (hL : ∀ ev, Event.isLocal ev = true → P ev) (hSB : P (.stage .StageBuild))
    (hv : verifyBuildPrerequisites env w = (.ok (), w1))
    (hb : buildWasm env contractDir (onStage .StageBuild w1) = (.ok wasmPath, w2))
    (hs : ensureState env (statePathOf env contractDir) w2 = (rs, w3)) :
    Only P w w3 :=
  ((((verifyBuildPrerequisites_local hv).mono hL).trans
    ((onStage_only _ _).mono (by rintro ev rfl; exact hSB))).trans
    ((buildWasm_local hb).mono hL)).trans ((ensureState_local hs).mono hL)

/-- All events of `Deploy` before the build returned satisfy any property that
local events and the first stage event have. -/
theorem Deploy_upto_build {P : Event → Prop} {env : Env}
    {contractDir : String} {w w1 w2 : World} {rb : Except String String}
    (hL : ∀ ev, Event.isLocal ev = true → P ev) (hSB : P (.stage .StageBuild))
    (hv : verifyBuildPrerequisites env w = (.ok (), w1))
    (hb : buildWasm env contractDir (onStage .StageBuild w1) = (rb, w2)) :
    Only P w w2 :=
  (((verifyBuildPrerequisites_local hv).mono hL).trans
    ((onStage_only _ _).mono (by rintro ev rfl; exact hSB))).trans
    ((buildWasm_local hb).mono hL)

theorem Only.evs_eq {P : Event → Prop} {a b : World} (h : Only P a b) {evs : List Event}
    (ht : b.trace = a.trace ++ evs) : ∀ ev ∈ evs, P ev := by
  obtain ⟨evs', ht', hP⟩ := h
  rw [ht'] at ht
  rw [← List.append_cancel_left ht]
  exact hP

theorem notSignature_of_isLocal (ev : Event) (h : Event.isLocal ev = true) :
    Event.isSignatureCall ev = false := by
  cases ev <;> simp_all [Event.isLocal, Event.isSignatureCall]

/-- The shape of a run with one signature-response exchange, sent right after
an accepted submission: a signature-response event found in it is that
exchange, and what precedes it ends with the submission. -/
theorem confirmation_is_unique {w wsub wf : World} {evs pre rest A B : List Event}
    {sub : Event} {url urlS id rid : String} {mode : Int} {password : String}
    {reply replyS : HttpReply}
    (hA : wsub.trace = w.trace ++ A) (hAns : ∀ ev ∈ A, Event.isSignatureCall ev = false)
    (hwf : wf.trace = ((wsub.trace ++ [sub]) ++ [.post urlS (.signatureResponse rid 0 "mypassword")
      replyS]) ++ B)
    (hsub : Event.isSignatureCall sub = false)
    (hBns : ∀ ev ∈ B, Event.isSignatureCall ev = false)
    (ht : wf.trace = w.trace ++ evs)
    (hsplit : evs = pre ++ .post url (.signatureResponse id mode password) reply :: rest) :
    pre = A ++ [sub] ∧ id = rid ∧ rest = B := by
  rw [hwf, hA, List.append_assoc, List.append_assoc, List.append_assoc] at ht
  have h1 := List.append_cancel_left ht
  rw [hsplit, ← List.append_assoc, List.singleton_append] at h1
  have hns : ∀ a ∈ A ++ [sub], ¬ (Event.isSignatureCall a = true) := by
    intro a ha
    rcases List.mem_append.1 ha with h | h
    · simp [hAns a h]
    · simp only [List.mem_singleton] at h; simp [h, hsub]
  obtain ⟨hp, hx, hr⟩ := split_unique (p := fun ev => Event.isSignatureCall ev = true)
    (x := .post url (.signatureResponse id mode password) reply)
    hns (fun b hb => by simp [hBns b hb]) rfl h1
  simp only [Event.post.injEq, Request.signatureResponse.injEq] at hx
  exact ⟨hp, hx.2.1.1, hr⟩

/-- The Deploy half of C4. -/
theorem deploy_confirmation_follows (env : Env) (contractDir homeDir deployerDid : String)
    (w : World) (evs pre rest : List Event) (url id : String) (mode : Int) (password : String)
    (reply : HttpReply)
    (ht : (Deploy env contractDir homeDir deployerDid w).2.trace = w.trace ++ evs)
    (hsplit : evs = pre ++ .post url (.signatureResponse id mode password) reply :: rest) :
    ∃ pre1 url1 comment addr q amt token code text resp,
      pre = pre1 ++ [.post url1 (.deploySmartContract comment addr q amt token)
        (.body code text)] ∧
      env.unmarshalV2 text = .ok resp ∧ resp.Status = true ∧ resp.Result.Id = id := by
  have hL := notSignature_of_isLocal
  have hS : ∀ s, Event.isSignatureCall (.stage s) = false := fun _ => rfl
  have none_case : ∀ wf, (Deploy env contractDir homeDir deployerDid w).2 = wf →
      Only (fun ev => Event.isSignatureCall ev = false) w wf → False := by
    intro wf hwf ho
    rw [hwf] at ht
    have := ho.evs_eq ht
    exact not_split_of_none (p := fun ev => Event.isSignatureCall ev = true)
      (x := .post url (.signatureResponse id mode password) reply)
      (fun a ha => by simp [this a ha]) rfl hsplit
  rcases Deploy_cases env contractDir homeDir deployerDid w with
    ⟨e, _, hD⟩ | ⟨cfg, _, ⟨_, hD⟩ | ⟨_, ⟨e, w1, hv, hD⟩ | ⟨w1, hv, ⟨e, w2, hb, hD⟩ |
      ⟨wasmPath, w2, hb, ⟨e, w3, hs, hD⟩ | ⟨w3, hs, ⟨e, w4, hg, hD⟩ | ⟨hash, w4, hg,
        ⟨e, w5, hd, hD⟩ | ⟨rid, w5, hd, hsig⟩⟩⟩⟩⟩⟩⟩
  · exact (none_case w (by rw [hD]) (Only.refl _ w)).elim
  · exact (none_case w (by rw [hD]) (Only.refl _ w)).elim
  · exact (none_case w1 (by rw [hD]) ((verifyBuildPrerequisites_local hv).mono hL)).elim
  · exact (none_case w2 (by rw [hD]) (Deploy_upto_build hL (hS _) hv hb)).elim
  · exact (none_case w3 (by rw [hD]) (Deploy_upto_state hL (hS _) hv hb hs)).elim
  · exact (none_case w4 (by rw [hD])
      (Deploy_upto_generate hL (hS _) (hS _) (fun _ _ _ _ _ => rfl) hv hb hs hg)).elim
  · exact (none_case w5 (by rw [hD])
      (((Deploy_upto_generate hL (hS _) (hS _) (fun _ _ _ _ _ => rfl) hv hb hs hg).trans
        ((onStage_only _ _).mono (by rintro ev rfl; rfl))).trans
        (deploySmartContract_only (fun _ _ => rfl) hd))).elim
  · have hpre : Only (fun ev => Event.isSignatureCall ev = false) w (onStage .StageDeploy w4) :=
      (Deploy_upto_generate hL (hS _) (hS _) (fun _ _ _ _ _ => rfl) hv hb hs hg).trans
        ((onStage_only _ _).mono (by rintro ev rfl; rfl))
    obtain ⟨url1, code, text, resp, hw5, hu, hst, hid⟩ := deploySmartContract_ok hd
    have hfinal : ∀ r wf, signatureResponse env cfg.Network.DeployerNodeURL rid w5 = (r, wf) →
        (Deploy env contractDir homeDir deployerDid w).2 = wf →
        ∃ pre1 url1 comment addr q amt token code text resp,
          pre = pre1 ++ [.post url1 (.deploySmartContract comment addr q amt token)
            (.body code text)] ∧
          env.unmarshalV2 text = .ok resp ∧ resp.Status = true ∧ resp.Result.Id = id := by
      intro r wf hsr hwf
      rcases signatureResponse_spec hsr with ⟨hsame, _⟩ | ⟨urlS, hposted, _⟩
      · refine (none_case wf hwf ?_).elim
        rw [hsame]
        exact hpre.trans (by rw [hw5]; exact posted_only _ _ _ _ rfl)
      · obtain ⟨A, hA, hAns⟩ := hpre
        rw [hwf] at ht
        have hwf_t : wf.trace = ((onStage .StageDeploy w4).trace ++
            [.post url1 (.deploySmartContract "Contract deployment" deployerDid 2
              { mantissa := 1, exp10 := -3 } hash) (.body code text)]) ++
            [.post urlS (.signatureResponse rid 0 "mypassword")
              (env.http w5 urlS (.signatureResponse rid 0 "mypassword"))] ++ [] := by
          rw [hposted, hw5, List.append_nil]; rfl
        obtain ⟨hp, hidr, _⟩ := confirmation_is_unique hA hAns hwf_t rfl (by simp) ht hsplit
        exact ⟨A, url1, _, _, _, _, _, code, text, resp, hp, hu, hst, by rw [hid, hidr]⟩
    rcases hsig with ⟨e, w6, hsr, hD⟩ | ⟨w6, hsr, hD⟩
    · exact hfinal _ _ hsr (by rw [hD])
    · exact hfinal _ _ hsr (by rw [hD])

/-- The call `callWasm` adds at most the call of the contract function to the
trace. -/
theorem callWasm_spec {env : Env} {contractDir contractMsg : String} {w w1 : World}
    {r : Except String String} (h : callWasm env contractDir contractMsg w = (r, w1)) :
    ∃ B, w1.trace = w.trace ++ B ∧ ∀ ev ∈ B, ∃ p, ev = .wasmCall p contractMsg := by
  unfold callWasm at h
  split at h
  · simp only [Prod.mk.injEq] at h; rw [← h.2]; exact ⟨[], by simp, by simp⟩
  · split at h
    · simp only [Prod.mk.injEq] at h; rw [← h.2]; exact ⟨[], by simp, by simp⟩
    · dsimp only at h
      split at h <;>
        (simp only [Prod.mk.injEq] at h; rw [← h.2]
         exact ⟨[.wasmCall _ contractMsg], rfl, by simp⟩)

/-- The Execute half of C4. -/
theorem execute_confirmation_follows (env : Env)
    (contractHash executorDid homeDir contractDir contractMsgFile : String)
    (w : World) (evs pre rest : List Event) (url id : String) (mode : Int) (password : String)
    (reply : HttpReply)
    (ht : (Execute env contractHash executorDid homeDir contractDir contractMsgFile w).2.trace
      = w.trace ++ evs)
    (hsplit : evs = pre ++ .post url (.signatureResponse id mode password) reply :: rest) :
    ∃ pre1 url1 comment addr q data token code text resp,
      pre = pre1 ++ [.post url1 (.executeSmartContract comment addr q data token)
        (.body code text)] ∧
      env.unmarshalV2 text = .ok resp ∧ resp.Status = true ∧ resp.Result.Id = id := by
  have none_case : ∀ wf,
      (Execute env contractHash executorDid homeDir contractDir contractMsgFile w).2 = wf →
      Only (fun ev => Event.isSignatureCall ev = false) w wf → False := by
    intro wf hwf ho
    rw [hwf] at ht
    have := ho.evs_eq ht
    exact not_split_of_none (p := fun ev => Event.isSignatureCall ev = true)
      (x := .post url (.signatureResponse id mode password) reply)
      (fun a ha => by simp [this a ha]) rfl hsplit
  rcases Execute_cases env contractHash executorDid homeDir contractDir contractMsgFile w with
    ⟨e, _, hD⟩ | ⟨cfg, _, ⟨p, _, hD⟩ | ⟨e, _, hD⟩ | ⟨msg, _, ⟨e, w1, hx, hD⟩ |
      ⟨rid, w1, hx, hrest⟩⟩⟩
  · exact (none_case w (by rw [hD]) (Only.refl _ w)).elim
  · exact (none_case w (by rw [hD]) (Only.refl _ w)).elim
  · exact (none_case w (by rw [hD]) (Only.refl _ w)).elim
  · exact (none_case w1 (by rw [hD]) (executeSmartContract_only (fun _ _ => rfl) hx)).elim
  · obtain ⟨url1, code, text, resp, hw1, hu, hst, hid⟩ := executeSmartContract_ok hx
    have hfinal : ∀ r w2 wf B, signatureResponse env cfg.Network.DeployerNodeURL rid w1 = (r, w2) →
        wf.trace = w2.trace ++ B → (∀ ev ∈ B, Event.isSignatureCall ev = false) →
        (Execute env contractHash executorDid homeDir contractDir contractMsgFile w).2 = wf →
        ∃ pre1 url1 comment addr q data token code text resp,
          pre = pre1 ++ [.post url1 (.executeSmartContract comment addr q data token)
            (.body code text)] ∧
          env.unmarshalV2 text = .ok resp ∧ resp.Status = true ∧ resp.Result.Id = id := by
      intro r w2 wf B hsr hB hBns hwf
      rcases signatureResponse_spec hsr with ⟨hsame, _⟩ | ⟨urlS, hposted, _⟩
      · refine (none_case wf hwf ?_).elim
        have h1 : Only (fun ev => Event.isSignatureCall ev = false) w w2 := by
          rw [hsame, hw1]; exact posted_only _ _ _ _ rfl
        exact h1.trans ⟨B, hB, hBns⟩
      · rw [hwf] at ht
        have hwf_t : wf.trace = ((w.trace ++
            [.post url1 (.executeSmartContract "Contract execution" executorDid 2
              msg contractHash) (.body code text)]) ++
            [.post urlS (.signatureResponse rid 0 "mypassword")
              (env.http w1 urlS (.signatureResponse rid 0 "mypassword"))]) ++ B := by
          rw [hB, hposted, hw1]; rfl
        have hA0 : w.trace = w.trace ++ [] := by simp
        have hAns0 : ∀ ev ∈ ([] : List Event), Event.isSignatureCall ev = false := by simp
        obtain ⟨hp, hidr, _⟩ := confirmation_is_unique hA0 hAns0 hwf_t rfl hBns ht hsplit
        exact ⟨[], url1, _, _, _, _, _, code, text, resp, hp, hu, hst, by rw [hid, hidr]⟩
    rcases hrest with ⟨e, w2, hsr, hD⟩ | ⟨w2, hsr, ⟨e, w3, hc, hD⟩ | ⟨res, w3, hc, hD⟩⟩
    · exact hfinal _ w2 w2 [] hsr (by simp) (by simp) (by rw [hD])
    · obtain ⟨B, hB, hBw⟩ := callWasm_spec hc
      refine hfinal _ w2 w3 B hsr hB ?_ (by rw [hD])
      intro ev hev; obtain ⟨p, rfl⟩ := hBw ev hev; rfl
    · obtain ⟨B, hB, hBw⟩ := callWasm_spec hc
      refine hfinal _ w2 w3 B hsr hB ?_ (by rw [hD])
      intro ev hev; obtain ⟨p, rfl⟩ := hBw ev hev; rfl

/-- C4: in `Deploy` and in `Execute`, a signature-response request occurs in
the events of a run only directly after the corresponding submission
(deploy-smart-contract, respectively execute-smart-contract) whose reply was
decoded to a response with the status flag set, and the id carried by the
signature-response request is the `result.id` of that response. -/
theorem confirmation_follows_submission (env : Env)
    (contractDir homeDir deployerDid contractHash executorDid contractMsgFile : String)
    (w : World) :
    (∀ (evs pre rest : List Event) (url id : String) (mode : Int) (password : String)
        (reply : HttpReply),
      (Deploy env contractDir homeDir deployerDid w).2.trace = w.trace ++ evs →
      evs = pre ++ .post url (.signatureResponse id mode password) reply :: rest →
      ∃ pre1 url1 comment addr q amt token code text resp,
        pre = pre1 ++ [.post url1 (.deploySmartContract comment addr q amt token)
          (.body code text)] ∧
        env.unmarshalV2 text = .ok resp ∧ resp.Status = true ∧ resp.Result.Id = id) ∧
    (∀ (evs pre rest : List Event) (url id : String) (mode : Int) (password : String)
        (reply : HttpReply),
      (Execute env contractHash executorDid homeDir contractDir contractMsgFile w).2.trace
        = w.trace ++ evs →
      evs = pre ++ .post url (.signatureResponse id mode password) reply :: rest →
      ∃ pre1 url1 comment addr q data token code text resp,
        pre = pre1 ++ [.post url1 (.executeSmartContract comment addr q data token)
          (.body code text)] ∧
        env.unmarshalV2 text = .ok resp ∧ resp.Status = true ∧ resp.Result.Id = id) :=
  ⟨fun evs pre rest url id mode password reply ht hsplit =>
      deploy_confirmation_follows env contractDir homeDir deployerDid w evs pre rest url id mode
        password reply ht hsplit,
   fun evs pre rest url id mode password reply ht hsplit =>
      execute_confirmation_follows env contractHash executorDid homeDir contractDir
        contractMsgFile w evs pre rest url id mode password reply ht hsplit⟩

/-- C4 witness: in the run of `Deploy` against a node that accepts everything,
the signature-response request (the thirteenth event, carrying `req-7`) comes
directly after the deploy-smart-contract exchange whose response has
`result.id = req-7`. -/
theorem confirmation_follows_submission_witness :
    ∃ pre1 url1 comment addr q amt token code text resp,
      (Deploy demoEnv "proj/counter" "home" "did:deployer" demoWorld).2.trace.take 12 =
        pre1 ++ [.post url1 (.deploySmartContract comment addr q amt token) (.body code text)] ∧
      demoEnv.unmarshalV2 text = .ok resp ∧ resp.Status = true ∧ resp.Result.Id = "req-7" :=
  (confirmation_follows_submission demoEnv "proj/counter" "home" "did:deployer" "" "" ""
    demoWorld).1
    (Deploy demoEnv "proj/counter" "home" "did:deployer" demoWorld).2.trace
    ((Deploy demoEnv "proj/counter" "home" "did:deployer" demoWorld).2.trace.take 12) []
    "http://localhost:20011/api/signature-response" "req-7" 0 "mypassword"
    (.body 200 sigOkBody) rfl rfl

/-! ### Confirmation coupling -/

/-- A reply on which the confirmation step reports failure is never
accepted. -/
theorem replyV1_not_ok_of_failed {env : Env} {pre : String} {reply : HttpReply}
    {resp : SmartContractAPIResponseV1} (hf : confirmationFailed env reply)
    (h : replyV1 env pre reply = .ok resp) : False := by
  obtain ⟨code, text, rfl, hu, hs⟩ := replyV1_ok_iff.1 h
  simp only [confirmationFailed, hu] at hf
  rw [hs] at hf
  exact absurd hf (by decide)

/-- A run that ended with an accepted signature-response exchange contains no
signature-response exchange on which the confirmation step reports failure. -/
theorem no_failed_confirmation {env : Env} {baseURL rid : String} {w wsub w2 wf : World}
    {evs B : List Event} {url id password : String} {mode : Int} {reply : HttpReply}
    (hpre : Only (fun ev => Event.isSignatureCall ev = false) w wsub)
    (hsr : signatureResponse env baseURL rid wsub = (none, w2))
    (hB : wf.trace = w2.trace ++ B) (hBns : ∀ ev ∈ B, Event.isSignatureCall ev = false)
    (ht : wf.trace = w.trace ++ evs)
    (hmem : Event.post url (.signatureResponse id mode password) reply ∈ evs)
    (hf : confirmationFailed env reply) : False := by
  obtain ⟨A, hA, hAns⟩ := hpre
  rcases signatureResponse_spec hsr with ⟨_, e, he⟩ | ⟨urlS, hposted, hr⟩
  · simp at he
  · rcases hr with ⟨_, resp, hok⟩ | ⟨e, he, _⟩
    swap
    · simp at he
    · have hwf : wf.trace = w.trace ++ (A ++ [.post urlS (.signatureResponse rid 0 "mypassword")
          (env.http wsub urlS (.signatureResponse rid 0 "mypassword"))] ++ B) := by
        rw [hB, hposted]
        simp only [World.posted, hA, List.append_assoc]
      rw [hwf] at ht
      have hevs := List.append_cancel_left ht
      rw [← hevs] at hmem
      simp only [List.mem_append, List.mem_singleton] at hmem
      rcases hmem with (h | h) | h
      · have := hAns _ h; simp [Event.isSignatureCall] at this
      · simp only [Event.post.injEq] at h
        rw [← h.2.2] at hok
        exact replyV1_not_ok_of_failed hf hok
      · have := hBns _ h; simp [Event.isSignatureCall] at this

/-- C5: confirmation coupling. If the events of a run of `Deploy`, or of
`Execute`, contain a signature-response exchange on which the confirmation
step reports failure (transport failure, unreadable or unparsable body, or a
response with `status=false`), the pipeline returns an error and no result,
although the submission before it was accepted. -/
theorem confirmation_failure_fails_pipeline (env : Env)
    (contractDir homeDir deployerDid contractHash executorDid contractMsgFile : String)
    (w : World) (evs : List Event) (url id password : String) (mode : Int) (reply : HttpReply)
    (hmem : Event.post url (.signatureResponse id mode password) reply ∈ evs)
    (hf : confirmationFailed env reply) :
    ((Deploy env contractDir homeDir deployerDid w).2.trace = w.trace ++ evs →
      ∃ e, (Deploy env contractDir homeDir deployerDid w).1 = .error e) ∧
    ((Execute env contractHash executorDid homeDir contractDir contractMsgFile w).2.trace
        = w.trace ++ evs →
      ∃ e, (Execute env contractHash executorDid homeDir contractDir contractMsgFile w).1
        = .err e) := by
  constructor
  · intro ht
    rcases Deploy_cases env contractDir homeDir deployerDid w with
      ⟨e, _, hD⟩ | ⟨cfg, _, ⟨_, hD⟩ | ⟨_, ⟨e, w1, hv, hD⟩ | ⟨w1, hv, ⟨e, w2, hb, hD⟩ |
        ⟨wasmPath, w2, hb, ⟨e, w3, hs, hD⟩ | ⟨w3, hs, ⟨e, w4, hg, hD⟩ | ⟨hash, w4, hg,
          ⟨e, w5, hd, hD⟩ | ⟨rid, w5, hd, ⟨e, w6, hsr, hD⟩ | ⟨w6, hsr, hD⟩⟩⟩⟩⟩⟩⟩⟩
    all_goals first
      | exact ⟨_, by rw [hD]⟩
      | skip
    exfalso
    rw [hD] at ht
    have hpre : Only (fun ev => Event.isSignatureCall ev = false) w w5 :=
      ((Deploy_upto_generate notSignature_of_isLocal rfl rfl (fun _ _ _ _ _ => rfl)
        hv hb hs hg).trans ((onStage_only _ _).mono (by rintro ev rfl; rfl))).trans
        (deploySmartContract_only (fun _ _ => rfl) hd)
    exact no_failed_confirmation (B := []) hpre hsr (by simp) (by simp) ht hmem hf
  · intro ht
    rcases Execute_cases env contractHash executorDid homeDir contractDir contractMsgFile w with
      ⟨e, _, hD⟩ | ⟨cfg, _, ⟨p, _, hD⟩ | ⟨e, _, hD⟩ | ⟨msg, _, ⟨e, w1, hx, hD⟩ |
        ⟨rid, w1, hx, ⟨e, w2, hsr, hD⟩ | ⟨w2, hsr, ⟨e, w3, hc, hD⟩ | ⟨res, w3, hc, hD⟩⟩⟩⟩⟩
    · exact ⟨_, by rw [hD]⟩
    · exfalso
      rw [hD] at ht
      have : evs = [] := by
        have := List.append_cancel_left (ht.symm.trans (List.append_nil _).symm)
        exact this
      rw [this] at hmem
      simp at hmem
    · exact ⟨_, by rw [hD]⟩
    · exact ⟨_, by rw [hD]⟩
    · exact ⟨_, by rw [hD]⟩
    · exact ⟨_, by rw [hD]⟩
    · exfalso
      rw [hD] at ht
      obtain ⟨B, hB, hBw⟩ := callWasm_spec hc
      have hpre : Only (fun ev => Event.isSignatureCall ev = false) w w1 :=
        executeSmartContract_only (fun _ _ => rfl) hx
      refine no_failed_confirmation hpre hsr hB ?_ ht hmem hf
      intro ev hev; obtain ⟨p, rfl⟩ := hBw ev hev; rfl

/-- C5 witness: the node accepts generate and deploy (a fingerprint and a
pending id were returned) but answers the confirmation with `status=false`;
`Deploy` returns an error. -/
theorem confirmation_failure_fails_pipeline_witness :
    ∃ e, (Deploy sigFailEnv "proj/counter" "home" "did:deployer" demoWorld).1 = .error e :=
  (confirmation_failure_fails_pipeline sigFailEnv "proj/counter" "home" "did:deployer" "" "" ""
    demoWorld
    ((Deploy sigFailEnv "proj/counter" "home" "did:deployer" demoWorld).2.trace.take 12 ++
      [Event.post "http://localhost:20011/api/signature-response"
        (Request.signatureResponse "req-7" 0 "mypassword") (HttpReply.body 200 sigFailBody)])
    "http://localhost:20011/api/signature-response" "req-7" "mypassword" 0
    (HttpReply.body 200 sigFailBody)
    (List.mem_append_right _ (List.mem_singleton.2 rfl))
    (by unfold confirmationFailed; rfl)).1 rfl

/-! ### The successful deployment -/

theorem lookup_filter_ne (files : List (String × String)) (p q : String) (h : q ≠ p) :
    (files.filter (fun f => f.1 != p)).lookup q = files.lookup q := by
  induction files with
  | nil => rfl
  | cons f fs ih =>
    obtain ⟨k, v⟩ := f
    by_cases hk : k = p
    · subst hk
      have : (q == k) = false := by simpa using h
      simp [List.filter, List.lookup, this, ih]
    · have hk' : (k != p) = true := by simpa using hk
      simp only [List.filter, hk', List.lookup]
      cases hq : (q == k) <;> simp [ih]

/-- A file that exists still exists after a successful or failed
`WriteFile`. -/
theorem FileExists_WriteFile {env : Env} {p c q : String} {w w1 : World}
    {r : Except String Unit} (h : WriteFile env p c w = (r, w1))
    (hq : FileExists w q = true) : FileExists w1 q = true := by
  unfold WriteFile at h
  split at h
  · simp only [Prod.mk.injEq] at h; rw [← h.2]; exact hq
  · simp only [Prod.mk.injEq] at h; rw [← h.2]
    by_cases hqp : q = p
    · subst hqp; simp [FileExists, FS.read, List.lookup]
    · have hb : (q == p) = false := by simpa using hqp
      simp only [FileExists, FS.read, List.lookup, hb]
      rw [lookup_filter_ne _ _ _ hqp]
      exact hq

theorem FileExists_MkdirAll {env : Env} {p q : String} {w w1 : World}
    {r : Except String Unit} (h : MkdirAll env p w = (r, w1)) :
    FileExists w1 q = FileExists w q := by
  have := MkdirAll_files env p w
  rw [h] at this
  simp only at this
  simp only [FileExists, FS.read, this]

/-- A file that exists still exists after the state-file step. -/
theorem FileExists_ensureState {env : Env} {p q : String} {w w1 : World} {r : Option String}
    (h : ensureState env p w = (r, w1)) (hq : FileExists w q = true) :
    FileExists w1 q = true := by
  unfold ensureState at h
  split at h
  · split at h
    · rename_i h1
      simp only [Prod.mk.injEq] at h; rw [← h.2, FileExists_MkdirAll h1]; exact hq
    · rename_i h1
      split at h <;>
        (rename_i h2; simp only [Prod.mk.injEq] at h; rw [← h.2]
         exact FileExists_WriteFile h2 (by rw [FileExists_MkdirAll h1]; exact hq))
  · simp only [Prod.mk.injEq] at h; rw [← h.2]; exact hq

/-- The artifact returned by a successful `buildWasm` exists. -/
theorem buildWasm_ok_exists {env : Env} {projectDir p : String} {w w1 : World}
    (h : buildWasm env projectDir w = (.ok p, w1)) : FileExists w1 p = true := by
  unfold buildWasm at h
  dsimp only at h
  split at h
  · simp at h
  · split at h
    · split at h <;> simp at h
    · split at h
      · simp at h
      · split at h
        · simp at h
        · split at h
          · simp at h
          · split at h
            · simp at h
            · rename_i hw
              simp only [Prod.mk.injEq, Except.ok.injEq] at h
              rw [← h.1, ← h.2]
              have := read_after_WriteFile _ _ _ _ _ hw
              simp [FileExists, this]

/-- Without I/O failures the state-file step reports no error. -/
theorem ensureState_ok_of_io {env : Env} (hio : ∀ w op, env.ioFails w op = none)
    (p : String) (w : World) : (ensureState env p w).1 = none := by
  unfold ensureState
  split
  · simp [MkdirAll, WriteFile, hio]
  · rfl

/-- An existing file can be opened and copied into a form part when no I/O
fails. -/
theorem formPart_ok {env : Env} (hio : ∀ w op, env.ioFails w op = none)
    (what path : String) (w : World) (h : FileExists w path = true) :
    ∃ f, formPart env what path w = .ok f := by
  unfold FileExists at h
  cases hr : w.fs.read path with
  | none => rw [hr] at h; simp at h
  | some c =>
    exact ⟨{ filename := env.base path, content := c },
      by simp [formPart, OpenFile, CopyFile, hio, hr]⟩

/-- When the three files exist, no I/O fails and the node answers the generate
request with `status=true`, `generateSmartContract` returns the `result` of
that answer. -/
theorem generateSmartContract_accepts {env : Env} {fingerprint : String}
    (hio : ∀ w op, env.ioFails w op = none) (hnew : ∀ u, env.newRequestFails u = none)
    (hgen : ∀ w url did a b c, ∃ code text resp,
      env.http w url (.generateSmartContract did a b c) = .body code text ∧
      env.unmarshalV1 text = .ok resp ∧ resp.Status = true ∧ resp.Result = fingerprint)
    (baseURL deployerDid wasmPath libPath statePath : String) (w : World)
    (h1 : FileExists w wasmPath = true) (h2 : FileExists w libPath = true)
    (h3 : FileExists w statePath = true) :
    ∃ w1, generateSmartContract env baseURL deployerDid wasmPath libPath statePath w
      = (.ok fingerprint, w1) := by
  obtain ⟨fa, ha⟩ := formPart_ok hio "WASM" wasmPath w h1
  obtain ⟨fb, hb⟩ := formPart_ok hio "lib.rs" libPath w h2
  obtain ⟨fc, hc⟩ := formPart_ok hio "state.json" statePath w h3
  obtain ⟨code, text, resp, hh, hu, hs, hr⟩ := hgen w (baseURL ++ "/api/generate-smart-contract")
    deployerDid fa fb fc
  refine ⟨w.posted (baseURL ++ "/api/generate-smart-contract")
    (.generateSmartContract deployerDid fa fb fc) (.body code text), ?_⟩
  simp only [generateSmartContract, ha, hb, hc, postV1, hnew, doPost, hh, replyV1, hu, hs,
    Bool.not_true, Bool.false_eq_true, if_false, hr]
  rfl

/-- When the URL can be formed and the node answers the deploy request with
`status=true`, `deploySmartContract` succeeds. -/
theorem deploySmartContract_accepts {env : Env}
    (hnew : ∀ u, env.newRequestFails u = none)
    (hdep : ∀ w url c d q a t, ∃ code text resp,
      env.http w url (.deploySmartContract c d q a t) = .body code text ∧
      env.unmarshalV2 text = .ok resp ∧ resp.Status = true)
    (baseURL contractHash deployerDid : String) (w : World)
    (hjoin : ∀ p, ∃ u, env.joinPath baseURL p = .ok u) :
    ∃ rid w1, deploySmartContract env baseURL contractHash deployerDid w = (.ok rid, w1) := by
  obtain ⟨u, hu⟩ := hjoin "/api/deploy-smart-contract"
  obtain ⟨code, text, resp, hh, hv, hs⟩ := hdep w u "Contract deployment" deployerDid 2
    { mantissa := 1, exp10 := -3 } contractHash
  refine ⟨resp.Result.Id, w.posted u (.deploySmartContract "Contract deployment" deployerDid 2
    { mantissa := 1, exp10 := -3 } contractHash) (.body code text), ?_⟩
  simp only [deploySmartContract, hu, postV2, hnew, doPost, hh, replyV2, hv, hs,
    Bool.not_true, Bool.false_eq_true, if_false]
  rfl

/-- When the URL can be formed and the node answers the confirmation with
`status=true`, `signatureResponse` reports no error. -/
theorem signatureResponse_accepts {env : Env}
    (hnew : ∀ u, env.newRequestFails u = none)
    (hsig : ∀ w url id m p, ∃ code text resp,
      env.http w url (.signatureResponse id m p) = .body code text ∧
      env.unmarshalV1 text = .ok resp ∧ resp.Status = true)
    (baseURL requestID : String) (w : World)
    (hjoin : ∀ p, ∃ u, env.joinPath baseURL p = .ok u) :
    ∃ w1, signatureResponse env baseURL requestID w = (none, w1) := by
  obtain ⟨u, hu⟩ := hjoin "/api/signature-response"
  obtain ⟨code, text, resp, hh, hv, hs⟩ := hsig w u requestID 0 "mypassword"
  refine ⟨w.posted u (.signatureResponse requestID 0 "mypassword") (.body code text), ?_⟩
  simp only [signatureResponse, hu, postV1, hnew, doPost, hh, replyV1, hv, hs,
    Bool.not_true, Bool.false_eq_true, if_false]
  rfl

/-- C6: given a configuration that loads, a valid project directory, a
successful toolchain check and build, a filesystem that does not fail and
still holds the source file, well-formed URLs, and a node that answers generate,
deploy and confirm with `status=true`, `Deploy` returns a result with
`Success = true` whose `ContractHash` is the `result` string of the generate
response, whatever the deploy response contains. -/
theorem deploy_success_returns_generate_hash (env : Env)
    (contractDir homeDir deployerDid wasmPath fingerprint : String) (cfg : Config)
    (w w1 w2 : World)
    (hcfg : LoadConfig env homeDir w = .ok cfg)
    (hvalid : isValidContractDir env contractDir w = true)
    (hverify : verifyBuildPrerequisites env w = (.ok (), w1))
    (hbuild : buildWasm env contractDir (onStage .StageBuild w1) = (.ok wasmPath, w2))
    (hlib : FileExists w2 (env.join [contractDir, "src", "lib.rs"]) = true)
    (hio : ∀ w op, env.ioFails w op = none)
    (hjoin : ∀ p, ∃ u, env.joinPath cfg.Network.DeployerNodeURL p = .ok u)
    (hnew : ∀ u, env.newRequestFails u = none)
    (hgen : ∀ w url did a b c, ∃ code text resp,
      env.http w url (.generateSmartContract did a b c) = .body code text ∧
      env.unmarshalV1 text = .ok resp ∧ resp.Status = true ∧ resp.Result = fingerprint)
    (hdep : ∀ w url c d q a t, ∃ code text resp,
      env.http w url (.deploySmartContract c d q a t) = .body code text ∧
      env.unmarshalV2 text = .ok resp ∧ resp.Status = true)
    (hsig : ∀ w url id m p, ∃ code text resp,
      env.http w url (.signatureResponse id m p) = .body code text ∧
      env.unmarshalV1 text = .ok resp ∧ resp.Status = true) :
    ∃ result wf, Deploy env contractDir homeDir deployerDid w = (.ok result, wf) ∧
      result.Success = true ∧ result.ContractHash = fingerprint := by
  rcases Deploy_cases env contractDir homeDir deployerDid w with
    ⟨e, hc, _⟩ | ⟨cfg', hc, ⟨hv, _⟩ | ⟨_, ⟨e, w1', hv, _⟩ | ⟨w1', hv, ⟨e, w2', hb, _⟩ |
      ⟨wasmPath', w2', hb, ⟨e, w3, hs, _⟩ | ⟨w3, hs, ⟨e, w4, hg, _⟩ | ⟨hash, w4, hg,
        ⟨e, w5, hd, _⟩ | ⟨rid, w5, hd, ⟨e, w6, hsr, _⟩ | ⟨w6, hsr, hD⟩⟩⟩⟩⟩⟩⟩⟩
  · rw [hcfg] at hc; simp at hc
  · rw [hvalid] at hv; simp at hv
  · rw [hverify] at hv; simp at hv
  all_goals
    rw [hcfg] at hc
    simp only [Except.ok.injEq] at hc
    subst hc
    rw [hverify] at hv
    simp only [Prod.mk.injEq, true_and] at hv
    subst hv
  · rw [hbuild] at hb; simp at hb
  all_goals
    rw [hbuild] at hb
    simp only [Prod.mk.injEq, Except.ok.injEq] at hb
    obtain ⟨hb1, hb2⟩ := hb
    subst hb1 hb2
  · have := ensureState_ok_of_io hio (statePathOf env contractDir) w2
    rw [hs] at this; simp at this
  all_goals
    have hsp : FileExists w3 (statePathOf env contractDir) = true := by
      have := ensureState_exists_after env (statePathOf env contractDir) w2 (by rw [hs])
      rw [hs] at this; exact this
    obtain ⟨wg, hgen'⟩ := generateSmartContract_accepts hio hnew hgen cfg.Network.DeployerNodeURL
      deployerDid wasmPath (env.join [contractDir, "src", "lib.rs"])
      (statePathOf env contractDir) (onStage .StageGenerate w3)
      (show FileExists w3 wasmPath = true from
        FileExists_ensureState hs (buildWasm_ok_exists hbuild))
      (show FileExists w3 (env.join [contractDir, "src", "lib.rs"]) = true from
        FileExists_ensureState hs hlib) hsp
    rw [hgen'] at hg
  · simp at hg
  all_goals
    simp only [Prod.mk.injEq, Except.ok.injEq] at hg
    obtain ⟨hg1, hg2⟩ := hg
    subst hg1 hg2
    obtain ⟨rid', wd, hdep'⟩ := deploySmartContract_accepts hnew hdep cfg.Network.DeployerNodeURL
      fingerprint deployerDid (onStage .StageDeploy wg) hjoin
    rw [hdep'] at hd
  · simp at hd
  all_goals
    simp only [Prod.mk.injEq, Except.ok.injEq] at hd
    obtain ⟨hd1, hd2⟩ := hd
    subst hd1 hd2
    obtain ⟨ws, hsig'⟩ := signatureResponse_accepts hnew hsig cfg.Network.DeployerNodeURL
      rid' wd hjoin
    rw [hsig'] at hsr
  · simp at hsr
  · exact ⟨_, _, hD, rfl, rfl⟩

/-- C6 witness: against the node that accepts everything, `Deploy` of
`proj/counter` succeeds with the fingerprint of the generate response. -/
theorem deploy_success_returns_generate_hash_witness :
    ∃ result wf, Deploy demoEnv "proj/counter" "home" "did:deployer" demoWorld = (.ok result, wf) ∧
      result.Success = true ∧ result.ContractHash = "QmContractHash" :=
  deploy_success_returns_generate_hash demoEnv "proj/counter" "home" "did:deployer"
    "proj/artifacts/counter.wasm" "QmContractHash"
    { Network := { DeployerNodeURL := "http://localhost:20011" } }
    demoWorld (verifyBuildPrerequisites demoEnv demoWorld).2
    (buildWasm demoEnv "proj/counter"
      (onStage .StageBuild (verifyBuildPrerequisites demoEnv demoWorld).2)).2
    rfl rfl rfl rfl rfl (fun _ _ => rfl) (fun p => ⟨"http://localhost:20011" ++ p, rfl⟩)
    (fun _ => rfl)
    (fun _ _ _ _ _ _ => ⟨200, genOkBody,
      { Status := true, Message := "generated", Result := "QmContractHash" }, rfl, rfl, rfl, rfl⟩)
    (fun _ _ _ _ _ _ _ => ⟨200, pendingOkBody,
      { Status := true, Message := "pending",
        Result := { Id := "req-7", Mode := 0, Hash := "", OnlyPrivKey := false } }, rfl, rfl, rfl⟩)
    (fun _ _ _ _ _ => ⟨200, sigOkBody,
      { Status := true, Message := "signed", Result := "" }, rfl, rfl, rfl⟩)

/-! ### A rejected generate request -/

theorem signatureResponse_only {P : Event → Prop} {env : Env} {baseURL requestID : String}
    {w w1 : World} {r : Option String}
    (hP : ∀ url reply, P (.post url (.signatureResponse requestID 0 "mypassword") reply))
    (h : signatureResponse env baseURL requestID w = (r, w1)) : Only P w w1 := by
  rcases signatureResponse_spec h with ⟨rfl, _⟩ | ⟨_, rfl, _⟩
  · exact Only.refl _ _
  · exact posted_only _ _ _ _ (hP _ _)

/-- Events that are neither a deploy request, nor a confirmation, nor the
third stage event: local events are such. -/
theorem beforeDeploy_of_isLocal (ev : Event) (h : Event.isLocal ev = true) :
    Event.isDeployCall ev = false ∧ Event.isSignatureCall ev = false ∧
      ev ≠ .stage .StageDeploy := by
  cases ev <;> simp_all [Event.isLocal, Event.isDeployCall, Event.isSignatureCall]

theorem notGenerate_of_isLocal (ev : Event) (h : Event.isLocal ev = true) :
    Event.isGenerateCall ev = false := by
  cases ev <;> simp_all [Event.isLocal, Event.isGenerateCall]

/-- A run in which `generateSmartContract` succeeded contains no generate
exchange whose response has `status=false`. -/
theorem no_rejected_generate {env : Env} {baseURL deployerDid wasmPath libPath statePath : String}
    {hash : String} {w wg w4 wf : World} {evs : List Event}
    {url did : String} {a b c : FormFile} {code : Nat} {text : String}
    {resp : SmartContractAPIResponseV1}
    (hpre : Only (fun ev => Event.isGenerateCall ev = false) w wg)
    (hg : generateSmartContract env baseURL deployerDid wasmPath libPath statePath wg
      = (.ok hash, w4))
    (htail : Only (fun ev => Event.isGenerateCall ev = false) w4 wf)
    (ht : wf.trace = w.trace ++ evs)
    (hmem : Event.post url (.generateSmartContract did a b c) (.body code text) ∈ evs)
    (hu : env.unmarshalV1 text = .ok resp) (hs : resp.Status = false) : False := by
  obtain ⟨A, hA, hAn⟩ := hpre
  obtain ⟨T, hT, hTn⟩ := htail
  obtain ⟨a', b', c', code', text', resp', hw4, hu', hs', _⟩ := generateSmartContract_ok hg
  have hwf : wf.trace = w.trace ++ (A ++ [.post (baseURL ++ "/api/generate-smart-contract")
      (.generateSmartContract deployerDid a' b' c') (.body code' text')] ++ T) := by
    rw [hT, hw4]
    simp only [World.posted, hA, List.append_assoc]
  rw [hwf] at ht
  rw [← List.append_cancel_left ht] at hmem
  simp only [List.mem_append, List.mem_singleton] at hmem
  rcases hmem with (h | h) | h
  · have := hAn _ h; simp [Event.isGenerateCall] at this
  · simp only [Event.post.injEq, HttpReply.body.injEq] at h
    rw [h.2.2.2, hu'] at hu
    simp only [Except.ok.injEq] at hu
    rw [← hu, hs'] at hs
    exact absurd hs (by decide)
  · have := hTn _ h; simp [Event.isGenerateCall] at this

/-- C7: if the events of a run of `Deploy` contain a generate-smart-contract
exchange whose response has `status=false`, then `Deploy` returns an error,
and the events of the run contain neither a deploy-smart-contract request nor
a signature-response request nor the `StageDeploy` stage event. -/
theorem generate_rejection_stops_deploy (env : Env)
    (contractDir homeDir deployerDid : String) (w : World) (evs : List Event)
    (url did : String) (a b c : FormFile) (code : Nat) (text : String)
    (resp : SmartContractAPIResponseV1)
    (ht : (Deploy env contractDir homeDir deployerDid w).2.trace = w.trace ++ evs)
    (hmem : Event.post url (.generateSmartContract did a b c) (.body code text) ∈ evs)
    (hu : env.unmarshalV1 text = .ok resp) (hs : resp.Status = false) :
    (∃ e, (Deploy env contractDir homeDir deployerDid w).1 = .error e) ∧
    ∀ ev ∈ evs, Event.isDeployCall ev = false ∧ Event.isSignatureCall ev = false ∧
      ev ≠ .stage .StageDeploy := by
  have hL := beforeDeploy_of_isLocal
  have hN := notGenerate_of_isLocal
  have early : ∀ e wf, Deploy env contractDir homeDir deployerDid w = (.error e, wf) →
      Only (fun ev => Event.isDeployCall ev = false ∧ Event.isSignatureCall ev = false ∧
        ev ≠ .stage .StageDeploy) w wf →
      (∃ e, (Deploy env contractDir homeDir deployerDid w).1 = .error e) ∧
      ∀ ev ∈ evs, Event.isDeployCall ev = false ∧ Event.isSignatureCall ev = false ∧
        ev ≠ .stage .StageDeploy := by
    intro e wf hD ho
    rw [hD] at ht
    exact ⟨⟨e, by rw [hD]⟩, ho.evs_eq ht⟩
  rcases Deploy_cases env contractDir homeDir deployerDid w with
    ⟨e, _, hD⟩ | ⟨cfg, _, ⟨_, hD⟩ | ⟨_, ⟨e, w1, hv, hD⟩ | ⟨w1, hv, ⟨e, w2, hb, hD⟩ |
      ⟨wasmPath, w2, hb, ⟨e, w3, hst, hD⟩ | ⟨w3, hst, ⟨e, w4, hg, hD⟩ | ⟨hash, w4, hg,
        ⟨e, w5, hd, hD⟩ | ⟨rid, w5, hd, ⟨e, w6, hsr, hD⟩ | ⟨w6, hsr, hD⟩⟩⟩⟩⟩⟩⟩⟩
  · exact early _ _ hD (Only.refl _ w)
  · exact early _ _ hD (Only.refl _ w)
  · exact early _ _ hD ((verifyBuildPrerequisites_local hv).mono hL)
  · exact early _ _ hD (Deploy_upto_build hL (by simp [Event.isDeployCall,
      Event.isSignatureCall]) hv hb)
  · exact early _ _ hD (Deploy_upto_state hL (by simp [Event.isDeployCall,
      Event.isSignatureCall]) hv hb hst)
  · exact early _ _ hD (Deploy_upto_generate hL
      (by simp [Event.isDeployCall, Event.isSignatureCall])
      (by simp [Event.isDeployCall, Event.isSignatureCall])
      (fun _ _ _ _ _ => by simp [Event.isDeployCall, Event.isSignatureCall]) hv hb hst hg)
  all_goals
    exfalso
    rw [hD] at ht
    have hpre : Only (fun ev => Event.isGenerateCall ev = false) w (onStage .StageGenerate w3) :=
      (Deploy_upto_state hN rfl hv hb hst).trans
        ((onStage_only _ _).mono (by rintro ev rfl; rfl))
    have hdq : Only (fun ev => Event.isGenerateCall ev = false) w4 w5 :=
      ((onStage_only _ _).mono (by rintro ev rfl; rfl)).trans
        (deploySmartContract_only (fun _ _ => rfl) hd)
  · exact no_rejected_generate hpre hg hdq ht hmem hu hs
  · exact no_rejected_generate hpre hg
      (hdq.trans (signatureResponse_only (fun _ _ => rfl) hsr)) ht hmem hu hs
  · exact no_rejected_generate hpre hg
      (hdq.trans (signatureResponse_only (fun _ _ => rfl) hsr)) ht hmem hu hs

/-- C7 witness: the node answers the generate request with `status=false`;
`Deploy` returns an error and the run has no deploy request, no confirmation
and no `StageDeploy` event. -/
theorem generate_rejection_stops_deploy_witness :
    (∃ e, (Deploy quotaEnv "proj/counter" "home" "did:deployer" demoWorld).1 = .error e) ∧
    ∀ ev ∈ (Deploy quotaEnv "proj/counter" "home" "did:deployer" demoWorld).2.trace.take 9 ++
        [quotaExchange],
      Event.isDeployCall ev = false ∧ Event.isSignatureCall ev = false ∧
        ev ≠ .stage .StageDeploy :=
  generate_rejection_stops_deploy quotaEnv "proj/counter" "home" "did:deployer" demoWorld
    ((Deploy quotaEnv "proj/counter" "home" "did:deployer" demoWorld).2.trace.take 9 ++
      [quotaExchange])
    "http://localhost:20011/api/generate-smart-contract" "did:deployer"
    { filename := "counter.wasm", content := "\x00asm" }
    { filename := "lib.rs", content := "// contract source" }
    { filename := "state.json", content := "\x7b\x7d" }
    200 genQuotaBody { Status := false, Message := "quota exceeded", Result := "" }
    rfl (List.mem_append_right _ (List.mem_singleton.2 rfl)) rfl rfl

/-! ### The message of a rejected generate request -/

/-- A format string without `%` is rendered as it is. -/
theorem Errorf0_no_percent (env : Env) (m : String) (h : '%' ∉ m.data) : Errorf0 env m = m := by
  unfold Errorf0
  have h1 : m.data.takeWhile (fun c => c != '%') = m.data := by
    rw [List.takeWhile_eq_self_iff]
    intro c hc
    simp only [bne_iff_ne, ne_eq]
    rintro rfl
    exact h hc
  have h2 : m.data.dropWhile (fun c => c != '%') = [] := by
    rw [List.dropWhile_eq_nil_iff]
    intro c hc
    simp only [bne_iff_ne, ne_eq]
    rintro rfl
    exact h hc
  simp [h1, h2]

/-- C8 (as stated, refuted): the node answers the generate request with
`status=false` and message `quota exceeded`; the error `Deploy` returns does
not have that message but the message wrapped with the name of the failed
step. -/
theorem deploy_generate_message_counterexample :
    quotaExchange ∈ (Deploy quotaEnv "proj/counter" "home" "did:deployer" demoWorld).2.trace ∧
    quotaEnv.unmarshalV1 genQuotaBody
      = .ok { Status := false, Message := "quota exceeded", Result := "" } ∧
    (Deploy quotaEnv "proj/counter" "home" "did:deployer" demoWorld).1
      = .error "failed to generate smart contract: quota exceeded" ∧
    (Deploy quotaEnv "proj/counter" "home" "did:deployer" demoWorld).1
      ≠ .error "quota exceeded" := by
  refine ⟨?_, rfl, rfl, ?_⟩
  · have : (Deploy quotaEnv "proj/counter" "home" "did:deployer" demoWorld).2.trace =
        (Deploy quotaEnv "proj/counter" "home" "did:deployer" demoWorld).2.trace.take 9 ++
          [quotaExchange] := rfl
    rw [this]
    exact List.mem_append_right _ (List.mem_singleton.2 rfl)
  · have : (Deploy quotaEnv "proj/counter" "home" "did:deployer" demoWorld).1
        = .error "failed to generate smart contract: quota exceeded" := rfl
    rw [this]
    intro h
    simp only [Except.error.injEq] at h
    exact absurd h (by decide)

/-- C8 (amended): if the events of a run of `Deploy` contain a
generate-smart-contract exchange whose response has `status=false` and a
message `m` without a `%` character, the error `Deploy` returns has the
message `failed to generate smart contract: ` followed by `m`. -/
theorem deploy_generate_message (env : Env)
    (contractDir homeDir deployerDid : String) (w : World) (evs : List Event)
    (url did : String) (a b c : FormFile) (code : Nat) (text : String)
    (resp : SmartContractAPIResponseV1)
    (ht : (Deploy env contractDir homeDir deployerDid w).2.trace = w.trace ++ evs)
    (hmem : Event.post url (.generateSmartContract did a b c) (.body code text) ∈ evs)
    (hu : env.unmarshalV1 text = .ok resp) (hs : resp.Status = false)
    (hpct : '%' ∉ resp.Message.data) :
    (Deploy env contractDir homeDir deployerDid w).1
      = .error ("failed to generate smart contract: " ++ resp.Message) := by
  have hN := notGenerate_of_isLocal
  have none_case : ∀ wf, (Deploy env contractDir homeDir deployerDid w).2 = wf →
      Only (fun ev => Event.isGenerateCall ev = false) w wf → False := by
    intro wf hwf ho
    rw [hwf] at ht
    have := ho.evs_eq ht _ hmem
    simp [Event.isGenerateCall] at this
  rcases Deploy_cases env contractDir homeDir deployerDid w with
    ⟨e, _, hD⟩ | ⟨cfg, _, ⟨_, hD⟩ | ⟨_, ⟨e, w1, hv, hD⟩ | ⟨w1, hv, ⟨e, w2, hb, hD⟩ |
      ⟨wasmPath, w2, hb, ⟨e, w3, hst, hD⟩ | ⟨w3, hst, ⟨e, w4, hg, hD⟩ | ⟨hash, w4, hg,
        ⟨e, w5, hd, hD⟩ | ⟨rid, w5, hd, ⟨e, w6, hsr, hD⟩ | ⟨w6, hsr, hD⟩⟩⟩⟩⟩⟩⟩⟩
  · exact (none_case w (by rw [hD]) (Only.refl _ w)).elim
  · exact (none_case w (by rw [hD]) (Only.refl _ w)).elim
  · exact (none_case w1 (by rw [hD]) ((verifyBuildPrerequisites_local hv).mono hN)).elim
  · exact (none_case w2 (by rw [hD]) (Deploy_upto_build hN rfl hv hb)).elim
  · exact (none_case w3 (by rw [hD]) (Deploy_upto_state hN rfl hv hb hst)).elim
  · have hpre : Only (fun ev => Event.isGenerateCall ev = false) w (onStage .StageGenerate w3) :=
      (Deploy_upto_state hN rfl hv hb hst).trans
        ((onStage_only _ _).mono (by rintro ev rfl; rfl))
    rcases generateSmartContract_spec hg with ⟨hsame, _⟩ | ⟨a', b', c', hw4, hr⟩
    · exact (none_case w4 (by rw [hD]) (by rw [hsame]; exact hpre)).elim
    · obtain ⟨A, hA, hAn⟩ := hpre
      rw [hD] at ht
      have hwf : w4.trace = w.trace ++ (A ++ [.post
          (cfg.Network.DeployerNodeURL ++ "/api/generate-smart-contract")
          (.generateSmartContract deployerDid a' b' c')
          (env.http (onStage .StageGenerate w3)
            (cfg.Network.DeployerNodeURL ++ "/api/generate-smart-contract")
            (.generateSmartContract deployerDid a' b' c'))]) := by
        rw [hw4]
        simp only [World.posted, hA, List.append_assoc]
      rw [hwf] at ht
      rw [← List.append_cancel_left ht] at hmem
      simp only [List.mem_append, List.mem_singleton] at hmem
      rcases hmem with h | h
      · have := hAn _ h; simp [Event.isGenerateCall] at this
      · simp only [Event.post.injEq] at h
        rw [← h.2.2, replyV1_status_false hu hs] at hr
        simp only [Except.map, Except.error.injEq] at hr
        rw [hD, hr, Errorf0_no_percent env _ hpct]
  all_goals
    exfalso
    rw [hD] at ht
    have hpre : Only (fun ev => Event.isGenerateCall ev = false) w (onStage .StageGenerate w3) :=
      (Deploy_upto_state hN rfl hv hb hst).trans
        ((onStage_only _ _).mono (by rintro ev rfl; rfl))
    have hdq : Only (fun ev => Event.isGenerateCall ev = false) w4 w5 :=
      ((onStage_only _ _).mono (by rintro ev rfl; rfl)).trans
        (deploySmartContract_only (fun _ _ => rfl) hd)
  · exact no_rejected_generate hpre hg hdq ht hmem hu hs
  · exact no_rejected_generate hpre hg
      (hdq.trans (signatureResponse_only (fun _ _ => rfl) hsr)) ht hmem hu hs
  · exact no_rejected_generate hpre hg
      (hdq.trans (signatureResponse_only (fun _ _ => rfl) hsr)) ht hmem hu hs

/-- C8 witness: in the scenario `quotaEnv` the returned error is
`failed to generate smart contract: quota exceeded`. -/
theorem deploy_generate_message_witness :
    (Deploy quotaEnv "proj/counter" "home" "did:deployer" demoWorld).1
      = .error ("failed to generate smart contract: " ++ "quota exceeded") :=
  deploy_generate_message quotaEnv "proj/counter" "home" "did:deployer" demoWorld
    ((Deploy quotaEnv "proj/counter" "home" "did:deployer" demoWorld).2.trace.take 9 ++
      [quotaExchange])
    "http://localhost:20011/api/generate-smart-contract" "did:deployer"
    { filename := "counter.wasm", content := "\x00asm" }
    { filename := "lib.rs", content := "// contract source" }
    { filename := "state.json", content := "\x7b\x7d" }
    200 genQuotaBody { Status := false, Message := "quota exceeded", Result := "" }
    rfl (List.mem_append_right _ (List.mem_singleton.2 rfl)) rfl rfl (by decide)

/-! ### Round trip of the contract message -/

/-- C9 (as stated, refuted): the message file `big.json` holds the JSON object
with the one member `a` of value 9007199254740993; the returned string is the
JSON object whose member `a` has the value 9007199254740992, a different
number (decoding into `map[string]interface{}` stores numbers as `float64`).
And the file `dup.json` holds an object that names `a` twice, with the values
1 and 2; the returned string has the one member `a` = 2 (a repeated name
overwrites the earlier member of the map). -/
theorem contract_msg_round_trip_counterexample :
    (msgWorld.fs.read "/work/big.json" = some "\x7b\"a\":9007199254740993\x7d" ∧
     msgEnv.jsonScanFirst "\x7b\"a\":9007199254740993\x7d" =
       .ok (.object [("a", .number { neg := false, digits := 9007199254740993, exp10 := 0 })]) ∧
     parseContractMsgFromJSON msgEnv "big.json" msgWorld
       = .ok "\x7b\"a\":9007199254740992\x7d" ∧
     msgEnv.jsonScanFirst "\x7b\"a\":9007199254740992\x7d" =
       .ok (.object [("a", .number { neg := false, digits := 9007199254740992, exp10 := 0 })]) ∧
     (JSON.object [("a", .number { neg := false, digits := 9007199254740993, exp10 := 0 })]).sameAs
       (.object [("a", .number { neg := false, digits := 9007199254740992, exp10 := 0 })])
       = false) ∧
    (msgWorld.fs.read "/work/dup.json" = some "\x7b\"a\":1,\"a\":2\x7d" ∧
     msgEnv.jsonScanFirst "\x7b\"a\":1,\"a\":2\x7d" =
       .ok (.object [("a", .number { neg := false, digits := 1, exp10 := 0 }),
                     ("a", .number { neg := false, digits := 2, exp10 := 0 })]) ∧
     parseContractMsgFromJSON msgEnv "dup.json" msgWorld = .ok "\x7b\"a\":2\x7d" ∧
     msgEnv.jsonScanFirst "\x7b\"a\":2\x7d" =
       .ok (.object [("a", .number { neg := false, digits := 2, exp10 := 0 })]) ∧
     (JSON.object [("a", .number { neg := false, digits := 1, exp10 := 0 }),
                   ("a", .number { neg := false, digits := 2, exp10 := 0 })]).sameAs
       (.object [("a", .number { neg := false, digits := 2, exp10 := 0 })]) = false) :=
  ⟨⟨rfl, rfl, rfl, rfl, rfl⟩, ⟨rfl, rfl, rfl, rfl, rfl⟩⟩

/-- A name that the decoded map knows is a name of a member. -/
theorem decodeMembers_keys (ms : List (String × JSON)) (k : String)
    (h : ((decodeMembers ms).1.lookup k).isSome = true) : k ∈ ms.map Prod.fst := by
  induction ms with
  | nil => simp [decodeMembers] at h
  | cons m ms ih =>
    obtain ⟨k1, v1⟩ := m
    simp only [decodeMembers] at h
    split_ifs at h with hk
    · exact List.mem_cons_of_mem _ (ih h)
    · simp only [List.lookup] at h
      by_cases hkk : k = k1
      · subst hkk; simp
      · have : (k == k1) = false := by simpa using hkk
        simp only [this] at h
        exact List.mem_cons_of_mem _ (ih h)

/-- With pairwise distinct names nothing is overwritten: the decoded map lists
the members in order. -/
theorem decodeMembers_nodup (ms : List (String × JSON)) (h : (ms.map Prod.fst).Nodup) :
    (decodeMembers ms).1 = ms.map (fun p => (p.1, (decodeValue p.2).1)) := by
  induction ms with
  | nil => simp [decodeMembers]
  | cons m ms ih =>
    obtain ⟨k1, v1⟩ := m
    simp only [List.map_cons, List.nodup_cons] at h
    simp only [decodeMembers, List.map_cons]
    have hk : ((decodeMembers ms).1.lookup k1).isSome = false := by
      by_contra hc
      simp only [Bool.not_eq_false] at hc
      exact h.1 (decodeMembers_keys ms k1 hc)
    rw [if_neg (by rw [hk]; simp), ih h.2]

/-- Decoding the members saves no error when decoding each value saves
none. -/
theorem decodeMembers_no_error (ms : List (String × JSON))
    (h : ∀ p ∈ ms, (decodeValue p.2).2 = none) : (decodeMembers ms).2 = none := by
  induction ms with
  | nil => simp [decodeMembers]
  | cons m ms ih =>
    obtain ⟨k1, v1⟩ := m
    simp only [decodeMembers]
    have h1 := h (k1, v1) (List.mem_cons_self _ _)
    simp only at h1
    rw [h1, ih (fun p hp => h p (List.mem_cons_of_mem _ hp))]
    rfl

theorem marshalMembers_eq_map (m : List (String × Dyn)) :
    marshalMembers m = m.map (fun p => (p.1, marshalValue p.2)) := by
  induction m with
  | nil => simp [marshalMembers]
  | cons p m ih => obtain ⟨k, v⟩ := p; simp [marshalMembers, ih]

/-- In a list with pairwise distinct names, looking a member's name up finds
that member's value. -/
theorem lookup_of_mem_nodup {β : Type} (l : List (String × β)) (k : String) (v : β)
    (hn : (l.map Prod.fst).Nodup) (hm : (k, v) ∈ l) : l.lookup k = some v := by
  induction l with
  | nil => simp at hm
  | cons p l ih =>
    obtain ⟨k1, v1⟩ := p
    simp only [List.map_cons, List.nodup_cons] at hn
    simp only [List.mem_cons, Prod.mk.injEq] at hm
    rcases hm with ⟨rfl, rfl⟩ | hm
    · simp [List.lookup]
    · have hne : k ≠ k1 := by
        rintro rfl
        exact hn.1 (List.mem_map.2 ⟨(k, v), hm, rfl⟩)
      have : (k == k1) = false := by simpa using hne
      simp only [List.lookup, this]
      exact ih hn.2 hm

theorem sameMembers_of (ms ns : List (String × JSON))
    (h : ∀ p ∈ ms, ∃ v2, ns.lookup p.1 = some v2 ∧ p.2.sameAs v2 = true) :
    sameMembers ms ns = true := by
  induction ms with
  | nil => simp [sameMembers]
  | cons m ms ih =>
    obtain ⟨k, v⟩ := m
    obtain ⟨v2, hl, hs⟩ := h (k, v) (List.mem_cons_self _ _)
    simp only at hl hs
    simp only [sameMembers, hl, hs, Bool.true_and]
    exact ih (fun p hp => h p (List.mem_cons_of_mem _ hp))

/-- An object with pairwise distinct names whose values each survive decoding
and marshalling survives them too: the marshalled object has the same names
and, for each name, the same value. -/
theorem object_round_trip (ms : List (String × JSON)) (hn : (ms.map Prod.fst).Nodup)
    (hm : ∀ p ∈ ms, (decodeValue p.2).2 = none ∧
      p.2.sameAs (marshalValue (decodeValue p.2).1) = true) :
    (decodeValue (.object ms)).2 = none ∧
    (JSON.object ms).sameAs (marshalValue (decodeValue (.object ms)).1) = true := by
  have hdec : decodeValue (.object ms) = (.object (decodeMembers ms).1, (decodeMembers ms).2) := by
    simp [decodeValue]
  rw [hdec]
  refine ⟨decodeMembers_no_error ms (fun p hp => (hm p hp).1), ?_⟩
  simp only [marshalValue, decodeMembers_nodup ms hn, marshalMembers_eq_map, List.map_map]
  generalize hout : List.map ((fun p => (p.1, marshalValue p.2)) ∘
    fun p => (p.1, (decodeValue p.2).1)) ms = out0
  have hperm : (out0.insertionSort memberLe).Perm out0 := List.perm_insertionSort _ _
  have hkeys0 : out0.map Prod.fst = ms.map Prod.fst := by
    rw [← hout, List.map_map]; rfl
  have hnod : ((out0.insertionSort memberLe).map Prod.fst).Nodup := by
    rw [(hperm.map Prod.fst).nodup_iff, hkeys0]; exact hn
  simp only [JSON.sameAs, Bool.and_eq_true, List.all_eq_true, List.any_eq_true, beq_iff_eq]
  constructor
  · intro n hnmem
    have hn0 : n ∈ out0 := hperm.subset hnmem
    rw [← hout] at hn0
    obtain ⟨p, hp, rfl⟩ := List.mem_map.1 hn0
    exact ⟨p, hp, rfl⟩
  · apply sameMembers_of
    intro p hp
    refine ⟨marshalValue (decodeValue p.2).1, ?_, (hm p hp).2⟩
    apply lookup_of_mem_nodup _ _ _ hnod
    apply hperm.symm.subset
    rw [← hout]
    exact List.mem_map.2 ⟨p, hp, rfl⟩

theorem number_round_trip (n : NumLit) (he : n.exact = true) :
    (decodeValue (.number n)).2 = none ∧
    (JSON.number n).sameAs (marshalValue (decodeValue (.number n)).1) = true := by
  have hex : ∃ f, parseFloat64 n = some f ∧ n.sameValue (formatFloat64 f) = true := by
    unfold NumLit.exact at he
    split at he
    · rename_i f hp
      exact ⟨f, hp, he⟩
    · simp at he
  obtain ⟨f, hp, hs⟩ := hex
  have hd : decodeValue (.number n) = (.number f, none) := by
    rw [decodeValue, hp]
  rw [hd]
  exact ⟨rfl, by simp only [marshalValue, JSON.sameAs]; exact hs⟩

theorem array_round_trip (xs : List JSON)
    (h : (decodeArray xs).2 = none ∧ sameElems xs (marshalArray (decodeArray xs).1) = true) :
    (decodeValue (.array xs)).2 = none ∧
    (JSON.array xs).sameAs (marshalValue (decodeValue (.array xs)).1) = true := by
  simp [decodeValue, marshalValue, JSON.sameAs, h]

theorem elems_round_trip (x : JSON) (xs : List JSON)
    (h1 : (decodeValue x).2 = none ∧ x.sameAs (marshalValue (decodeValue x).1) = true)
    (h2 : (decodeArray xs).2 = none ∧ sameElems xs (marshalArray (decodeArray xs).1) = true) :
    (decodeArray (x :: xs)).2 = none ∧
    sameElems (x :: xs) (marshalArray (decodeArray (x :: xs)).1) = true := by
  simp [decodeArray, marshalArray, sameElems, h1, h2]

theorem distinctKeys_object (ms : List (String × JSON)) (h : (JSON.object ms).distinctKeys = true) :
    (ms.map Prod.fst).Nodup ∧ distinctKeysMembers ms = true := by
  simpa [JSON.distinctKeys] using h

theorem distinctKeys_array (xs : List JSON) (h : (JSON.array xs).distinctKeys = true) :
    distinctKeysElems xs = true := by
  simpa [JSON.distinctKeys] using h

theorem exactNumbers_object (ms : List (String × JSON)) (h : (JSON.object ms).exactNumbers = true) :
    exactNumbersMembers ms = true := by
  simpa [JSON.exactNumbers] using h

theorem exactNumbers_array (xs : List JSON) (h : (JSON.array xs).exactNumbers = true) :
    exactNumbersElems xs = true := by
  simpa [JSON.exactNumbers] using h

theorem exactNumbers_number (n : NumLit) (h : (JSON.number n).exactNumbers = true) :
    n.exact = true := by
  simpa [JSON.exactNumbers] using h

theorem distinctKeysElems_cons (x : JSON) (xs : List JSON)
    (h : distinctKeysElems (x :: xs) = true) :
    x.distinctKeys = true ∧ distinctKeysElems xs = true := by
  simpa [distinctKeysElems] using h

theorem exactNumbersElems_cons (x : JSON) (xs : List JSON)
    (h : exactNumbersElems (x :: xs) = true) :
    x.exactNumbers = true ∧ exactNumbersElems xs = true := by
  simpa [exactNumbersElems] using h

theorem distinctKeysMembers_cons (k : String) (v : JSON) (ms : List (String × JSON))
    (h : distinctKeysMembers ((k, v) :: ms) = true) :
    v.distinctKeys = true ∧ distinctKeysMembers ms = true := by
  simpa [distinctKeysMembers] using h

theorem exactNumbersMembers_cons (k : String) (v : JSON) (ms : List (String × JSON))
    (h : exactNumbersMembers ((k, v) :: ms) = true) :
    v.exactNumbers = true ∧ exactNumbersMembers ms = true := by
  simpa [exactNumbersMembers] using h

theorem members_cons {P : String × JSON → Prop} (m : String × JSON) (ms : List (String × JSON))
    (h1 : P m) (h2 : ∀ p ∈ ms, P p) : ∀ p ∈ m :: ms, P p := by
  intro p hp
  rcases List.mem_cons.1 hp with rfl | hp
  · exact h1
  · exact h2 p hp

mutual
/-- A JSON text without duplicate names whose numbers are reproduced by
`float64` is decoded without error, and marshalling the decoded value gives a
text of the same value. -/
theorem roundTrip_value : ∀ (t : JSON), t.distinctKeys = true → t.exactNumbers = true →
    (decodeValue t).2 = none ∧ t.sameAs (marshalValue (decodeValue t).1) = true
  | .null, _, _ => ⟨rfl, rfl⟩
  | .bool _, _, _ => ⟨rfl, beq_self_eq_true _⟩
  | .string _, _, _ => ⟨rfl, beq_self_eq_true _⟩
  | .number n, _, he => number_round_trip n (exactNumbers_number n he)
  | .array xs, hd, he =>
    array_round_trip xs
      (roundTrip_elems xs (distinctKeys_array xs hd) (exactNumbers_array xs he))
  | .object ms, hd, he =>
    object_round_trip ms (distinctKeys_object ms hd).1
      (roundTrip_members ms (distinctKeys_object ms hd).2 (exactNumbers_object ms he))
/-- The same for the elements of an array. -/
theorem roundTrip_elems : ∀ (xs : List JSON), distinctKeysElems xs = true →
    exactNumbersElems xs = true →
    (decodeArray xs).2 = none ∧ sameElems xs (marshalArray (decodeArray xs).1) = true
  | [], _, _ => ⟨rfl, rfl⟩
  | x :: xs, hd, he =>
    elems_round_trip x xs
      (roundTrip_value x (distinctKeysElems_cons x xs hd).1 (exactNumbersElems_cons x xs he).1)
      (roundTrip_elems xs (distinctKeysElems_cons x xs hd).2 (exactNumbersElems_cons x xs he).2)
/-- The same for the values of the members of an object. -/
theorem roundTrip_members : ∀ (ms : List (String × JSON)), distinctKeysMembers ms = true →
    exactNumbersMembers ms = true →
    ∀ p ∈ ms, (decodeValue p.2).2 = none ∧
      p.2.sameAs (marshalValue (decodeValue p.2).1) = true
  | [], _, _ => fun _ hp => absurd hp (List.not_mem_nil _)
  | (k, v) :: ms, hd, he =>
    members_cons (k, v) ms
      (roundTrip_value v (distinctKeysMembers_cons k v ms hd).1
        (exactNumbersMembers_cons k v ms he).1)
      (roundTrip_members ms (distinctKeysMembers_cons k v ms hd).2
        (exactNumbersMembers_cons k v ms he).2)
end

/-- C9 (amended): for every message file whose content is a JSON object in
which no object has two members of the same name and every number is
reproduced by `float64` (as 1 and 2 are), `parseContractMsgFromJSON` returns
the encoding of a JSON object with exactly the same set of names and, for
each name, the same value; only the order of the members may differ. -/
theorem contract_msg_round_trip (env : Env) (contractMsgFile path content : String) (w : World)
    (ms : List (String × JSON))
    (hpath : msgFilePath env contractMsgFile w = .ok path)
    (hopen : OpenFile env path w = .ok content)
    (hread : env.ioFails w (.readFile path) = none)
    (hscan : env.jsonScanFirst content = .ok (.object ms))
    (hd : (JSON.object ms).distinctKeys = true)
    (he : (JSON.object ms).exactNumbers = true) :
    ∃ out, parseContractMsgFromJSON env contractMsgFile w = .ok (env.jsonPrint (.object out)) ∧
      (JSON.object ms).sameAs (.object out) = true := by
  obtain ⟨hnone, hsame⟩ := roundTrip_value (.object ms) hd he
  have hdec : decodeValue (.object ms) = (.object (decodeMembers ms).1, (decodeMembers ms).2) := by
    simp [decodeValue]
  rw [hdec] at hnone hsame
  simp only at hnone hsame
  refine ⟨(marshalMembers (decodeMembers ms).1).insertionSort memberLe, ?_, ?_⟩
  · simp only [parseContractMsgFromJSON, hpath, hopen, hread, hscan, decodeMap]
    rw [show decodeMembers ms = ((decodeMembers ms).1, (none : Option String)) from
      Prod.ext rfl hnone]
    simp only [marshalMap, marshalValue]
  · simpa only [marshalValue] using hsame

/-- C9 witness: the file `ba.json` holds the object with members `b` = 2 and
`a` = 1; the returned string encodes an object of the same value. -/
theorem contract_msg_round_trip_witness :
    ∃ out, parseContractMsgFromJSON msgEnv "ba.json" msgWorld
        = .ok (msgEnv.jsonPrint (.object out)) ∧
      (JSON.object [("b", .number { neg := false, digits := 2, exp10 := 0 }),
                    ("a", .number { neg := false, digits := 1, exp10 := 0 })]).sameAs
        (.object out) = true :=
  contract_msg_round_trip msgEnv "ba.json" "/work/ba.json" "\x7b\"b\":2,\"a\":1\x7d" msgWorld
    [("b", .number { neg := false, digits := 2, exp10 := 0 }),
     ("a", .number { neg := false, digits := 1, exp10 := 0 })]
    rfl rfl rfl rfl rfl rfl

/-! ### Test-asset issuance -/

/-- C10 (the code at the failing input): the node answers generate-test-token
with HTTP 200 and a body with `status=false`; `GenerateOneTestRBT` does not
look at the flag, sends the confirmation for the `result.id` of the body and
returns a nil error. -/
theorem generateOneTestRBT_ignores_status :
    rbtEnv.jsonScan rbtRejectBody =
      .ok (.object [("status", .bool false), ("message", .string "token limit reached"),
                    ("result", .object [("id", .string "req-9")])]) ∧
    (GenerateOneTestRBT rbtEnv "http://localhost:20011" "did:holder" World.empty).1 = .ok () ∧
    (GenerateOneTestRBT rbtEnv "http://localhost:20011" "did:holder" World.empty).2.trace =
      [.post "http://localhost:20011/api/generate-test-token" (.generateTestToken 1 "did:holder")
         (.body 200 rbtRejectBody),
       .post "http://localhost:20011/api/signature-response"
         (.signatureResponse "req-9" 0 "mypassword") (.body 200 sigOkBody)] :=
  ⟨rfl, rfl, rfl⟩

/-! ### Integers below 2 ^ 53 are reproduced by float64 -/

theorem bitLenAux_zero (fuel : Nat) : bitLenAux fuel 0 = 0 := by
  cases fuel <;> simp [bitLenAux]

/-- For a positive number the bit length brackets it between two powers of
two. -/
theorem bitLenAux_spec (fuel n : Nat) (hf : n ≤ fuel) (hn : 0 < n) :
    1 ≤ bitLenAux fuel n ∧ 2 ^ (bitLenAux fuel n - 1) ≤ n ∧ n < 2 ^ bitLenAux fuel n := by
  induction fuel generalizing n with
  | zero => omega
  | succ fuel ih =>
    have hne : n ≠ 0 := by omega
    simp only [bitLenAux, hne, if_false]
    by_cases h2 : n / 2 = 0
    · have h1 : n = 1 := by omega
      subst h1
      simp [bitLenAux_zero]
    · obtain ⟨i1, i2, i3⟩ := ih (n / 2) (by omega) (by omega)
      refine ⟨by omega, ?_, ?_⟩
      · have : 1 + bitLenAux fuel (n / 2) - 1 = (bitLenAux fuel (n / 2) - 1) + 1 := by omega
        rw [this, pow_succ]
        omega
      · rw [Nat.add_comm, pow_succ]
        omega

theorem bitLen_spec (n : Nat) (hn : 0 < n) :
    1 ≤ bitLen n ∧ 2 ^ (bitLen n - 1) ≤ n ∧ n < 2 ^ bitLen n :=
  bitLenAux_spec n n le_rfl hn

theorem bitLen_le_of_lt (n b : Nat) (hn : 0 < n) (h : n < 2 ^ b) : bitLen n ≤ b := by
  obtain ⟨h1, h2, _⟩ := bitLen_spec n hn
  by_contra hc
  have : b ≤ bitLen n - 1 := by omega
  have := Nat.pow_le_pow_right (by decide : 0 < 2) this
  omega

theorem roundHalfEven_one (a : Nat) : roundHalfEven a 1 = a := by
  simp [roundHalfEven, Nat.mod_one]

/-- The nearest `float64` of a positive integer below `2 ^ 53` is the integer
itself, scaled to a 53-bit mantissa. -/
theorem nearestFloat64_int (n : Nat) (hn : 0 < n) (hlt : n < 2 ^ 53) :
    nearestFloat64 n 1 = some (n * 2 ^ (53 - bitLen n), (bitLen n : Int) - 53) := by
  obtain ⟨h1, h2, h3⟩ := bitLen_spec n hn
  have hb : bitLen n ≤ 53 := bitLen_le_of_lt n 53 hn hlt
  have hb1 : bitLen 1 = 1 := by decide
  have hfl : floorLog2 n 1 = (bitLen n : Int) - 1 := by
    unfold floorLog2
    simp only [hb1, Nat.cast_one]
    have hl : (0 : Int) ≤ (bitLen n : Int) - 1 := by omega
    have ht : ((bitLen n : Int) - 1).toNat = bitLen n - 1 := by omega
    simp only [scale2, hl, if_true, ht, one_mul, h2]
  unfold nearestFloat64
  simp only [hfl]
  have he : max ((bitLen n : Int) - 1 - 52) (-1074) = (bitLen n : Int) - 53 := by omega
  simp only [he]
  have hm : roundHalfEven (scale2 n 1 ((bitLen n : Int) - 53)).1
      (scale2 n 1 ((bitLen n : Int) - 53)).2 = n * 2 ^ (53 - bitLen n) := by
    unfold scale2
    by_cases h0 : (0 : Int) ≤ (bitLen n : Int) - 53
    · have hbe : bitLen n = 53 := by omega
      simp [h0, hbe, roundHalfEven_one]
    · have ht : (-((bitLen n : Int) - 53)).toNat = 53 - bitLen n := by omega
      simp [h0, ht, roundHalfEven_one]
  simp only [hm]
  have hM : n * 2 ^ (53 - bitLen n) < 2 ^ 53 := by
    calc n * 2 ^ (53 - bitLen n) < 2 ^ bitLen n * 2 ^ (53 - bitLen n) :=
          Nat.mul_lt_mul_of_pos_right h3 (by positivity)
      _ = 2 ^ 53 := by rw [← pow_add]; congr 1; omega
  have hne : n * 2 ^ (53 - bitLen n) ≠ 2 ^ 53 := by omega
  simp only [hne, if_false]
  have : ¬ ((971 : Int) < (bitLen n : Int) - 53) := by omega
  simp only [this, if_false]
theorem decLenAux_zero (fuel : Nat) : decLenAux fuel 0 = 0 := by
  cases fuel <;> simp [decLenAux]

theorem decLenAux_spec (fuel n : Nat) (hf : n ≤ fuel) (hn : 0 < n) :
    1 ≤ decLenAux fuel n ∧ 10 ^ (decLenAux fuel n - 1) ≤ n ∧ n < 10 ^ decLenAux fuel n := by
  induction fuel generalizing n with
  | zero => omega
  | succ fuel ih =>
    have hne : n ≠ 0 := by omega
    simp only [decLenAux, hne, if_false]
    by_cases h2 : n / 10 = 0
    · have h1 : n < 10 := by omega
      rw [h2, decLenAux_zero]
      simp
      omega
    · obtain ⟨i1, i2, i3⟩ := ih (n / 10) (by omega) (by omega)
      refine ⟨by omega, ?_, ?_⟩
      · have : 1 + decLenAux fuel (n / 10) - 1 = (decLenAux fuel (n / 10) - 1) + 1 := by omega
        rw [this, pow_succ]
        omega
      · rw [Nat.add_comm, pow_succ]
        omega

theorem decLen_spec (n : Nat) (hn : 0 < n) :
    1 ≤ decLen n ∧ 10 ^ (decLen n - 1) ≤ n ∧ n < 10 ^ decLen n :=
  decLenAux_spec n n le_rfl hn

theorem decLen_mono (a b : Nat) (ha : 0 < a) (hab : a ≤ b) : decLen a ≤ decLen b := by
  obtain ⟨a1, a2, _⟩ := decLen_spec a ha
  obtain ⟨_, _, b3⟩ := decLen_spec b (by omega)
  by_contra hc
  have : decLen b ≤ decLen a - 1 := by omega
  have := Nat.pow_le_pow_right (by decide : 0 < 10) this
  omega

theorem decLen_le_of_lt (n b : Nat) (hn : 0 < n) (h : n < 10 ^ b) : decLen n ≤ b := by
  obtain ⟨h1, h2, _⟩ := decLen_spec n hn
  by_contra hc
  have : b ≤ decLen n - 1 := by omega
  have := Nat.pow_le_pow_right (by decide : 0 < 10) this
  omega

/-- For a fraction that is at least one, the decimal order found by
`floorLog10` is not negative and not larger than the decimal length of the
numerator. -/
theorem floorLog10_range (p q : Nat) (hq : 0 < q) (hpq : q ≤ p) :
    0 ≤ floorLog10 p q ∧ floorLog10 p q ≤ (decLen p : Int) := by
  have hm := decLen_mono q p hq hpq
  unfold floorLog10
  dsimp only
  by_cases hl : decLen p = decLen q
  · have h0 : (decLen p : Int) - (decLen q : Int) = 0 := by omega
    rw [h0]
    have hs : scale10 p q 0 = (p, q) := by simp [scale10]
    rw [hs]
    simp only [hpq, if_true]
    omega
  · split_ifs <;> omega

theorem stripZeros_value (fuel c : Nat) (j : Int) (hj : 0 ≤ j) :
    0 ≤ (stripZeros fuel c j).2 ∧
    (stripZeros fuel c j).1 * 10 ^ (stripZeros fuel c j).2.toNat = c * 10 ^ j.toNat := by
  induction fuel generalizing c j with
  | zero => simp [stripZeros, hj]
  | succ fuel ih =>
    simp only [stripZeros]
    split_ifs with h
    · obtain ⟨i1, i2⟩ := ih (c / 10) (j + 1) (by omega)
      refine ⟨i1, ?_⟩
      rw [i2]
      have ht : (j + 1).toNat = j.toNat + 1 := by omega
      rw [ht, pow_succ]
      have hc : c / 10 * 10 = c := Nat.div_mul_cancel (Nat.dvd_of_mod_eq_zero h.2)
      calc c / 10 * (10 ^ j.toNat * 10) = (c / 10 * 10) * 10 ^ j.toNat := by ring
        _ = c * 10 ^ j.toNat := by rw [hc]
    · exact ⟨hj, rfl⟩
theorem scale10_nat (p q j : Nat) : scale10 p q (j : Int) = (p, q * 10 ^ j) := by
  simp [scale10]

theorem decFrac_nat (c j : Nat) : decFrac c (j : Int) = (c * 10 ^ j, 1) := by
  simp [decFrac]

/-- On an integer value `n` with a rounding interval narrower than one on both
sides, the search for the shortest decimal returns a decimal of value `n`. -/
theorem shortestAux_int (n D δ : Nat) (hD : 4 ≤ D) (hδ : δ ≤ 2) (incl : Bool) (k : Int)
    (fuel iter j : Nat) (hj : k - (iter : Int) + 1 = (j : Int)) (hfuel : j ≤ fuel) :
    0 ≤ (shortestAux (n * D, D) (n * D - δ, D) (n * D + 2, D) incl k fuel iter).2 ∧
    (shortestAux (n * D, D) (n * D - δ, D) (n * D + 2, D) incl k fuel iter).1 *
      10 ^ (shortestAux (n * D, D) (n * D - δ, D) (n * D + 2, D) incl k fuel iter).2.toNat
      = n := by
  have hD0 : 0 < D := by omega
  have hdiv : ∀ i : Nat, n * D / (D * 10 ^ i) = n / 10 ^ i := by
    intro i; rw [Nat.mul_comm D, Nat.mul_div_mul_right _ _ hD0]
  have hmod : ∀ i : Nat, n * D % (D * 10 ^ i) = n % 10 ^ i * D := by
    intro i; rw [Nat.mul_comm D, Nat.mul_mod_mul_right]
  induction fuel generalizing iter j with
  | zero =>
    have j0 : j = 0 := by omega
    rw [shortestAux]
    simp only [hj, scale10_nat, hdiv]
    subst j0
    simp
  | succ fuel ih =>
    rw [shortestAux]
    simp only [hj, scale10_nat, hdiv, hmod, decFrac_nat]
    by_cases hex : n % 10 ^ j = 0
    · have hval : n / 10 ^ j * 10 ^ j = n := Nat.div_mul_cancel (Nat.dvd_of_mod_eq_zero hex)
      simp [hex, hval]
    · have hpos : 0 < 10 ^ j := by positivity
      have hdm := Nat.div_add_mod n (10 ^ j)
      have hlt := Nat.mod_lt n hpos
      have hj1 : 1 ≤ j := by
        by_contra hc
        have : j = 0 := by omega
        subst this
        simp [Nat.mod_one] at hex
      have hmd : n % 10 ^ j * D ≠ 0 := Nat.mul_ne_zero hex (by omega)
      have hdown : (n / 10 ^ j * 10 ^ j + 1) * D ≤ n * D :=
        Nat.mul_le_mul_right D (by rw [Nat.mul_comm] ; omega)
      have hup : (n + 1) * D ≤ (n / 10 ^ j + 1) * 10 ^ j * D :=
        Nat.mul_le_mul_right D (by rw [Nat.add_mul, Nat.mul_comm (n / 10 ^ j)]; omega)
      have hokd1 : ¬ (n * D - δ ≤ n / 10 ^ j * 10 ^ j * D) := by
        rw [Nat.add_mul] at hdown
        omega
      have hokd2 : ¬ (n * D - δ < n / 10 ^ j * 10 ^ j * D) := by
        rw [Nat.add_mul] at hdown
        omega
      have hoku1 : ¬ ((n / 10 ^ j + 1) * 10 ^ j * D ≤ n * D + 2) := by
        rw [Nat.add_mul n] at hup
        omega
      have hoku2 : ¬ ((n / 10 ^ j + 1) * 10 ^ j * D < n * D + 2) := by
        rw [Nat.add_mul n] at hup
        omega
      have hrec := ih (iter + 1) (j - 1) (by push_cast; omega) (by omega)
      cases incl <;>
        simp [fracLe, fracLt, hmd, hokd1, hokd2, hoku1, hoku2] <;> exact hrec
/-- The shortest decimal of the `float64` of a positive integer below
`2 ^ 53` has the value of that integer. -/
theorem shortestDecimal_int (n : Nat) (hn : 0 < n) (hlt : n < 2 ^ 53) :
    0 ≤ (shortestDecimal (n * 2 ^ (53 - bitLen n)) ((bitLen n : Int) - 53)).2 ∧
    (shortestDecimal (n * 2 ^ (53 - bitLen n)) ((bitLen n : Int) - 53)).1 *
      10 ^ (shortestDecimal (n * 2 ^ (53 - bitLen n)) ((bitLen n : Int) - 53)).2.toNat = n := by
  obtain ⟨h1, h2, h3⟩ := bitLen_spec n hn
  have hb : bitLen n ≤ 53 := bitLen_le_of_lt n 53 hn hlt
  have hx : (0 : Int) ≤ -((bitLen n : Int) - 53 - 2) := by omega
  have hxt : (-((bitLen n : Int) - 53 - 2)).toNat = 55 - bitLen n := by omega
  have hsc : ∀ p : Nat, scale2 p 1 (-((bitLen n : Int) - 53 - 2)) = (p, 2 ^ (55 - bitLen n)) := by
    intro p; unfold scale2; rw [if_pos hx, hxt, one_mul]
  have hD4 : 4 ≤ 2 ^ (55 - bitLen n) := by
    calc 4 = 2 ^ 2 := by norm_num
      _ ≤ 2 ^ (55 - bitLen n) := Nat.pow_le_pow_right (by decide) (by omega)
  have h4M : 4 * (n * 2 ^ (53 - bitLen n)) = n * 2 ^ (55 - bitLen n) := by
    have : 55 - bitLen n = (53 - bitLen n) + 2 := by omega
    rw [this, pow_add]; ring
  have hDle : 2 ^ (55 - bitLen n) ≤ 2 ^ 54 := Nat.pow_le_pow_right (by decide) (by omega)
  have hnD : n * 2 ^ (55 - bitLen n) < 10 ^ 33 := by
    calc n * 2 ^ (55 - bitLen n) < 2 ^ 53 * 2 ^ 54 :=
          Nat.mul_lt_mul_of_lt_of_le hlt hDle (by positivity)
      _ < 10 ^ 33 := by norm_num
  have hDpos : 0 < 2 ^ (55 - bitLen n) := by positivity
  obtain ⟨k0, k1⟩ := floorLog10_range (n * 2 ^ (55 - bitLen n)) (2 ^ (55 - bitLen n)) hDpos
    (Nat.le_mul_of_pos_left _ hn)
  have hk33 := decLen_le_of_lt _ 33 (Nat.mul_pos hn hDpos) hnD
  have key : ∀ δ, δ ≤ 2 → ∀ incl,
      0 ≤ (stripZeros 800
        (shortestAux (n * 2 ^ (55 - bitLen n), 2 ^ (55 - bitLen n))
          (n * 2 ^ (55 - bitLen n) - δ, 2 ^ (55 - bitLen n))
          (n * 2 ^ (55 - bitLen n) + 2, 2 ^ (55 - bitLen n)) incl
          (floorLog10 (n * 2 ^ (55 - bitLen n)) (2 ^ (55 - bitLen n))) 800 1).1
        (shortestAux (n * 2 ^ (55 - bitLen n), 2 ^ (55 - bitLen n))
          (n * 2 ^ (55 - bitLen n) - δ, 2 ^ (55 - bitLen n))
          (n * 2 ^ (55 - bitLen n) + 2, 2 ^ (55 - bitLen n)) incl
          (floorLog10 (n * 2 ^ (55 - bitLen n)) (2 ^ (55 - bitLen n))) 800 1).2).2 ∧
      (stripZeros 800
        (shortestAux (n * 2 ^ (55 - bitLen n), 2 ^ (55 - bitLen n))
          (n * 2 ^ (55 - bitLen n) - δ, 2 ^ (55 - bitLen n))
          (n * 2 ^ (55 - bitLen n) + 2, 2 ^ (55 - bitLen n)) incl
          (floorLog10 (n * 2 ^ (55 - bitLen n)) (2 ^ (55 - bitLen n))) 800 1).1
        (shortestAux (n * 2 ^ (55 - bitLen n), 2 ^ (55 - bitLen n))
          (n * 2 ^ (55 - bitLen n) - δ, 2 ^ (55 - bitLen n))
          (n * 2 ^ (55 - bitLen n) + 2, 2 ^ (55 - bitLen n)) incl
          (floorLog10 (n * 2 ^ (55 - bitLen n)) (2 ^ (55 - bitLen n))) 800 1).2).1 *
       10 ^ (stripZeros 800
        (shortestAux (n * 2 ^ (55 - bitLen n), 2 ^ (55 - bitLen n))
          (n * 2 ^ (55 - bitLen n) - δ, 2 ^ (55 - bitLen n))
          (n * 2 ^ (55 - bitLen n) + 2, 2 ^ (55 - bitLen n)) incl
          (floorLog10 (n * 2 ^ (55 - bitLen n)) (2 ^ (55 - bitLen n))) 800 1).1
        (shortestAux (n * 2 ^ (55 - bitLen n), 2 ^ (55 - bitLen n))
          (n * 2 ^ (55 - bitLen n) - δ, 2 ^ (55 - bitLen n))
          (n * 2 ^ (55 - bitLen n) + 2, 2 ^ (55 - bitLen n)) incl
          (floorLog10 (n * 2 ^ (55 - bitLen n)) (2 ^ (55 - bitLen n))) 800 1).2).2.toNat = n := by
    intro δ hδ incl
    obtain ⟨a1, a2⟩ := shortestAux_int n (2 ^ (55 - bitLen n)) δ hD4 hδ incl
      (floorLog10 (n * 2 ^ (55 - bitLen n)) (2 ^ (55 - bitLen n))) 800 1
      (floorLog10 (n * 2 ^ (55 - bitLen n)) (2 ^ (55 - bitLen n))).toNat
      (by push_cast; omega) (by omega)
    obtain ⟨b1, b2⟩ := stripZeros_value 800 _ _ a1
    exact ⟨b1, by rw [b2, a2]⟩
  unfold shortestDecimal
  simp only [hsc, h4M]
  split_ifs
  · exact key 1 (by omega) _
  · exact key 2 (by omega) _

/-- Every integer of magnitude below `2 ^ 53`, written without exponent, is
reproduced by `float64`. -/
theorem integer_exact (neg : Bool) (n : Nat) (hlt : n < 2 ^ 53) :
    NumLit.exact { neg := neg, digits := n, exp10 := 0 } = true := by
  by_cases hn0 : n = 0
  · subst hn0
    simp [NumLit.exact, parseFloat64, formatFloat64, NumLit.sameValue]
  · have hn : 0 < n := Nat.pos_of_ne_zero hn0
    obtain ⟨h1, h2⟩ := shortestDecimal_int n hn hlt
    have hM : n * 2 ^ (53 - bitLen n) ≠ 0 := Nat.mul_ne_zero hn0 (by positivity)
    have hp : parseFloat64 { neg := neg, digits := n, exp10 := 0 } =
        some { neg := neg, mant := n * 2 ^ (53 - bitLen n), exp2 := (bitLen n : Int) - 53 } := by
      simp [parseFloat64, hn0, nearestFloat64_int n hn hlt]
    simp only [NumLit.exact, hp, formatFloat64, hM, if_false, NumLit.sameValue, hn0]
    simp only [decFrac, h1, if_true, le_refl, Int.toNat_zero, pow_zero, mul_one, h2,
      beq_self_eq_true, decide_True, Bool.and_self]

/-! ### The name check -/

/-- Lower-casing leaves a rune of the set a-z, 0-9, hyphen as it is. -/
theorem toLowerRune_of_nameRune (env : Env) (c : Char) (h : nameRune c = true) :
    toLowerRune env c = c := by
  unfold nameRune at h
  simp only [Bool.or_eq_true, Bool.and_eq_true, decide_eq_true_eq, beq_iff_eq] at h
  have hle : ∀ a b : Char, a ≤ b ↔ a.toNat ≤ b.toNat := fun a b => Iff.rfl
  have hasc : c.val < 128 := by
    have : c.toNat < 128 := by
      rcases h with (⟨_, h2⟩ | ⟨_, h2⟩) | h
      · have : c.toNat ≤ 122 := (hle c 'z').1 h2
        omega
      · have : c.toNat ≤ 57 := (hle c '9').1 h2
        omega
      · subst h; decide
    exact this
  have hup : ¬ ('A' ≤ c ∧ c ≤ 'Z') := by
    rintro ⟨u1, u2⟩
    have u1' : 65 ≤ c.toNat := (hle 'A' c).1 u1
    have u2' : c.toNat ≤ 90 := (hle c 'Z').1 u2
    rcases h with (⟨h1, _⟩ | ⟨_, h2⟩) | h
    · have : 97 ≤ c.toNat := (hle 'a' c).1 h1
      omega
    · have : c.toNat ≤ 57 := (hle c '9').1 h2
      omega
    · subst h; revert u1'; decide
  simp [toLowerRune, hasc, hup]

/-- Lower-casing leaves a string of such runes as it is. -/
theorem ToLower_of_nameRunes (env : Env) (name : String)
    (h : ∀ c ∈ name.data, nameRune c = true) : ToLower env name = name := by
  unfold ToLower
  have : name.data.map (toLowerRune env) = name.data := by
    conv_rhs => rw [← List.map_id name.data]
    apply List.map_congr_left
    intro c hc
    simp [toLowerRune_of_nameRune env c (h c hc)]
  rw [this]

/-- C20: `isValidRustName` returns true if and only if the name is not empty,
every character is one of a-z, 0-9, hyphen, and neither the first nor the last
character is a hyphen; the lower-case comparison never rejects a name whose
characters are all in that set. -/
theorem isValidRustName_iff (env : Env) (name : String) :
    (isValidRustName env name = true ↔
      name ≠ "" ∧
      (∀ c ∈ name.data, ('a' ≤ c ∧ c ≤ 'z') ∨ ('0' ≤ c ∧ c ≤ '9') ∨ c = '-') ∧
      name.data.head? ≠ some '-' ∧ name.data.getLast? ≠ some '-') ∧
    ((∀ c ∈ name.data, ('a' ≤ c ∧ c ≤ 'z') ∨ ('0' ≤ c ∧ c ≤ '9') ∨ c = '-') →
      name = ToLower env name) := by
  have hset : ∀ c : Char, nameRune c = true ↔
      (('a' ≤ c ∧ c ≤ 'z') ∨ ('0' ≤ c ∧ c ≤ '9') ∨ c = '-') := by
    intro c
    simp only [nameRune, Bool.or_eq_true, Bool.and_eq_true, decide_eq_true_eq, beq_iff_eq]
    tauto
  have hlow : (∀ c ∈ name.data, ('a' ≤ c ∧ c ≤ 'z') ∨ ('0' ≤ c ∧ c ≤ '9') ∨ c = '-') →
      name = ToLower env name := by
    intro h
    exact (ToLower_of_nameRunes env name (fun c hc => (hset c).2 (h c hc))).symm
  refine ⟨?_, hlow⟩
  constructor
  · intro h
    unfold isValidRustName at h
    split_ifs at h with h1 h2 h3 h4
    refine ⟨h1, ?_, ?_, ?_⟩
    · intro c hc
      simp only [Bool.not_eq_true', Bool.not_eq_false, List.all_eq_true] at h3
      exact (hset c).1 (h3 c hc)
    · intro hh; exact h4 (Or.inl hh)
    · intro hh; exact h4 (Or.inr hh)
  · rintro ⟨h1, h2, h3, h4⟩
    unfold isValidRustName
    have hall : name.data.all nameRune = true := by
      rw [List.all_eq_true]
      exact fun c hc => (hset c).2 (h2 c hc)
    have hl := hlow h2
    rw [if_neg h1, if_neg (by simpa using hl), if_neg (by simp [hall]),
      if_neg (by rintro (hh | hh); exact h3 hh; exact h4 hh)]

/-! ### The structural check of the project directory -/

/-- C19: if the project directory does not contain `src/lib.rs`, `Deploy`
returns an error and leaves the world exactly as it was: no process is
spawned, no stage event is emitted, no file is written and no request is
sent. When the configuration loads, the error is the validation error
`invalid contract directory: must contain lib.rs`. -/
theorem deploy_rejects_missing_source (env : Env) (contractDir homeDir deployerDid : String)
    (w : World) (h : FileExists w (env.join [contractDir, "src", "lib.rs"]) = false) :
    (∃ e, Deploy env contractDir homeDir deployerDid w = (.error e, w)) ∧
    (∀ cfg, LoadConfig env homeDir w = .ok cfg →
      Deploy env contractDir homeDir deployerDid w =
        (.error "invalid contract directory: must contain lib.rs", w)) := by
  have hv : isValidContractDir env contractDir w = false := h
  constructor
  · unfold Deploy
    split
    · exact ⟨_, rfl⟩
    · simp [hv]
  · intro cfg hcfg
    simp [Deploy, hcfg, hv]

/-- C19 witness: the project `proj/counter` has no source file; `Deploy`
returns the validation error and the world is unchanged. -/
theorem deploy_rejects_missing_source_witness :
    Deploy demoEnv "proj/counter" "home" "did:deployer" configOnlyWorld =
      (.error "invalid contract directory: must contain lib.rs", configOnlyWorld) :=
  (deploy_rejects_missing_source demoEnv "proj/counter" "home" "did:deployer" configOnlyWorld
    rfl).2 { Network := { DeployerNodeURL := "http://localhost:20011" } } rfl

/-! ### The artifact of a build -/

/-- C15: after a successful compiler run (and with a filesystem that does not
fail), `buildWasm` looks for the artifact at
`projectDir/target/wasm32-unknown-unknown/debug/n.wasm`, where `n` is the base
name of the project directory with every hyphen replaced by an underscore. If
that file is absent it returns an error; otherwise it returns the path
`Dir(projectDir)/artifacts/n.wasm`, and that file then holds the bytes of the
artifact unchanged. -/
theorem buildWasm_artifact (env : Env) (projectDir : String) (w : World)
    (hio : ∀ w op, env.ioFails w op = none)
    (hcargo : (env.run (MkdirAll env (env.join [projectDir, "target"]) w).2 "cargo"
      ["build", "--target", "wasm32-unknown-unknown"] projectDir).failed = none) :
    (hyphensToUnderscores (env.base projectDir)).data =
      (env.base projectDir).data.map (fun c => if c = '-' then '_' else c) ∧
    ((env.run (MkdirAll env (env.join [projectDir, "target"]) w).2 "cargo"
        ["build", "--target", "wasm32-unknown-unknown"] projectDir).fsAfter.read
        (env.join [projectDir, "target", "wasm32-unknown-unknown", "debug",
          hyphensToUnderscores (env.base projectDir) ++ ".wasm"]) = none →
      ∃ w1, buildWasm env projectDir w =
        (.error ("WASM file not found after build at " ++
          env.join [projectDir, "target", "wasm32-unknown-unknown", "debug",
            hyphensToUnderscores (env.base projectDir) ++ ".wasm"]), w1)) ∧
    (∀ bytes,
      (env.run (MkdirAll env (env.join [projectDir, "target"]) w).2 "cargo"
        ["build", "--target", "wasm32-unknown-unknown"] projectDir).fsAfter.read
        (env.join [projectDir, "target", "wasm32-unknown-unknown", "debug",
          hyphensToUnderscores (env.base projectDir) ++ ".wasm"]) = some bytes →
      ∃ w1, buildWasm env projectDir w =
        (.ok (env.join [env.join [env.dir projectDir, "artifacts"],
          hyphensToUnderscores (env.base projectDir) ++ ".wasm"]), w1) ∧
        w1.fs.read (env.join [env.join [env.dir projectDir, "artifacts"],
          hyphensToUnderscores (env.base projectDir) ++ ".wasm"]) = some bytes) := by
  refine ⟨rfl, ?_, ?_⟩
  · intro habs
    simp only [MkdirAll, hio, FS.read] at hcargo habs
    refine ⟨(buildWasm env projectDir w).2, Prod.ext ?_ rfl⟩
    simp only [buildWasm, MkdirAll, hio, runCmd, hcargo, FileExists, FS.read, habs, Option.isSome_none,
      Bool.not_false, if_true]
  · intro bytes hpres
    simp only [MkdirAll, hio, FS.read] at hcargo hpres
    refine ⟨(buildWasm env projectDir w).2, Prod.ext ?_ rfl, ?_⟩
    · simp only [buildWasm, MkdirAll, hio, runCmd, hcargo, FileExists, FS.read, hpres, Option.isSome_some,
        Bool.not_true, Bool.false_eq_true, if_false, ReadFile, WriteFile]
    · simp only [buildWasm, MkdirAll, hio, runCmd, hcargo, FileExists, FS.read, hpres, Option.isSome_some,
        Bool.not_true, Bool.false_eq_true, if_false, ReadFile, WriteFile]
      simp [List.lookup]

/-- C15 witness: for the project `proj/my-counter` the artifact is looked for
under the name `my_counter.wasm` and copied to `proj/artifacts/my_counter.wasm`. -/
theorem buildWasm_artifact_witness :
    ∃ w1, buildWasm hyphenEnv "proj/my-counter" World.empty =
        (.ok "proj/artifacts/my_counter.wasm", w1) ∧
      w1.fs.read "proj/artifacts/my_counter.wasm" = some "\x00asm" :=
  (buildWasm_artifact hyphenEnv "proj/my-counter" World.empty (fun _ _ => rfl) rfl).2.2
    "\x00asm" rfl

/-! ### Test-asset issuance on a malformed response -/

/-- The decoded map holds, under each name, the decoded last member of that
name. -/
theorem lookup_decodeMembers (ms : List (String × JSON)) (k : String) :
    (decodeMembers ms).1.lookup k = (lastMember k ms).map (fun v => (decodeValue v).1) := by
  induction ms with
  | nil => simp [decodeMembers, lastMember]
  | cons m ms ih =>
    obtain ⟨k1, v1⟩ := m
    simp only [decodeMembers, lastMember]
    by_cases hs : ((decodeMembers ms).1.lookup k1).isSome = true
    · rw [if_pos hs, ih]
      cases hl : lastMember k ms with
      | some v => rfl
      | none =>
        have hk : k1 ≠ k := by
          rintro rfl
          rw [ih, hl] at hs
          simp at hs
        simp [hk]
    · rw [if_neg hs]
      by_cases hk : k = k1
      · subst hk
        have hn : lastMember k ms = none := by
          cases hl : lastMember k ms with
          | none => rfl
          | some v => rw [ih, hl] at hs; simp at hs
        simp [List.lookup, hn]
      · have hb : (k == k1) = false := by simpa using hk
        have hk' : ¬ k1 = k := fun h => hk h.symm
        simp only [List.lookup, hb, ih]
        cases hl : lastMember k ms with
        | some v => rfl
        | none => simp [hk']

theorem decodeValue_object (v : JSON) (m : List (String × Dyn))
    (h : (decodeValue v).1 = .object m) : ∃ rs, v = .object rs ∧ m = (decodeMembers rs).1 := by
  cases v with
  | null => simp [decodeValue] at h
  | bool b => simp [decodeValue] at h
  | number n =>
    simp only [decodeValue] at h
    split at h <;> simp at h
  | string s => simp [decodeValue] at h
  | array xs => simp [decodeValue] at h
  | object rs =>
    simp only [decodeValue, Dyn.object.injEq] at h
    exact ⟨rs, rfl, h.symm⟩

theorem decodeValue_string (v : JSON) (s : String)
    (h : (decodeValue v).1 = .string s) : v = .string s := by
  cases v with
  | null => simp [decodeValue] at h
  | bool b => simp [decodeValue] at h
  | number n =>
    simp only [decodeValue] at h
    split at h <;> simp at h
  | string s1 => simp only [decodeValue, Dyn.string.injEq] at h; rw [h]
  | array xs => simp [decodeValue] at h
  | object rs => simp [decodeValue] at h

/-- If the decoded response holds an object under `result` with a string under
`id`, that string is the pending identifier of the text. -/
theorem pendingIdOf_of_decoded (t : JSON) (result : List (String × Dyn)) (id : String)
    (h1 : ((decodeMap t).1.getD []).lookup "result" = some (.object result))
    (h2 : result.lookup "id" = some (.string id)) : pendingIdOf t = some id := by
  cases t with
  | object ms =>
    simp only [decodeMap, Option.getD_some, lookup_decodeMembers, Option.map_eq_some'] at h1
    obtain ⟨v, hv, hd⟩ := h1
    obtain ⟨rs, rfl, rfl⟩ := decodeValue_object v result hd
    simp only [lookup_decodeMembers, Option.map_eq_some'] at h2
    obtain ⟨v2, hv2, hd2⟩ := h2
    have := decodeValue_string v2 id hd2
    subst this
    simp [pendingIdOf, hv, hv2]
  | null => simp [decodeMap] at h1
  | bool b => simp [decodeMap] at h1
  | number n => simp [decodeMap] at h1
  | string s => simp [decodeMap] at h1
  | array xs => simp [decodeMap] at h1

/-- C11: the node answers generate-test-token with HTTP 200 and a body that is
not valid JSON, or whose JSON has no object-valued `result` holding a string
`id`. Then `GenerateOneTestRBT` returns no error value: it aborts with a
runtime panic at the type assertion, having sent nothing after the request;
a parse error was written to standard output and nothing more was done about
it. -/
theorem generateOneTestRBT_panics_on_malformed (env : Env) (baseURL did url body : String)
    (w : World)
    (hurl : env.joinPath baseURL "/api/generate-test-token" = .ok url)
    (hnew : env.newRequestFails url = none)
    (hrep : env.http w url (.generateTestToken 1 did) = .body 200 body)
    (hbad : (∃ e, env.jsonScan body = .error e) ∨
      (∃ t, env.jsonScan body = .ok t ∧ pendingIdOf t = none)) :
    (∃ p evs, GenerateOneTestRBT env baseURL did w =
        (.panic p, { w with trace := w.trace ++
          ([Event.post url (.generateTestToken 1 did) (.body 200 body)] ++ evs) }) ∧
      (∀ ev ∈ evs, ∃ line, ev = .println line)) ∧
    (∀ e, env.jsonScan body = .error e →
      (GenerateOneTestRBT env baseURL did w).2.trace = w.trace ++
        [Event.post url (.generateTestToken 1 did) (.body 200 body),
         .println ("Error unmarshaling response: " ++ e)]) := by
  have hnot : ∀ (decoded : Option (List (String × Dyn)) × Option String),
      (decoded = (match env.jsonScan body with
        | .error e => (none, some e)
        | .ok t => decodeMap t)) →
      ∀ result id, (decoded.1.getD []).lookup "result" = some (.object result) →
        result.lookup "id" = some (.string id) → False := by
    intro decoded hd result id h1 h2
    rcases hbad with ⟨e, he⟩ | ⟨t, ht, hp⟩
    · rw [he] at hd
      subst hd
      simp at h1
    · rw [ht] at hd
      subst hd
      have := pendingIdOf_of_decoded t result id h1 h2
      rw [hp] at this
      exact Option.noConfusion this
  constructor
  · simp only [GenerateOneTestRBT, hurl, hnew, doPost, hrep]
    rw [if_neg (by simp)]
    generalize hdec : (match env.jsonScan body with
        | .error e => ((none : Option (List (String × Dyn))), some e)
        | .ok t => decodeMap t) = decoded
    have hnot2 := hnot decoded hdec.symm
    have hw2 : ∃ evs, (match decoded.2 with
        | some err3 =>
          ({ fs := w.fs, trace := (w.trace ++
              [Event.post url (.generateTestToken 1 did) (.body 200 body)]) ++
              [.println ("Error unmarshaling response: " ++ err3)] } : World)
        | none => { fs := w.fs, trace := w.trace ++
              [Event.post url (.generateTestToken 1 did) (.body 200 body)] }) =
        { w with trace := w.trace ++
          ([Event.post url (.generateTestToken 1 did) (.body 200 body)] ++ evs) } ∧
        (∀ ev ∈ evs, ∃ line, ev = .println line) := by
      cases decoded.2 with
      | none => exact ⟨[], by simp, by simp⟩
      | some e => exact ⟨[.println ("Error unmarshaling response: " ++ e)], by simp, by simp⟩
    obtain ⟨evs, hevs, hpr⟩ := hw2
    split
    · rename_i result hres
      split
      · rename_i id hid
        exact (hnot2 result id hres hid).elim
      · exact ⟨_, evs, by rw [← hevs], hpr⟩
    · exact ⟨_, evs, by rw [← hevs], hpr⟩
  · intro e he
    simp only [GenerateOneTestRBT, hurl, hnew, doPost, hrep, he]
    rw [if_neg (by simp)]
    simp

/-- C11 witness: the node answers generate-test-token with HTTP 200 and an
HTML page; the run ends in a panic after the request, and the parse error was
printed. -/
theorem generateOneTestRBT_panics_on_malformed_witness :
    (∃ p evs, GenerateOneTestRBT garbledEnv "http://localhost:20011" "did:holder" World.empty =
        (.panic p, { World.empty with trace := World.empty.trace ++
          ([Event.post "http://localhost:20011/api/generate-test-token"
              (.generateTestToken 1 "did:holder") (.body 200 "<html>busy</html>")] ++ evs) }) ∧
      (∀ ev ∈ evs, ∃ line, ev = .println line)) ∧
    (∀ e, garbledEnv.jsonScan "<html>busy</html>" = .error e →
      (GenerateOneTestRBT garbledEnv "http://localhost:20011" "did:holder" World.empty).2.trace =
        World.empty.trace ++
        [Event.post "http://localhost:20011/api/generate-test-token"
            (.generateTestToken 1 "did:holder") (.body 200 "<html>busy</html>"),
         .println ("Error unmarshaling response: " ++ e)]) :=
  generateOneTestRBT_panics_on_malformed garbledEnv "http://localhost:20011" "did:holder"
    "http://localhost:20011/api/generate-test-token" "<html>busy</html>" World.empty
    rfl rfl rfl (Or.inl ⟨"invalid character", rfl⟩)

/-! ### Identity creation -/

/-- C12 (the code at the failing input): the node accepts createdid and
register-did and answers the confirmation request with a body that has
`status=false`. The `signatureResponse` of package `did` does not decode the
body: it returns a nil error, and so `registerDID` returns nil and `CreateDID`
returns the new identity with a nil error. -/
theorem createDID_ignores_confirmation_status :
    (∃ resp, didRejectEnv.unmarshalV1 sigFailBody = .ok resp ∧ resp.Status = false) ∧
    didSignatureResponse didRejectEnv "http://localhost:20011" "req-3" World.empty =
      (none, World.empty.posted "http://localhost:20011/api/signature-response"
        (.signatureResponse "req-3" 0 "mypassword") (.body 200 sigFailBody)) ∧
    (registerDID didRejectEnv "http://localhost:20011" "did:new" World.empty).1 = none ∧
    (CreateDID didRejectEnv "home" false configOnlyWorld).1 = .ok "did:new" ∧
    (CreateDID didRejectEnv "home" false configOnlyWorld).2.trace =
      [.post "http://localhost:20011/api/createdid" (.createDid didConfigText)
         (.body 200 createDidOkBody),
       .post "http://localhost:20011/api/register-did" (.registerDid "did:new")
         (.body 200 registerDidOkBody),
       .post "http://localhost:20011/api/signature-response"
         (.signatureResponse "req-3" 0 "mypassword") (.body 200 sigFailBody)] :=
  ⟨⟨_, rfl, rfl⟩, rfl, rfl, rfl, rfl⟩

/-- The `signatureResponse` of package `did` returns a nil error for every
reply whose body could be read, whatever the body says. -/
theorem didSignatureResponse_ignores_body (env : Env) (baseURL requestId url text : String)
    (code : Nat) (w : World)
    (hurl : env.joinPath baseURL "/api/signature-response" = .ok url)
    (hnew : env.newRequestFails url = none)
    (hrep : env.http w url (.signatureResponse requestId 0 "mypassword") = .body code text) :
    didSignatureResponse env baseURL requestId w =
      (none, w.posted url (.signatureResponse requestId 0 "mypassword") (.body code text)) := by
  simp only [didSignatureResponse, hurl, hnew, doPost, hrep, World.posted]

/-! ### Every event of a deployment -/

/-- All events of a run of `Deploy` satisfy any property that local events,
stage events, and the three kinds of request built by `Deploy` have. -/
theorem Deploy_only {P : Event → Prop} (env : Env) (contractDir homeDir deployerDid : String)
    (w : World)
    (hL : ∀ ev, Event.isLocal ev = true → P ev) (hS : ∀ s, P (.stage s))
    (hG : ∀ url a b c reply, P (.post url (.generateSmartContract deployerDid a b c) reply))
    (hD : ∀ url hash reply, P (.post url (.deploySmartContract "Contract deployment"
      deployerDid 2 { mantissa := 1, exp10 := -3 } hash) reply))
    (hC : ∀ url id reply, P (.post url (.signatureResponse id 0 "mypassword") reply)) :
    Only P w (Deploy env contractDir homeDir deployerDid w).2 := by
  rcases Deploy_cases env contractDir homeDir deployerDid w with
    ⟨e, _, hd⟩ | ⟨cfg, _, ⟨_, hd⟩ | ⟨_, ⟨e, w1, hv, hd⟩ | ⟨w1, hv, ⟨e, w2, hb, hd⟩ |
      ⟨wasmPath, w2, hb, ⟨e, w3, hs, hd⟩ | ⟨w3, hs, ⟨e, w4, hg, hd⟩ |
        ⟨contractHash, w4, hg, ⟨e, w5, hdp, hd⟩ | ⟨requestID, w5, hdp, ⟨e, w6, hc, hd⟩ |
          ⟨w6, hc, hd⟩⟩⟩⟩⟩⟩⟩⟩
  · rw [hd]; exact Only.refl _ _
  · rw [hd]; exact Only.refl _ _
  · rw [hd]; exact (verifyBuildPrerequisites_local hv).mono hL
  · rw [hd]; exact Deploy_upto_build hL (hS _) hv hb
  · rw [hd]; exact Deploy_upto_state hL (hS _) hv hb hs
  · rw [hd]; exact Deploy_upto_generate hL (hS _) (hS _) hG hv hb hs hg
  · rw [hd]
    exact ((Deploy_upto_generate hL (hS _) (hS _) hG hv hb hs hg).trans
      ((onStage_only _ _).mono (by rintro ev rfl; exact hS _))).trans
      (deploySmartContract_only (hD · contractHash ·) hdp)
  · rw [hd]
    exact (((Deploy_upto_generate hL (hS _) (hS _) hG hv hb hs hg).trans
      ((onStage_only _ _).mono (by rintro ev rfl; exact hS _))).trans
      (deploySmartContract_only (hD · contractHash ·) hdp)).trans
      (signatureResponse_only (hC · requestID ·) hc)
  · rw [hd]
    exact (((Deploy_upto_generate hL (hS _) (hS _) hG hv hb hs hg).trans
      ((onStage_only _ _).mono (by rintro ev rfl; exact hS _))).trans
      (deploySmartContract_only (hD · contractHash ·) hdp)).trans
      (signatureResponse_only (hC · requestID ·) hc)

/-! ### The amount carried by the deploy request -/

/-- C13 (the code): `Deploy` has no amount among its inputs, and in every run,
whatever the environment does, each deploy-smart-contract request carries the
amount 0.001. In the demonstration run the one deploy request carries it. -/
theorem deploy_amount_is_constant (env : Env) (contractDir homeDir deployerDid : String)
    (w : World) :
    Only (fun ev => ∀ url c d q amt t reply,
        ev = Event.post url (.deploySmartContract c d q amt t) reply →
        amt = { mantissa := 1, exp10 := -3 })
      w (Deploy env contractDir homeDir deployerDid w).2 ∧
    (Deploy demoEnv "proj/counter" "home" "did:deployer" demoWorld).2.trace.filter
        Event.isDeployCall =
      [.post "http://localhost:20011/api/deploy-smart-contract"
        (.deploySmartContract "Contract deployment" "did:deployer" 2
          { mantissa := 1, exp10 := -3 } "QmContractHash")
        (.body 200 pendingOkBody)] := by
  refine ⟨Deploy_only env contractDir homeDir deployerDid w ?_ ?_ ?_ ?_ ?_, rfl⟩
  · intro ev hl url c d q amt t reply he
    subst he
    simp [Event.isLocal] at hl
  · intro s url c d q amt t reply he
    cases he
  · intro url a b c reply url1 c1 d q amt t reply1 he
    cases he
  · intro url hash reply url1 c1 d q amt t reply1 he
    cases he
    rfl
  · intro url id reply url1 c1 d q amt t reply1 he
    cases he

/-! ### Where the module is looked for -/

/-- C14 (the code at the failing input): the project `proj/counter` is built
into `proj/artifacts/counter.wasm` while the working directory `/work` has an
`artifacts` directory with another module. `getWasmContractPath` returns the
module of the working directory, and `Execute` runs that one; without an
`artifacts` directory in the working directory it fails although the project
was built. For every environment the path returned does not depend on
`contractDir`. -/
theorem getWasmContractPath_uses_working_directory :
    (∀ (env : Env) (d1 d2 : String) (w : World),
      (getWasmContractPath env d1 w).toOption = (getWasmContractPath env d2 w).toOption) ∧
    (buildWasm execEnv "proj/counter" strayWorld).1 = .ok "proj/artifacts/counter.wasm" ∧
    getWasmContractPath execEnv "proj/counter" (buildWasm execEnv "proj/counter" strayWorld).2 =
      .ok "/work/artifacts/other.wasm" ∧
    (Execute execEnv "QmContractHash" "did:executor" "home" "proj/counter" "ba.json"
        (buildWasm execEnv "proj/counter" strayWorld).2).2.trace.getLast? =
      some (.wasmCall "/work/artifacts/other.wasm" "\x7b\"a\":1,\"b\":2\x7d") ∧
    getWasmContractPath execEnv "proj/counter" (buildWasm execEnv "proj/counter" demoWorld).2 =
      .error "failed to read directory: open /work/artifacts: no such file or directory" := by
  refine ⟨?_, rfl, rfl, rfl, rfl⟩
  intro env d1 d2 w
  unfold getWasmContractPath
  cases env.getwd w with
  | error e => rfl
  | ok cwd =>
    dsimp only
    cases ReadDir env (env.join [cwd, "artifacts"]) w with
    | error e => rfl
    | ok entries =>
      dsimp only
      cases entries.find? (fun name => ".wasm".data.isSuffixOf name.data) <;> rfl

/-! ### The outcome of a pipeline call -/

/-- The function `parseContractMsgFromJSON` aborts on the empty path and only
on it. -/
theorem parseContractMsgFromJSON_panic_iff (env : Env) (contractMsgFile : String) (w : World) :
    (∃ p, parseContractMsgFromJSON env contractMsgFile w = .panic p) ↔ contractMsgFile = "" := by
  constructor
  · rintro ⟨p, hp⟩
    unfold parseContractMsgFromJSON at hp
    cases hm : msgFilePath env contractMsgFile w with
    | panic q =>
      unfold msgFilePath at hm
      cases hd : contractMsgFile.data with
      | nil => exact String.ext hd
      | cons c0 cs =>
        rw [hd] at hm
        dsimp only at hm
        split at hm
        · split at hm <;> cases hm
        · cases hm
    | err e => rw [hm] at hp; cases hp
    | ok path =>
      rw [hm] at hp
      dsimp only at hp
      repeat (split at hp <;> try cases hp)
  · rintro rfl
    exact ⟨_, rfl⟩

/-- C16 (the code): `Deploy` always returns either a result with
`Success = true` and a nil error, or an error; `Execute` does so whenever the
message-file path is not empty; on the empty path, once the configuration is
loaded, `Execute` returns nothing: it aborts with a runtime panic, shown also
on the execution scenario. -/
theorem pipeline_outcome_binary_except_empty_path :
    (∀ (env : Env) (contractDir homeDir deployerDid : String) (w : World),
      (∃ res, (Deploy env contractDir homeDir deployerDid w).1 = .ok res ∧ res.Success = true) ∨
      (∃ e, (Deploy env contractDir homeDir deployerDid w).1 = .error e)) ∧
    (∀ (env : Env) (contractHash executorDid homeDir contractDir contractMsgFile : String)
        (w : World), contractMsgFile ≠ "" →
      (∃ res, (Execute env contractHash executorDid homeDir contractDir contractMsgFile w).1
          = .ok res ∧ res.Success = true) ∨
      (∃ e, (Execute env contractHash executorDid homeDir contractDir contractMsgFile w).1
          = .err e)) ∧
    (∀ (env : Env) (contractHash executorDid homeDir contractDir : String) (w : World) cfg,
      LoadConfig env homeDir w = .ok cfg →
      Execute env contractHash executorDid homeDir contractDir "" w =
        (.panic "runtime error: index out of range [0] with length 0", w)) ∧
    Execute execEnv "QmContractHash" "did:executor" "home" "counter" "" execWorld =
      (.panic "runtime error: index out of range [0] with length 0", execWorld) := by
  refine ⟨?_, ?_, ?_, rfl⟩
  · intro env contractDir homeDir deployerDid w
    rcases Deploy_cases env contractDir homeDir deployerDid w with
      ⟨e, _, hd⟩ | ⟨cfg, _, ⟨_, hd⟩ | ⟨_, ⟨e, w1, hv, hd⟩ | ⟨w1, hv, ⟨e, w2, hb, hd⟩ |
        ⟨wasmPath, w2, hb, ⟨e, w3, hs, hd⟩ | ⟨w3, hs, ⟨e, w4, hg, hd⟩ |
          ⟨contractHash, w4, hg, ⟨e, w5, hdp, hd⟩ | ⟨requestID, w5, hdp, ⟨e, w6, hc, hd⟩ |
            ⟨w6, hc, hd⟩⟩⟩⟩⟩⟩⟩⟩
    all_goals first
      | exact Or.inr ⟨_, by rw [hd]⟩
      | exact Or.inl ⟨_, by rw [hd], rfl⟩
  · intro env contractHash executorDid homeDir contractDir contractMsgFile w hne
    rcases Execute_cases env contractHash executorDid homeDir contractDir contractMsgFile w with
      ⟨e, _, hd⟩ | ⟨cfg, _, ⟨p, hp, hd⟩ | ⟨e, _, hd⟩ | ⟨contractMsg, _, ⟨e, w1, _, hd⟩ |
        ⟨requestID, w1, _, ⟨e, w2, _, hd⟩ | ⟨w2, _, ⟨e, w3, _, hd⟩ |
          ⟨contractResult, w3, _, hd⟩⟩⟩⟩⟩
    · exact Or.inr ⟨_, by rw [hd]⟩
    · exact absurd ((parseContractMsgFromJSON_panic_iff env contractMsgFile w).1 ⟨p, hp⟩) hne
    · exact Or.inr ⟨_, by rw [hd]⟩
    · exact Or.inr ⟨_, by rw [hd]⟩
    · exact Or.inr ⟨_, by rw [hd]⟩
    · exact Or.inr ⟨_, by rw [hd]⟩
    · exact Or.inl ⟨_, by rw [hd], rfl⟩
  · intro env contractHash executorDid homeDir contractDir w cfg hcfg
    simp only [Execute, hcfg]
    rfl

/-! ### Stage events -/

theorem verifyBuildPrerequisites_rustup {env : Env} {w w1 : World} {r : Except String Unit}
    (h : verifyBuildPrerequisites env w = (r, w1)) :
    Only (fun ev => Event.isRustup ev = true) w w1 := by
  have one : ∀ (args : List String) (a : World),
      Only (fun ev => Event.isRustup ev = true) a (runCmd env "rustup" args "" a).2 :=
    fun args a => ⟨[.exec "rustup" args ""], rfl, by simp [Event.isRustup]⟩
  unfold verifyBuildPrerequisites at h
  split at h
  · simp only [Prod.mk.injEq] at h; rw [← h.2]; exact Only.refl _ w
  · split at h
    rename_i r1 wa h1
    have q1 : Only (fun ev => Event.isRustup ev = true) w wa := by
      have := one ["target", "list", "--installed"] w
      rw [h1] at this
      exact this
    split at h
    · split at h
      rename_i r2 wb h2
      have q2 : Only (fun ev => Event.isRustup ev = true) wa wb := by
        have := one ["target", "add", "wasm32-unknown-unknown"] wa
        rw [h2] at this
        exact this
      split at h <;>
        (simp only [Prod.mk.injEq] at h; rw [← h.2]; exact q1.trans q2)
    · simp only [Prod.mk.injEq] at h; rw [← h.2]; exact q1

theorem stagesOf_append (xs ys : List Event) : stagesOf (xs ++ ys) = stagesOf xs ++ stagesOf ys := by
  induction xs with
  | nil => rfl
  | cons x xs ih => cases x <;> simp [stagesOf, ih]

theorem stagesOf_nil_of {xs : List Event} (h : ∀ ev ∈ xs, ∀ s, ev ≠ .stage s) :
    stagesOf xs = [] := by
  induction xs with
  | nil => rfl
  | cons x xs ih =>
    have hx := h x (List.mem_cons_self _ _)
    have ih2 := ih (fun ev hev => h ev (List.mem_cons_of_mem _ hev))
    cases x <;> simp_all [stagesOf]

/-- In a list that starts with elements without property `p`, followed by the
mark `s`, an element with property `p` has the mark before it. -/
theorem mark_before {α : Type} {p : α → Prop} {A X pre rest : List α} {s x : α}
    (hA : ∀ a ∈ A, ¬ p a) (hs : ¬ p s) (hx : p x)
    (h : A ++ s :: X = pre ++ x :: rest) : s ∈ pre := by
  induction A generalizing pre with
  | nil =>
    cases pre with
    | nil =>
      simp only [List.nil_append, List.cons.injEq] at h
      exact absurd (h.1 ▸ hx) hs
    | cons y pre' =>
      simp only [List.nil_append, List.cons_append, List.cons.injEq] at h
      rw [h.1]
      exact List.mem_cons_self _ _
  | cons a A ih =>
    cases pre with
    | nil =>
      simp only [List.cons_append, List.nil_append, List.cons.injEq] at h
      exact absurd (h.1 ▸ hx) (hA a (List.mem_cons_self _ _))
    | cons y pre' =>
      simp only [List.cons_append, List.cons.injEq] at h
      exact List.mem_cons_of_mem _ (ih (fun b hb => hA b (List.mem_cons_of_mem _ hb)) h.2)

/-- The events of a run of `Deploy`: runs of `rustup`; then, if the run went
on, the first stage event and local events; then the second stage event and
generate requests; then the third stage event and deploy and confirmation
requests. A run that stops before the third stage event returns an error. -/
theorem Deploy_staged (env : Env) (contractDir homeDir deployerDid : String) (w : World) :
    ∃ V L G D : List Event,
      (∀ ev ∈ V, Event.isRustup ev = true) ∧ (∀ ev ∈ L, Event.isLocal ev = true) ∧
      (∀ ev ∈ G, Event.isGenerateCall ev = true) ∧
      (∀ ev ∈ D, Event.isDeployCall ev = true ∨ Event.isSignatureCall ev = true) ∧
      (((∃ e, (Deploy env contractDir homeDir deployerDid w).1 = .error e) ∧
        ((Deploy env contractDir homeDir deployerDid w).2.trace = w.trace ++ V ∨
         (Deploy env contractDir homeDir deployerDid w).2.trace =
           w.trace ++ (V ++ .stage .StageBuild :: L) ∨
         (Deploy env contractDir homeDir deployerDid w).2.trace =
           w.trace ++ (V ++ .stage .StageBuild :: L ++ .stage .StageGenerate :: G))) ∨
       (Deploy env contractDir homeDir deployerDid w).2.trace =
         w.trace ++ (V ++ .stage .StageBuild :: L ++ .stage .StageGenerate :: G ++
           .stage .StageDeploy :: D)) := by
  have hG : ∀ url a b c reply, Event.isGenerateCall
      (.post url (.generateSmartContract deployerDid a b c) reply) = true :=
    fun _ _ _ _ _ => rfl
  have hDp : ∀ hash url reply, Event.isDeployCall (.post url (.deploySmartContract
      "Contract deployment" deployerDid 2 { mantissa := 1, exp10 := -3 } hash) reply) = true ∨
      Event.isSignatureCall (.post url (.deploySmartContract
      "Contract deployment" deployerDid 2 { mantissa := 1, exp10 := -3 } hash) reply) = true :=
    fun _ _ _ => Or.inl rfl
  have hSg : ∀ id url reply, Event.isDeployCall
      (.post url (.signatureResponse id 0 "mypassword") reply) = true ∨
      Event.isSignatureCall (.post url (.signatureResponse id 0 "mypassword") reply) = true :=
    fun _ _ _ => Or.inr rfl
  have nil : ∀ (q : Event → Prop) (ev : Event), ev ∈ ([] : List Event) → q ev :=
    fun _ _ h => absurd h (List.not_mem_nil _)
  rcases Deploy_cases env contractDir homeDir deployerDid w with
    ⟨e, _, hd⟩ | ⟨cfg, _, ⟨_, hd⟩ | ⟨_, ⟨e, w1, hv, hd⟩ | ⟨w1, hv, ⟨e, w2, hb, hd⟩ |
      ⟨wasmPath, w2, hb, ⟨e, w3, hs, hd⟩ | ⟨w3, hs, ⟨e, w4, hg, hd⟩ |
        ⟨contractHash, w4, hg, ⟨e, w5, hdp, hd⟩ | ⟨requestID, w5, hdp, ⟨e, w6, hc, hd⟩ |
          ⟨w6, hc, hd⟩⟩⟩⟩⟩⟩⟩⟩
  · exact ⟨[], [], [], [], nil _, nil _, nil _, nil _,
      Or.inl ⟨⟨_, by rw [hd]⟩, Or.inl (by rw [hd]; simp)⟩⟩
  · exact ⟨[], [], [], [], nil _, nil _, nil _, nil _,
      Or.inl ⟨⟨_, by rw [hd]⟩, Or.inl (by rw [hd]; simp)⟩⟩
  · obtain ⟨V, tV, pV⟩ := verifyBuildPrerequisites_rustup hv
    exact ⟨V, [], [], [], pV, nil _, nil _, nil _,
      Or.inl ⟨⟨_, by rw [hd]⟩, Or.inl (by rw [hd]; exact tV)⟩⟩
  · obtain ⟨V, tV, pV⟩ := verifyBuildPrerequisites_rustup hv
    obtain ⟨L1, t1, p1⟩ := buildWasm_local hb
    refine ⟨V, L1, [], [], pV, p1, nil _, nil _, Or.inl ⟨⟨_, by rw [hd]⟩, Or.inr (Or.inl ?_)⟩⟩
    rw [hd]
    simp only [t1, onStage, tV, List.append_assoc, List.singleton_append]
  · obtain ⟨V, tV, pV⟩ := verifyBuildPrerequisites_rustup hv
    obtain ⟨L1, t1, p1⟩ := buildWasm_local hb
    obtain ⟨L2, t2, p2⟩ := ensureState_local hs
    refine ⟨V, L1 ++ L2, [], [], pV, ?_, nil _, nil _,
      Or.inl ⟨⟨_, by rw [hd]⟩, Or.inr (Or.inl ?_)⟩⟩
    · intro ev hev
      rcases List.mem_append.1 hev with h | h
      · exact p1 ev h
      · exact p2 ev h
    · rw [hd]
      simp only [t2, t1, onStage, tV, List.append_assoc, List.singleton_append, List.cons_append,
        List.nil_append]
  · obtain ⟨V, tV, pV⟩ := verifyBuildPrerequisites_rustup hv
    obtain ⟨L1, t1, p1⟩ := buildWasm_local hb
    obtain ⟨L2, t2, p2⟩ := ensureState_local hs
    obtain ⟨G, tG, pG⟩ := generateSmartContract_only (P := fun ev => Event.isGenerateCall ev = true) hG hg
    refine ⟨V, L1 ++ L2, G, [], pV, ?_, pG, nil _,
      Or.inl ⟨⟨_, by rw [hd]⟩, Or.inr (Or.inr ?_)⟩⟩
    · intro ev hev
      rcases List.mem_append.1 hev with h | h
      · exact p1 ev h
      · exact p2 ev h
    · rw [hd]
      simp only [tG, t2, t1, onStage, tV, List.append_assoc, List.singleton_append,
        List.cons_append, List.nil_append]
  · obtain ⟨V, tV, pV⟩ := verifyBuildPrerequisites_rustup hv
    obtain ⟨L1, t1, p1⟩ := buildWasm_local hb
    obtain ⟨L2, t2, p2⟩ := ensureState_local hs
    obtain ⟨G, tG, pG⟩ := generateSmartContract_only (P := fun ev => Event.isGenerateCall ev = true) hG hg
    obtain ⟨D1, tD1, pD1⟩ := deploySmartContract_only
      (P := fun ev => Event.isDeployCall ev = true ∨ Event.isSignatureCall ev = true)
      (hDp contractHash) hdp
    refine ⟨V, L1 ++ L2, G, D1, pV, ?_, pG, pD1, Or.inr ?_⟩
    · intro ev hev
      rcases List.mem_append.1 hev with h | h
      · exact p1 ev h
      · exact p2 ev h
    · rw [hd]
      simp only [tD1, tG, t2, t1, onStage, tV, List.append_assoc, List.singleton_append,
        List.cons_append, List.nil_append]
  · obtain ⟨V, tV, pV⟩ := verifyBuildPrerequisites_rustup hv
    obtain ⟨L1, t1, p1⟩ := buildWasm_local hb
    obtain ⟨L2, t2, p2⟩ := ensureState_local hs
    obtain ⟨G, tG, pG⟩ := generateSmartContract_only (P := fun ev => Event.isGenerateCall ev = true) hG hg
    obtain ⟨D1, tD1, pD1⟩ := deploySmartContract_only
      (P := fun ev => Event.isDeployCall ev = true ∨ Event.isSignatureCall ev = true)
      (hDp contractHash) hdp
    obtain ⟨D2, tD2, pD2⟩ := signatureResponse_only
      (P := fun ev => Event.isDeployCall ev = true ∨ Event.isSignatureCall ev = true)
      (hSg requestID) hc
    refine ⟨V, L1 ++ L2, G, D1 ++ D2, pV, ?_, pG, ?_, Or.inr ?_⟩
    · intro ev hev
      rcases List.mem_append.1 hev with h | h
      · exact p1 ev h
      · exact p2 ev h
    · intro ev hev
      rcases List.mem_append.1 hev with h | h
      · exact pD1 ev h
      · exact pD2 ev h
    · rw [hd]
      simp only [tD2, tD1, tG, t2, t1, onStage, tV, List.append_assoc, List.singleton_append,
        List.cons_append, List.nil_append]
  · obtain ⟨V, tV, pV⟩ := verifyBuildPrerequisites_rustup hv
    obtain ⟨L1, t1, p1⟩ := buildWasm_local hb
    obtain ⟨L2, t2, p2⟩ := ensureState_local hs
    obtain ⟨G, tG, pG⟩ := generateSmartContract_only (P := fun ev => Event.isGenerateCall ev = true) hG hg
    obtain ⟨D1, tD1, pD1⟩ := deploySmartContract_only
      (P := fun ev => Event.isDeployCall ev = true ∨ Event.isSignatureCall ev = true)
      (hDp contractHash) hdp
    obtain ⟨D2, tD2, pD2⟩ := signatureResponse_only
      (P := fun ev => Event.isDeployCall ev = true ∨ Event.isSignatureCall ev = true)
      (hSg requestID) hc
    refine ⟨V, L1 ++ L2, G, D1 ++ D2, pV, ?_, pG, ?_, Or.inr ?_⟩
    · intro ev hev
      rcases List.mem_append.1 hev with h | h
      · exact p1 ev h
      · exact p2 ev h
    · intro ev hev
      rcases List.mem_append.1 hev with h | h
      · exact pD1 ev h
      · exact pD2 ev h
    · rw [hd]
      simp only [tD2, tD1, tG, t2, t1, onStage, tV, List.append_assoc, List.singleton_append,
        List.cons_append, List.nil_append]

theorem rustup_facts (ev : Event) (h : Event.isRustup ev = true) :
    (∀ s, ev ≠ .stage s) ∧ ¬ Event.isBuildWork ev = true ∧ ¬ Event.isGenerateCall ev = true ∧
      ¬ Event.isDeployCall ev = true := by
  cases ev <;>
    simp_all [Event.isRustup, Event.isBuildWork, Event.isGenerateCall, Event.isDeployCall]

theorem local_facts (ev : Event) (h : Event.isLocal ev = true) :
    (∀ s, ev ≠ .stage s) ∧ ¬ Event.isGenerateCall ev = true ∧ ¬ Event.isDeployCall ev = true := by
  cases ev <;> simp_all [Event.isLocal, Event.isGenerateCall, Event.isDeployCall]

theorem generate_facts (ev : Event) (h : Event.isGenerateCall ev = true) :
    (∀ s, ev ≠ .stage s) ∧ ¬ Event.isDeployCall ev = true := by
  cases ev with
  | post url req reply => cases req <;> simp_all [Event.isGenerateCall, Event.isDeployCall]
  | _ => simp_all [Event.isGenerateCall]

theorem remote_facts (ev : Event)
    (h : Event.isDeployCall ev = true ∨ Event.isSignatureCall ev = true) : ∀ s, ev ≠ .stage s := by
  cases ev <;> simp_all [Event.isDeployCall, Event.isSignatureCall]

/-- C17: the stage events of a run of `Deploy` form a prefix of
`[StageBuild, StageGenerate, StageDeploy]`; every build step of the run has
the `StageBuild` event before it, every generate request the `StageGenerate`
event, every deploy request the `StageDeploy` event; a successful run reports
exactly the three stages. -/
theorem deploy_stage_sequence (env : Env) (contractDir homeDir deployerDid : String)
    (w : World) :
    ∃ evs, (Deploy env contractDir homeDir deployerDid w).2.trace = w.trace ++ evs ∧
      stagesOf evs <+: [.StageBuild, .StageGenerate, .StageDeploy] ∧
      (∀ pre ev rest, evs = pre ++ ev :: rest →
        (Event.isBuildWork ev = true → .stage .StageBuild ∈ pre) ∧
        (Event.isGenerateCall ev = true → .stage .StageGenerate ∈ pre) ∧
        (Event.isDeployCall ev = true → .stage .StageDeploy ∈ pre)) ∧
      (∀ res, (Deploy env contractDir homeDir deployerDid w).1 = .ok res →
        stagesOf evs = [.StageBuild, .StageGenerate, .StageDeploy]) := by
  obtain ⟨V, L, G, D, pV, pL, pG, pD, hshape⟩ :=
    Deploy_staged env contractDir homeDir deployerDid w
  have sV : stagesOf V = [] := stagesOf_nil_of (fun ev h => (rustup_facts ev (pV ev h)).1)
  have sL : stagesOf L = [] := stagesOf_nil_of (fun ev h => (local_facts ev (pL ev h)).1)
  have sG : stagesOf G = [] := stagesOf_nil_of (fun ev h => (generate_facts ev (pG ev h)).1)
  have sD : stagesOf D = [] := stagesOf_nil_of (fun ev h => remote_facts ev (pD ev h))
  have nB : ∀ a ∈ V, ¬ Event.isBuildWork a = true := fun a h => (rustup_facts a (pV a h)).2.1
  have nG : ∀ a ∈ V ++ Event.stage .StageBuild :: L, ¬ Event.isGenerateCall a = true := by
    intro a ha
    rcases List.mem_append.1 ha with h | h
    · exact (rustup_facts a (pV a h)).2.2.1
    · rcases List.mem_cons.1 h with h | h
      · rw [h]; simp [Event.isGenerateCall]
      · exact (local_facts a (pL a h)).2.1
  have nD : ∀ a ∈ V ++ Event.stage .StageBuild :: L ++ Event.stage .StageGenerate :: G,
      ¬ Event.isDeployCall a = true := by
    intro a ha
    rcases List.mem_append.1 ha with h | h
    · rcases List.mem_append.1 h with h | h
      · exact (rustup_facts a (pV a h)).2.2.2
      · rcases List.mem_cons.1 h with h | h
        · rw [h]; simp [Event.isDeployCall]
        · exact (local_facts a (pL a h)).2.2
    · rcases List.mem_cons.1 h with h | h
      · rw [h]; simp [Event.isDeployCall]
      · exact (generate_facts a (pG a h)).2
  have mem_split : ∀ {pre rest xs : List Event} {ev : Event}, xs = pre ++ ev :: rest → ev ∈ xs :=
    fun h => by rw [h]; simp
  rcases hshape with ⟨⟨e, he⟩, h1 | h2 | h3⟩ | h4
  · refine ⟨V, h1, by rw [sV]; exact List.nil_prefix, ?_, ?_⟩
    · intro pre ev rest hsp
      have hev := pV ev (mem_split hsp)
      exact ⟨fun hb => absurd hb (rustup_facts ev hev).2.1,
        fun hg => absurd hg (rustup_facts ev hev).2.2.1,
        fun hd => absurd hd (rustup_facts ev hev).2.2.2⟩
    · intro res hres
      rw [he] at hres
      cases hres
  · refine ⟨_, h2, ?_, ?_, ?_⟩
    · rw [stagesOf_append, sV]
      simp only [stagesOf, sL, List.nil_append]
      exact ⟨[.StageGenerate, .StageDeploy], rfl⟩
    · intro pre ev rest hsp
      refine ⟨fun hb => mark_before nB (by simp [Event.isBuildWork]) hb hsp,
        fun hg => absurd hg (nG ev (mem_split hsp)), fun hd => ?_⟩
      exact absurd hd (nD ev (List.mem_append_left _ (mem_split hsp)))
    · intro res hres
      rw [he] at hres
      cases hres
  · refine ⟨_, h3, ?_, ?_, ?_⟩
    · rw [stagesOf_append, stagesOf_append, sV]
      simp only [stagesOf, sL, sG, List.nil_append]
      exact ⟨[.StageDeploy], rfl⟩
    · intro pre ev rest hsp
      refine ⟨fun hb => ?_, fun hg => mark_before nG (by simp [Event.isGenerateCall]) hg hsp,
        fun hd => absurd hd (nD ev (mem_split hsp))⟩
      rw [List.append_assoc, List.cons_append] at hsp
      exact mark_before nB (by simp [Event.isBuildWork]) hb hsp
    · intro res hres
      rw [he] at hres
      cases hres
  · have hst : stagesOf (V ++ Event.stage .StageBuild :: L ++ Event.stage .StageGenerate :: G ++
        Event.stage .StageDeploy :: D) = [.StageBuild, .StageGenerate, .StageDeploy] := by
      rw [stagesOf_append, stagesOf_append, stagesOf_append, sV]
      simp only [stagesOf, sL, sG, sD, List.nil_append, List.cons_append]
    refine ⟨_, h4, by rw [hst], ?_, fun _ _ => hst⟩
    intro pre ev rest hsp
    refine ⟨fun hb => ?_, fun hg => ?_, fun hd => mark_before nD (by simp [Event.isDeployCall]) hd hsp⟩
    · rw [List.append_assoc, List.append_assoc, List.cons_append] at hsp
      exact mark_before nB (by simp [Event.isBuildWork]) hb hsp
    · rw [List.append_assoc, List.cons_append] at hsp
      exact mark_before nG (by simp [Event.isGenerateCall]) hg hsp

/-! ### The result of an execution -/

/-- A successful `callWasm` ran the entry function of the located module on
the message and returns its output. -/
theorem callWasm_ok {env : Env} {contractDir contractMsg result : String} {w w1 : World}
    (h : callWasm env contractDir contractMsg w = (.ok result, w1)) :
    ∃ modulePath, getWasmContractPath env contractDir w = .ok modulePath ∧
      env.newWasmModule w modulePath = none ∧
      env.callFunction w modulePath contractMsg = .ok result ∧
      w1 = { w with trace := w.trace ++ [.wasmCall modulePath contractMsg] } := by
  unfold callWasm at h
  split at h
  · simp at h
  · rename_i modulePath hp
    split at h
    · simp at h
    · rename_i hm
      dsimp only at h
      split at h
      · simp at h
      · rename_i r hc
        simp only [Prod.mk.injEq, Except.ok.injEq] at h
        exact ⟨modulePath, hp, hm, by rw [hc, h.1], h.2.symm⟩

/-- C18: a successful `Execute` sent one execute request, whose
`smartContractData` is the re-serialised message, then the confirmation, and
then called the runtime's entry function with that same message; the
`ContractResult` it returns is the string the entry function returned. -/
theorem execute_returns_runtime_output (env : Env)
    (contractHash executorDid homeDir contractDir contractMsgFile : String) (w wf : World)
    (res : ExecutionResult)
    (h : Execute env contractHash executorDid homeDir contractDir contractMsgFile w
      = (.ok res, wf)) :
    ∃ msg modulePath url1 reply1 url2 id reply2,
      parseContractMsgFromJSON env contractMsgFile w = .ok msg ∧
      wf.trace = w.trace ++
        [.post url1 (.executeSmartContract "Contract execution" executorDid 2 msg contractHash)
           reply1,
         .post url2 (.signatureResponse id 0 "mypassword") reply2,
         .wasmCall modulePath msg] ∧
      env.callFunction
        { w with trace := w.trace ++
          [.post url1 (.executeSmartContract "Contract execution" executorDid 2 msg contractHash)
             reply1,
           .post url2 (.signatureResponse id 0 "mypassword") reply2] }
        modulePath msg = .ok res.ContractResult := by
  rcases Execute_cases env contractHash executorDid homeDir contractDir contractMsgFile w with
    ⟨e, _, hd⟩ | ⟨cfg, _, ⟨p, hp, hd⟩ | ⟨e, _, hd⟩ | ⟨contractMsg, hmsg, ⟨e, w1, _, hd⟩ |
      ⟨requestID, w1, hex, ⟨e, w2, _, hd⟩ | ⟨w2, hsig, ⟨e, w3, _, hd⟩ |
        ⟨contractResult, w3, hcall, hd⟩⟩⟩⟩⟩
  all_goals rw [hd] at h
  all_goals simp only [Prod.mk.injEq] at h
  all_goals first | exact Res.noConfusion h.1 | skip
  obtain ⟨hres, hwf⟩ := h
  obtain ⟨url1, code, text, resp, hw1, _, _, _⟩ := executeSmartContract_ok hex
  rcases signatureResponse_spec hsig with ⟨_, e, he⟩ | ⟨url2, hw2, _⟩
  · simp at he
  · obtain ⟨modulePath, _, _, hfun, hw3⟩ := callWasm_ok hcall
    refine ⟨contractMsg, modulePath, url1, .body code text, url2, requestID,
      env.http w1 url2 (.signatureResponse requestID 0 "mypassword"), hmsg, ?_, ?_⟩
    · rw [← hwf, hw3, hw2, hw1]
      simp [World.posted]
    · have hr : res.ContractResult = contractResult := by
        simp only [Res.ok.injEq] at hres
        rw [← hres]
      rw [hr, ← hfun, hw2, hw1]
      simp [World.posted]

/-- C18 witness: the execution scenario, in which the runtime answers with the
name of the module and the payload it was given. -/
theorem execute_returns_runtime_output_witness :
    ∃ msg modulePath url1 reply1 url2 id reply2,
      parseContractMsgFromJSON execEnv "ba.json" execWorld = .ok msg ∧
      (Execute execEnv "QmContractHash" "did:executor" "home" "counter" "ba.json"
          execWorld).2.trace = execWorld.trace ++
        [.post url1 (.executeSmartContract "Contract execution" "did:executor" 2 msg
            "QmContractHash") reply1,
         .post url2 (.signatureResponse id 0 "mypassword") reply2,
         .wasmCall modulePath msg] ∧
      execEnv.callFunction
        { execWorld with trace := execWorld.trace ++
          [.post url1 (.executeSmartContract "Contract execution" "did:executor" 2 msg
              "QmContractHash") reply1,
           .post url2 (.signatureResponse id 0 "mypassword") reply2] }
        modulePath msg =
        .ok "ran /work/artifacts/counter.wasm on \x7b\"a\":1,\"b\":2\x7d" :=
  execute_returns_runtime_output execEnv "QmContractHash" "did:executor" "home" "counter"
    "ba.json" execWorld
    (Execute execEnv "QmContractHash" "did:executor" "home" "counter" "ba.json" execWorld).2
    { Success := true, Message := "Contract executed successfully",
      ContractResult := "ran /work/artifacts/counter.wasm on \x7b\"a\":1,\"b\":2\x7d" }
    rfl

/-! ### A remote message used as a format string -/

/-- C21 (the code at the failing input): the node answers with `status=false`
and the message `disk 100% full`. Each of `generateSmartContract`,
`deploySmartContract`, `executeSmartContract` and `signatureResponse` passes
the message to `fmt.Errorf` as the format string, and the error it returns
reads `disk 100%!f(MISSING)ull`, not the message. For every environment the
error is `fmt.Errorf` of the message, which is the message itself when it has
no `%`. -/
theorem remote_message_is_format_string :
    (percentEnv.unmarshalV1 percentBody =
        .ok { Status := false, Message := "disk 100% full", Result := "" } ∧
      percentEnv.unmarshalV2 percentBody =
        .ok { Status := false, Message := "disk 100% full",
              Result := { Id := "", Mode := 0, Hash := "", OnlyPrivKey := false } }) ∧
    (generateSmartContract percentEnv "http://localhost:20011" "did:deployer"
        "proj/artifacts/counter.wasm" "proj/counter/src/lib.rs" "proj/artifacts/state.json"
        builtWorld).1 = .error "disk 100%!f(MISSING)ull" ∧
    (deploySmartContract percentEnv "http://localhost:20011" "QmContractHash" "did:deployer"
        World.empty).1 = .error "disk 100%!f(MISSING)ull" ∧
    (executeSmartContract percentEnv "http://localhost:20011" "QmContractHash" "did:executor"
        "\x7b\x7d" World.empty).1 = .error "disk 100%!f(MISSING)ull" ∧
    (signatureResponse percentEnv "http://localhost:20011" "req-7" World.empty).1 =
      some "disk 100%!f(MISSING)ull" ∧
    "disk 100%!f(MISSING)ull" ≠ "disk 100% full" ∧
    (∀ (env : Env) (pre text : String) (code : Nat) (resp : SmartContractAPIResponseV1),
      env.unmarshalV1 text = .ok resp → resp.Status = false →
      replyV1 env pre (.body code text) = .error (Errorf0 env resp.Message)) ∧
    (∀ (env : Env) (text : String) (code : Nat) (resp : SmartContractAPIResponseV2),
      env.unmarshalV2 text = .ok resp → resp.Status = false →
      replyV2 env (.body code text) = .error (Errorf0 env resp.Message)) ∧
    (∀ (env : Env) (m : String), '%' ∉ m.data → Errorf0 env m = m) :=
  ⟨⟨rfl, rfl⟩, rfl, rfl, rfl, rfl, by decide,
    fun _ _ _ _ _ hu hs => replyV1_status_false hu hs,
    fun _ _ _ _ hu hs => replyV2_status_false hu hs,
    fun env m h => Errorf0_no_percent env m h⟩

/-! ### Required flags of the execute command -/

/-- C22 (the code at the failing input): with an empty `--contract-hash` or an
empty `--contract-msg-file` the command prints that the flag is required and
returns without a call of `Execute`. With an empty `--contract-dir` (and the
other two flags given) it prints that the flag is required and goes on: it
calls `Execute` with the empty directory and reports its outcome. In the
execution scenario the requests are sent, the module is run and the result is
printed. -/
theorem cmdExecute_missing_contract_dir :
    (∀ (env : Env) (home executorDid contractDir contractMsgFile : String) (w : World),
      cmdExecute env home "" executorDid contractDir contractMsgFile w =
        (.ok (), printLine "Error: --contract-hash is required" w)) ∧
    (∀ (env : Env) (home contractHash executorDid contractDir : String) (w : World),
      contractHash ≠ "" →
      cmdExecute env home contractHash executorDid contractDir "" w =
        (.ok (), printLine "Error: --contract-msg-file is required" w)) ∧
    (∀ (env : Env) (home contractHash executorDid contractMsgFile : String) (w : World)
        (res : ExecutionResult) (wf : World),
      contractHash ≠ "" → contractMsgFile ≠ "" →
      Execute env contractHash executorDid home "" contractMsgFile
          (printLine "Executing smart contract..."
            (printLine "Error: --contract-dir is required" w)) = (.ok res, wf) →
      cmdExecute env home contractHash executorDid "" contractMsgFile w =
        (.ok (), printLine ("Contract Result: " ++ res.ContractResult) wf)) ∧
    (cmdExecute execEnv "home" "QmContractHash" "did:executor" "" "ba.json" execWorld).2.trace =
      [.println "Error: --contract-dir is required",
       .println "Executing smart contract...",
       .post "http://localhost:20011/api/execute-smart-contract"
         (.executeSmartContract "Contract execution" "did:executor" 2
           "\x7b\"a\":1,\"b\":2\x7d" "QmContractHash")
         (.body 200 pendingOkBody),
       .post "http://localhost:20011/api/signature-response"
         (.signatureResponse "req-7" 0 "mypassword") (.body 200 sigOkBody),
       .wasmCall "/work/artifacts/counter.wasm" "\x7b\"a\":1,\"b\":2\x7d",
       .println
         "Contract Result: ran /work/artifacts/counter.wasm on \x7b\"a\":1,\"b\":2\x7d"] := by
  refine ⟨?_, ?_, ?_, rfl⟩
  · intro env home executorDid contractDir contractMsgFile w
    simp [cmdExecute]
  · intro env home contractHash executorDid contractDir w hh
    simp [cmdExecute, hh]
  · intro env home contractHash executorDid contractMsgFile w res wf hh hm hex
    have hs : res.Success = true := by
      rcases Execute_cases env contractHash executorDid home "" contractMsgFile
          (printLine "Executing smart contract..."
            (printLine "Error: --contract-dir is required" w)) with
        ⟨e, _, hd⟩ | ⟨cfg, _, ⟨p, hp, hd⟩ | ⟨e, _, hd⟩ | ⟨contractMsg, _, ⟨e, w1, _, hd⟩ |
          ⟨requestID, w1, _, ⟨e, w2, _, hd⟩ | ⟨w2, _, ⟨e, w3, _, hd⟩ |
            ⟨contractResult, w3, _, hd⟩⟩⟩⟩⟩
      all_goals rw [hd] at hex
      all_goals simp only [Prod.mk.injEq] at hex
      all_goals first | exact Res.noConfusion hex.1 | skip
      have := hex.1
      simp only [Res.ok.injEq] at this
      rw [← this]
    simp [cmdExecute, hh, hm, hex, hs]

/-! ### The empty message-file path -/

/-- C23 (the code at the failing input): on the empty path
`parseContractMsgFromJSON` evaluates `contractMsgFile[0]` and aborts with an
index-out-of-range panic, in every environment; `Execute` called with the
empty path, once the configuration is loaded, aborts with it and returns no
error, as in the execution scenario. On every other path the function returns
a message or an error. -/
theorem parseContractMsgFromJSON_empty_path_panics :
    (∀ (env : Env) (w : World),
      parseContractMsgFromJSON env "" w =
        .panic "runtime error: index out of range [0] with length 0") ∧
    (∀ (env : Env) (contractMsgFile : String) (w : World), contractMsgFile ≠ "" →
      (∃ msg, parseContractMsgFromJSON env contractMsgFile w = .ok msg) ∨
      (∃ e, parseContractMsgFromJSON env contractMsgFile w = .err e)) ∧
    LoadConfig execEnv "home" execWorld =
      .ok { Network := { DeployerNodeURL := "http://localhost:20011" } } ∧
    (Execute execEnv "QmContractHash" "did:executor" "home" "counter" "" execWorld).1 =
      .panic "runtime error: index out of range [0] with length 0" ∧
    (∀ e, (Execute execEnv "QmContractHash" "did:executor" "home" "counter" "" execWorld).1 ≠
      .err e) := by
  refine ⟨fun _ _ => rfl, ?_, rfl, rfl, ?_⟩
  · intro env contractMsgFile w hne
    cases h : parseContractMsgFromJSON env contractMsgFile w with
    | ok msg => exact Or.inl ⟨msg, rfl⟩
    | err e => exact Or.inr ⟨e, rfl⟩
    | panic p =>
      exact absurd ((parseContractMsgFromJSON_panic_iff env contractMsgFile w).1 ⟨p, h⟩) hne
  · intro e h
    have hp : (Execute execEnv "QmContractHash" "did:executor" "home" "counter" ""
        execWorld).1 = .panic "runtime error: index out of range [0] with length 0" := rfl
    rw [hp] at h
    exact Res.noConfusion h

end Nexus
